import Mathlib

/-!
# MIOpen: solver selection, tuning cache and find-solution engine

A shallow embedding of `src/include/miopen/find_solution.hpp`, of the applicability
predicate of `src/solver/conv_winoRxS_f3x2.cpp` and of `HipBuild` of
`src/hip/hip_build_utils.cpp`.

* Stateful code is written in explicit state-passing style: every call of
  `FindSolution` takes the tuning cache and returns an `Outcome` holding the
  returned value (or the `miopen::Exception` that left the function), the cache
  after the call, and the list of solver and cache member functions that were
  called, in call order.
* The template parameters `Solver`, `Context` and `Db` are modelled by the
  structures below; only the members that `find_solution.hpp` uses appear.
-/

namespace miopen

/-- Status codes of the library. `find_solution.hpp` names `miopenStatusUnknownError`
(the status of the initial solution of `SearchForSolution`); `Succeeded()` compares
with `miopenStatusSuccess`. -/
inductive miopenStatus_t where
  | miopenStatusSuccess
  | miopenStatusNotInitialized
  | miopenStatusInvalidValue
  | miopenStatusBadParm
  | miopenStatusAllocFailed
  | miopenStatusInternalError
  | miopenStatusNotImplemented
  | miopenStatusUnknownError
  deriving DecidableEq, Repr

/-- The domain error `miopen::Exception`: the only exception type that the
`try`/`catch` of `FindSolutionImpl` handles. -/
structure Exception where
  status : miopenStatus_t
  message : String
  deriving DecidableEq, Repr

/-- One kernel build request: `KernelInfo`, as filled in by
`ConvBinWinogradRxSf3x2::GetSolution`. -/
structure KernelInfo where
  comp_options : String
  l_wk : List Nat
  g_wk : List Nat
  kernel_file : String
  kernel_name : String
  deriving DecidableEq, Repr

/-- The output of a solver: `ConvSolution` with the members that
`find_solution.hpp` reads or writes (`status` through `Succeeded()`,
`solver_id`, `construction_params`) and the workspace requirement. -/
structure ConvSolution where
  status : miopenStatus_t
  solver_id : String
  construction_params : List KernelInfo
  workspce_sz : Nat
  deriving DecidableEq, Repr

/-- The member `ConvSolution::Succeeded()`. -/
def ConvSolution.Succeeded (solution : ConvSolution) : Bool :=
  solution.status == miopenStatus_t.miopenStatusSuccess

/-- The `Context` template parameter. `problem` stands for the fields of the
problem descriptor that make up its fingerprint (the problem component of
the cache key); `do_search` and `disable_perfdb_access` are the two flags
that `FindSolutionImpl` reads. -/
structure Context (P : Type) where
  problem : P
  do_search : Bool
  disable_perfdb_access : Bool
  deriving DecidableEq, Repr

/-- The enforcement policy `FindEnforce` (declared in `find_controls.hpp`),
taken as a parameter: the three queries that `FindSolutionImpl` makes on it. -/
structure FindEnforce (P : Type) where
  IsDbClean : Context P → Bool
  IsSearch : Context P → Bool
  IsDbUpdate : Context P → Bool

/-- Modelled from the spec: the tuning cache (PerfDb), the `Db` template
parameter whose class is not part of the sources at hand. A key-value store
from (problem fingerprint, solver identifier) to a performance configuration;
absence of a record is the normal "not found" state. -/
structure PerfDb (P Cfg : Type) where
  records : P → String → Option Cfg

/-- Modelled from the spec: `Db::Load`. `some c` stands for the C++ result
`true` with `c` stored in the output argument, `none` for `false`. -/
def PerfDb.Load {P Cfg : Type} (db : PerfDb P Cfg) (context : Context P) (id : String) :
    Option Cfg :=
  db.records context.problem id

/-- Modelled from the spec: `Db::Update`, an upsert of the record under
(fingerprint, solver id); every other record is kept. -/
def PerfDb.Update {P Cfg : Type} [DecidableEq P] (db : PerfDb P Cfg) (context : Context P)
    (id : String) (c : Cfg) : PerfDb P Cfg :=
  { records := fun p i => if p = context.problem ∧ i = id then some c else db.records p i }

/-- Modelled from the spec: `Db::Remove`. The Boolean tells whether a record
was there to remove; every other record is kept. -/
def PerfDb.Remove {P Cfg : Type} [DecidableEq P] (db : PerfDb P Cfg) (context : Context P)
    (id : String) : Bool × PerfDb P Cfg :=
  ((db.records context.problem id).isSome,
   { records := fun p i => if p = context.problem ∧ i = id then none else db.records p i })

/-- The members common to all solvers that `find_solution.hpp` uses:
`SolverDbId(s)`, `IsApplicable`, `IsFast` and `GetWorkspaceSize`. -/
structure SolverBase (P : Type) where
  SolverDbId : String
  IsApplicable : Context P → Bool
  IsFast : Context P → Bool
  GetWorkspaceSize : Context P → Nat

/-- A searchable solver: one for which `s.GetSolution(context, s.Search(context))`
is well formed, so that overload resolution picks `FindSolutionImpl(rank<1>, ...)`.
`Search` and `GetSolution` may throw `miopen::Exception`. -/
structure SearchableSolver (P Cfg : Type) extends SolverBase P where
  GetPerformanceConfig : Context P → Cfg
  IsValidPerformanceConfig : Context P → Cfg → Bool
  Search : Context P → Except Exception Cfg
  GetSolution : Context P → Cfg → Except Exception ConvSolution

/-- A solver without search capability: it only has `GetSolution(context)`, so
overload resolution falls back to `FindSolutionImpl(rank<0>, ...)`. -/
structure NonSearchableSolver (P : Type) extends SolverBase P where
  GetSolution : Context P → Except Exception ConvSolution

/-- Either kind of solver, as accepted by the `FindSolution` template. -/
inductive Solver (P Cfg : Type) where
  | searchable (s : SearchableSolver P Cfg)
  | nonSearchable (s : NonSearchableSolver P)

/-- The identifier `SolverDbId(s)`. -/
def Solver.SolverDbId {P Cfg : Type} : Solver P Cfg → String
  | .searchable s => s.SolverDbId
  | .nonSearchable s => s.SolverDbId

/-- A call of a member function of the cache or of a solver, tagged with the
identifier of the solver on whose behalf it was made. -/
inductive Event (Cfg : Type) where
  | Load (id : String)
  | Update (id : String) (c : Cfg)
  | Remove (id : String)
  | Search (id : String)
  | GetPerformanceConfig (id : String)
  | IsValidPerformanceConfig (id : String) (c : Cfg)
  | GetSolution (id : String) (c : Cfg)
  | GetSolutionFixed (id : String)
  deriving DecidableEq, Repr

/-- The event is a call of `Load`, `Update` or `Remove` on the cache. -/
def Event.isDbCall {Cfg : Type} : Event Cfg → Bool
  | .Load _ => true
  | .Update _ _ => true
  | .Remove _ => true
  | _ => false

/-- The event is a call of the tuning search `Search`. -/
def Event.isSearch {Cfg : Type} : Event Cfg → Bool
  | .Search _ => true
  | _ => false

/-- The event is a call of `Update` on the cache. -/
def Event.isUpdate {Cfg : Type} : Event Cfg → Bool
  | .Update _ _ => true
  | _ => false

/-- The event is a call of `Load` on the cache. -/
def Event.isLoad {Cfg : Type} : Event Cfg → Bool
  | .Load _ => true
  | _ => false

/-- What a call leaves behind: the value returned (or the exception thrown),
the cache after the call and the calls made, in order. -/
structure Outcome (P Cfg : Type) where
  result : Except Exception ConvSolution
  db : PerfDb P Cfg
  trace : List (Event Cfg)

/-- The statement `return s.GetSolution(context, s.GetPerformanceConfig(context));`
(find_solution.hpp lines 51 and 103), after the calls in `trace`. -/
def returnDefault {P Cfg : Type} (s : SearchableSolver P Cfg) (context : Context P)
    (db : PerfDb P Cfg) (trace : List (Event Cfg)) : Outcome P Cfg :=
  { result := s.GetSolution context (s.GetPerformanceConfig context)
    db := db
    trace := trace ++ [Event.GetPerformanceConfig s.SolverDbId,
                       Event.GetSolution s.SolverDbId (s.GetPerformanceConfig context)] }

/-- The search step of `FindSolutionImpl(rank<1>, ...)` with what follows it
(find_solution.hpp lines 87 to 103), after the calls in `trace`: the
`try` block runs `Search`, `Update` and `GetSolution`; a `miopen::Exception`
thrown by any of them is caught and control reaches the final `return`. -/
def searchStep {P Cfg : Type} [DecidableEq P] (enforce : FindEnforce P)
    (s : SearchableSolver P Cfg) (context : Context P) (db : PerfDb P Cfg)
    (trace : List (Event Cfg)) : Outcome P Cfg :=
  if context.do_search || enforce.IsSearch context then
    match s.Search context with
    | .ok c =>
      match s.GetSolution context c with
      | .ok solution =>
        { result := .ok solution
          db := db.Update context s.SolverDbId c
          trace := trace ++ [Event.Search s.SolverDbId, Event.Update s.SolverDbId c,
                             Event.GetSolution s.SolverDbId c] }
      | .error _ =>
        returnDefault s context (db.Update context s.SolverDbId c)
          (trace ++ [Event.Search s.SolverDbId, Event.Update s.SolverDbId c,
                     Event.GetSolution s.SolverDbId c])
    | .error _ => returnDefault s context db (trace ++ [Event.Search s.SolverDbId])
  else
    returnDefault s context db trace

/-- The overload `FindSolutionImpl(rank<1>, s, context, db)` for searchable
solvers (find_solution.hpp lines 43 to 104). -/
def FindSolutionImpl_rank1 {P Cfg : Type} [DecidableEq P] (enforce : FindEnforce P)
    (s : SearchableSolver P Cfg) (context : Context P) (db : PerfDb P Cfg) : Outcome P Cfg :=
  if context.disable_perfdb_access then
    returnDefault s context db []
  else if enforce.IsDbClean context then
    returnDefault s context (db.Remove context s.SolverDbId).2 [Event.Remove s.SolverDbId]
  else if (context.do_search || enforce.IsSearch context) && enforce.IsDbUpdate context then
    searchStep enforce s context db []
  else
    match db.Load context s.SolverDbId with
    | some config =>
      if s.IsValidPerformanceConfig context config then
        { result := s.GetSolution context config
          db := db
          trace := [Event.Load s.SolverDbId,
                    Event.IsValidPerformanceConfig s.SolverDbId config,
                    Event.GetSolution s.SolverDbId config] }
      else
        searchStep enforce s context db
          [Event.Load s.SolverDbId, Event.IsValidPerformanceConfig s.SolverDbId config]
    | none => searchStep enforce s context db [Event.Load s.SolverDbId]

/-- The overload `FindSolutionImpl(rank<0>, s, context, db)` for solvers that
are not searchable (find_solution.hpp lines 106 to 112). -/
def FindSolutionImpl_rank0 {P Cfg : Type} (s : NonSearchableSolver P) (context : Context P)
    (db : PerfDb P Cfg) : Outcome P Cfg :=
  { result := s.GetSolution context
    db := db
    trace := [Event.GetSolutionFixed s.SolverDbId] }

/-- The assignment `solution.solver_id = SolverDbId(s)` of `FindSolution`. -/
def stamp (id : String) (solution : ConvSolution) : ConvSolution :=
  { solution with solver_id := id }

/-- The function template `FindSolution(s, context, db)` (find_solution.hpp lines 120 to 129):
dispatch to the best viable overload of `FindSolutionImpl`, then stamp the
solution with the solver identifier. An exception leaves `FindSolution`
unchanged. -/
def FindSolution {P Cfg : Type} [DecidableEq P] (enforce : FindEnforce P) (s : Solver P Cfg)
    (context : Context P) (db : PerfDb P Cfg) : Outcome P Cfg :=
  let r : Outcome P Cfg :=
    match s with
    | .searchable s1 => FindSolutionImpl_rank1 enforce s1 context db
    | .nonSearchable s0 => FindSolutionImpl_rank0 s0 context db
  { r with result := r.result.map (stamp s.SolverDbId) }

/-- The policy `enforce` without its cleaning request; the other two queries
are as in `enforce`. -/
def FindEnforce.withoutDbClean {P : Type} (enforce : FindEnforce P) : FindEnforce P :=
  { enforce with IsDbClean := fun _ => false }

/-- The `Search` and `Update` calls of a trace, in order. -/
def searchUpdateSteps {Cfg : Type} (trace : List (Event Cfg)) : List (Event Cfg) :=
  trace.filter (fun e => e.isSearch || e.isUpdate)

/-! ## The solver container -/

/-- The constructor `ConvSolution(status)`, as in `Solution solution{miopenStatusUnknownError}`:
no solver identifier, no kernel build request, no workspace. -/
def ConvSolution.init (status : miopenStatus_t) : ConvSolution :=
  { status := status, solver_id := "", construction_params := [], workspce_sz := 0 }

/-- The members that all solvers share. -/
def Solver.base {P Cfg : Type} : Solver P Cfg → SolverBase P
  | .searchable s => s.toSolverBase
  | .nonSearchable s => s.toSolverBase

/-- The member `solver.IsApplicable(search_params)`. -/
def Solver.IsApplicable {P Cfg : Type} (solver : Solver P Cfg) (search_params : Context P) :
    Bool :=
  solver.base.IsApplicable search_params

/-- The member `solver.IsFast(search_params)`. -/
def Solver.IsFast {P Cfg : Type} (solver : Solver P Cfg) (search_params : Context P) : Bool :=
  solver.base.IsFast search_params

/-- The member `solver.GetWorkspaceSize(search_params)`. -/
def Solver.GetWorkspaceSize {P Cfg : Type} (solver : Solver P Cfg) (search_params : Context P) :
    Nat :=
  solver.base.GetWorkspaceSize search_params

/-- The exception of `MIOPEN_THROW(text)`; `message` holds the text given. -/
def MIOPEN_THROW (text : String) : Exception :=
  { status := .miopenStatusUnknownError, message := text }

/-- The loop `miopen::each_args(lambda, Solvers{}...)` of `SolverContainer::SearchForSolution`
(find_solution.hpp lines 148 to 172) over the candidates still to visit; `solution`
and `db` are the variables that the lambda captures by reference, `trace` the
calls made so far. An exception ends the loop. -/
def SolverContainer.SearchForSolution_each {P Cfg : Type} [DecidableEq P]
    (enforce : FindEnforce P) (no_perf_filtering : Bool) (search_params : Context P) :
    List (Solver P Cfg) → ConvSolution → PerfDb P Cfg → List (Event Cfg) → Outcome P Cfg
  | [], solution, db, trace => { result := .ok solution, db := db, trace := trace }
  | solver :: rest, solution, db, trace =>
    if solver.IsApplicable search_params
        && (no_perf_filtering || solver.IsFast search_params) then
      if !solution.Succeeded then
        match (FindSolution enforce solver search_params db).result with
        | .error ex =>
          { result := .error ex
            db := (FindSolution enforce solver search_params db).db
            trace := trace ++ (FindSolution enforce solver search_params db).trace }
        | .ok found =>
          if found.Succeeded then
            if found.construction_params.isEmpty then
              { result := .error (MIOPEN_THROW ("Internal error in solver: " ++ solver.SolverDbId))
                db := (FindSolution enforce solver search_params db).db
                trace := trace ++ (FindSolution enforce solver search_params db).trace }
            else
              SolverContainer.SearchForSolution_each enforce no_perf_filtering search_params rest
                found (FindSolution enforce solver search_params db).db
                (trace ++ (FindSolution enforce solver search_params db).trace)
          else
            SolverContainer.SearchForSolution_each enforce no_perf_filtering search_params rest
              found (FindSolution enforce solver search_params db).db
              (trace ++ (FindSolution enforce solver search_params db).trace)
      else
        SolverContainer.SearchForSolution_each enforce no_perf_filtering search_params rest
          solution db trace
    else
      SolverContainer.SearchForSolution_each enforce no_perf_filtering search_params rest
        solution db trace

/-- The member `SolverContainer::SearchForSolution(search_params, db)` (find_solution.hpp lines
134 to 175). `Solvers` is the candidate list in declaration order and
`no_perf_filtering` the value of
`IsDisabled(MIOPEN_DEBUG_AMD_ASM_KERNELS_PERF_FILTERING{})`. -/
def SolverContainer.SearchForSolution {P Cfg : Type} [DecidableEq P]
    (enforce : FindEnforce P) (no_perf_filtering : Bool) (Solvers : List (Solver P Cfg))
    (search_params : Context P) (db : PerfDb P Cfg) : Outcome P Cfg :=
  SolverContainer.SearchForSolution_each enforce no_perf_filtering search_params Solvers
    (ConvSolution.init .miopenStatusUnknownError) db []

/-- What `SearchForAllSolutions` leaves behind: the vector returned (or the exception
thrown), the cache after the call and the calls made, in order. -/
structure AllOutcome (P Cfg : Type) where
  result : Except Exception (List ConvSolution)
  db : PerfDb P Cfg
  trace : List (Event Cfg)

/-- The loop `miopen::each_args(lambda, Solvers{}...)` of
`SolverContainer::SearchForAllSolutions` (find_solution.hpp lines 182 to 208); `ss` is the
vector filled by `push_back`. -/
def SolverContainer.SearchForAllSolutions_each {P Cfg : Type} [DecidableEq P]
    (enforce : FindEnforce P) (search_params : Context P) :
    List (Solver P Cfg) → List ConvSolution → PerfDb P Cfg → List (Event Cfg)
      → AllOutcome P Cfg
  | [], ss, db, trace => { result := .ok ss, db := db, trace := trace }
  | solver :: rest, ss, db, trace =>
    if solver.IsApplicable search_params then
      match (FindSolution enforce solver search_params db).result with
      | .error ex =>
        { result := .error ex
          db := (FindSolution enforce solver search_params db).db
          trace := trace ++ (FindSolution enforce solver search_params db).trace }
      | .ok s =>
        if s.Succeeded then
          SolverContainer.SearchForAllSolutions_each enforce search_params rest (ss ++ [s])
            (FindSolution enforce solver search_params db).db
            (trace ++ (FindSolution enforce solver search_params db).trace)
        else
          SolverContainer.SearchForAllSolutions_each enforce search_params rest ss
            (FindSolution enforce solver search_params db).db
            (trace ++ (FindSolution enforce solver search_params db).trace)
    else
      SolverContainer.SearchForAllSolutions_each enforce search_params rest ss db trace

/-- The member `SolverContainer::SearchForAllSolutions(search_params, db)` (find_solution.hpp
lines 177 to 210). -/
def SolverContainer.SearchForAllSolutions {P Cfg : Type} [DecidableEq P]
    (enforce : FindEnforce P) (Solvers : List (Solver P Cfg))
    (search_params : Context P) (db : PerfDb P Cfg) : AllOutcome P Cfg :=
  SolverContainer.SearchForAllSolutions_each enforce search_params Solvers [] db []

/-- The loop `miopen::each_args(lambda, Solvers{}...)` of `SolverContainer::GetWorkspaceSize`
(find_solution.hpp lines 215 to 227); `res` is the vector filled by `push_back`. -/
def SolverContainer.GetWorkspaceSize_each {P Cfg : Type} (search_params : Context P) :
    List (Solver P Cfg) → List (String × Nat) → List (String × Nat)
  | [], res => res
  | solver :: rest, res =>
    if solver.IsApplicable search_params then
      SolverContainer.GetWorkspaceSize_each search_params rest
        (res ++ [(solver.SolverDbId, solver.GetWorkspaceSize search_params)])
    else
      SolverContainer.GetWorkspaceSize_each search_params rest res

/-- The member `SolverContainer::GetWorkspaceSize(search_params)` (find_solution.hpp lines 211
to 229). -/
def SolverContainer.GetWorkspaceSize {P Cfg : Type} (Solvers : List (Solver P Cfg))
    (search_params : Context P) : List (String × Nat) :=
  SolverContainer.GetWorkspaceSize_each search_params Solvers []

/-! ## The solver `ConvBinWinogradRxSf3x2` (`src/solver/conv_winoRxS_f3x2.cpp`)

Values of type `int` are integers in `Int`; the result of `+` and `*` is wrapped
to 32 bits, `/` and `%` truncate towards zero. A function that contains an
`assert` returns an `Option`: `none` stands for a failed assertion. -/

/-- The value of a 32-bit `int` computation whose mathematical result is `x`:
two's complement wrap-around. -/
def wrapInt32 (x : Int) : Int :=
  (x + 2147483648) % 4294967296 - 2147483648

/-- The function `Ceiling(v, m)` (conv_winoRxS_f3x2.cpp lines 34 to 42): `v` rounded up to a
multiple of `m`; `none` when `assert(m > 0 && v >= 0)` fails. -/
def Ceiling (v m : Int) : Option Int :=
  if m > 0 ∧ v ≥ 0 then
    if v.tmod m ≠ 0 then
      some (wrapInt32 (wrapInt32 (v.tdiv m + 1) * m))
    else
      some v
  else
    none

/-- The function `CeilDiv(x, y)` (lines 46 to 50); `none` when an assertion fails. -/
def CeilDiv (x y : Int) : Option Int :=
  if y > 0 then
    match Ceiling x y with
    | some c => some (c.tdiv y)
    | none => none
  else
    none

/-- The function `FloorDiv(x, y)` (lines 54 to 58); `none` when the assertion fails. -/
def FloorDiv (x y : Int) : Option Int :=
  if x ≥ 0 ∧ y > 0 then some (x.tdiv y) else none

/-- The direction of the convolution, `params.direction`. -/
inductive Direction where
  | Forward
  | BackwardData
  | BackwardWrW
  deriving DecidableEq, Repr

/-- The member `direction.IsBackwardData()`. -/
def Direction.IsBackwardData : Direction → Bool
  | .BackwardData => true
  | _ => false

/-- The member `direction.IsBackwardWrW()`. -/
def Direction.IsBackwardWrW : Direction → Bool
  | .BackwardWrW => true
  | _ => false

/-- The code object metadata version, `rocm_meta_version`. -/
inductive rocm_meta_version where
  | Unknown
  | V1
  | V2
  | V3
  | AMDHSA_1_0
  deriving DecidableEq, Repr

/-- The problem descriptor `miopen::ConvolutionContext`, with the members that
`conv_winoRxS_f3x2.cpp` reads. `GetDeviceName` and `GetMaxComputeUnits` are those of
`params.GetStream()`; `GetBackwardPadW` and `GetBackwardPadH` are the values of the
member functions of these names. -/
structure ConvolutionContext where
  Is2d : Bool
  IsFp32 : Bool
  direction : Direction
  use_asm_kernels : Bool
  rmv : rocm_meta_version
  GetDeviceName : String
  GetMaxComputeUnits : Nat
  kernel_stride_w : Int
  kernel_stride_h : Int
  kernel_dilation_w : Int
  kernel_dilation_h : Int
  bias : Int
  group_counts : Int
  in_layout : String
  weights_layout : String
  kernel_size_h : Int
  kernel_size_w : Int
  n_inputs : Int
  n_outputs : Int
  in_height : Int
  in_width : Int
  out_height : Int
  out_width : Int
  batch_sz : Int
  pad_w : Int
  pad_h : Int
  GetBackwardPadW : Int
  GetBackwardPadH : Int
  deriving DecidableEq, Repr

/-- The function `StartsWith(str, start)` of `stringutils.hpp`. -/
def StartsWith (str start : String) : Bool :=
  start.toList.isPrefixOf str.toList

/-- The local variable `padded_S` of `IsShaderContraintsMet` (lines 82 to 97). -/
def paddedS (S S_stride TILE : Int) : Option Int :=
  if S_stride = 1 then
    if S ≤ TILE then some TILE else Ceiling S (wrapInt32 (TILE * 2))
  else
    Ceiling S (wrapInt32 (TILE * 2))

/-- The local variable `padded_R` of `IsShaderContraintsMet` (lines 101 to 117). -/
def paddedR (R R_stride TILE : Int) : Option Int :=
  if R_stride = 1 then
    Ceiling R TILE
  else
    if R.tmod (wrapInt32 (TILE * 2)) = 1 then
      Ceiling R TILE
    else
      Ceiling R (wrapInt32 (TILE * 2))

/-- The checks of `IsShaderContraintsMet` on the work per tile (lines 130 to 165):
`some false` stands for `return false`, `some true` for reaching line 166, `none`
for a failed assertion. -/
def minimumWork (fp16 is_dilated_stride_2 : Bool) (R S C TILE padded_R padded_S : Int) :
    Option Bool :=
  if fp16 then
    if is_dilated_stride_2 then
      if C.tmod 4 ≠ 0 then some false
      else
        match CeilDiv R (wrapInt32 (TILE * 2)),
            FloorDiv (wrapInt32 (wrapInt32 (R + TILE) + 1)) (wrapInt32 (TILE * 2)),
            CeilDiv S (wrapInt32 (TILE * 2)) with
        | some k1, some k2, some l =>
          if wrapInt32 (wrapInt32 (C * wrapInt32 (k1 + k2)) * l) < wrapInt32 (18 * 2) then
            some false
          else if wrapInt32 (wrapInt32 (padded_R * padded_S) * C)
              < wrapInt32 (wrapInt32 (wrapInt32 (TILE * TILE) * 18) * 2) then
            some false
          else some true
        | _, _, _ => none
    else if wrapInt32 (wrapInt32 (padded_R * padded_S) * C)
        < wrapInt32 (wrapInt32 (wrapInt32 (TILE * TILE) * 18) * 2) then
      some false
    else some true
  else
    if is_dilated_stride_2 ∧ ¬ (R > 1) then some false
    else if is_dilated_stride_2 ∧ ¬ (C.tmod 2 = 0) then some false
    else if padded_R.tmod TILE = 0
        ∧ padded_S.tmod (if is_dilated_stride_2 then wrapInt32 (TILE * 2) else TILE) = 0 then
      if wrapInt32 (wrapInt32 (padded_R.tdiv TILE
            * padded_S.tdiv (if is_dilated_stride_2 then wrapInt32 (TILE * 2) else TILE))
          * C) < 18 then
        some false
      else some true
    else none

/-- The checks of `IsShaderContraintsMet` on the backward padding and on the
implementation limits (lines 166 to 195). -/
def implementationLimits (R S C K H W OH OW N : Int) (params : ConvolutionContext) :
    Option Bool :=
  if (params.direction.IsBackwardData || params.direction.IsBackwardWrW)
      ∧ ¬ (0 ≤ params.GetBackwardPadW ∧ params.GetBackwardPadW < 65536) then
    some false
  else if (params.direction.IsBackwardData || params.direction.IsBackwardWrW)
      ∧ ¬ (0 ≤ params.GetBackwardPadH ∧ params.GetBackwardPadH < 65536) then
    some false
  else if params.weights_layout.length = 0 then
    some (decide (N < 65536
      ∧ C < 65536
      ∧ K < 65536
      ∧ H < 65536
      ∧ W < 65536
      ∧ OH < 65536
      ∧ OW < 65536
      ∧ params.pad_w < 65536
      ∧ params.pad_h < 65536
      ∧ S < 65536
      ∧ R < 65536
      ∧ params.GetMaxComputeUnits < 65536
      ∧ wrapInt32 (wrapInt32 (C * H) * W) ≤ 268435456
      ∧ wrapInt32 (wrapInt32 (K * OH) * OW) ≤ 268435456
      ∧ wrapInt32 (wrapInt32 (K * R) * S) ≤ 268435456
      ∧ wrapInt32 (wrapInt32 (C * R) * S) ≤ 268435456))
  else
    none

/-- The function `IsShaderContraintsMet` (lines 61 to 196). -/
def IsShaderContraintsMet (R S R_stride S_stride C K H W OH OW N : Int)
    (params : ConvolutionContext) (fp16 : Bool) (filter_tile_size : Nat) : Option Bool :=
  match paddedS S S_stride (wrapInt32 filter_tile_size),
      paddedR R R_stride (wrapInt32 filter_tile_size) with
  | some padded_S, some padded_R =>
    if fp16 ∧ C.tmod 2 ≠ 0 then some false
    else if S_stride = 1 ∧ S ≤ wrapInt32 filter_tile_size
        ∧ C.tmod (if fp16 then 4 else 2) ≠ 0 then
      some false
    else
      match minimumWork fp16 (params.direction.IsBackwardData && decide (S_stride ≠ 1))
          R S C (wrapInt32 filter_tile_size) padded_R padded_S with
      | some true => implementationLimits R S C K H W OH OW N params
      | other => other
  | _, _ => none

/-- The member `ConvBinWinogradRxSf3x2::IsApplicable(params)` (lines 201 to 245); `disabled` is
the value of `miopen::IsDisabled(MIOPEN_DEBUG_AMD_WINOGRAD_RXS_F3X2{})`. -/
def ConvBinWinogradRxSf3x2.IsApplicable (disabled : Bool) (params : ConvolutionContext) :
    Option Bool :=
  if ¬ params.Is2d then some false
  else if ¬ params.IsFp32 then some false
  else if disabled then some false
  else if params.direction.IsBackwardWrW then some false
  else if ¬ params.use_asm_kernels then some false
  else if params.rmv ≠ rocm_meta_version.AMDHSA_1_0 then some false
  else if ¬ StartsWith params.GetDeviceName "gfx9" then some false
  else if ¬ (params.kernel_stride_w = 1
      ∧ params.kernel_stride_w = params.kernel_stride_h
      ∧ params.kernel_dilation_w = 1
      ∧ params.kernel_dilation_h = 1
      ∧ params.bias = 0
      ∧ params.group_counts = 1
      ∧ params.in_layout = "NCHW") then
    some false
  else
    IsShaderContraintsMet params.kernel_size_h params.kernel_size_w params.kernel_stride_h
      params.kernel_stride_w params.n_inputs params.n_outputs params.in_height
      params.in_width params.out_height params.out_width params.batch_sz params false 2

/-- The conditions of `ConvBinWinogradRxSf3x2::IsApplicable` that do not involve the shape of
the problem: 2-D, fp32, not backward-weights, assembly kernels enabled, metadata
version `AMDHSA_1_0`, a device name that starts with "gfx9", stride 1 and dilation 1 in
both axes, no bias, one group, input layout "NCHW". -/
def shapeIndependentConditions (params : ConvolutionContext) : Prop :=
  params.Is2d = true
    ∧ params.IsFp32 = true
    ∧ params.direction.IsBackwardWrW = false
    ∧ params.use_asm_kernels = true
    ∧ params.rmv = rocm_meta_version.AMDHSA_1_0
    ∧ StartsWith params.GetDeviceName "gfx9" = true
    ∧ params.kernel_stride_w = 1
    ∧ params.kernel_stride_h = 1
    ∧ params.kernel_dilation_w = 1
    ∧ params.kernel_dilation_h = 1
    ∧ params.bias = 0
    ∧ params.group_counts = 1
    ∧ params.in_layout = "NCHW"

/-- The integer `r` is the least multiple of `m` that is `>= v`. -/
def IsLeastMultipleGE (m v r : Int) : Prop :=
  m ∣ r ∧ v ≤ r ∧ ∀ x, m ∣ x → v ≤ x → r ≤ x

/-! ## The kernel build pipeline (`src/hip/hip_build_utils.cpp`)

The scratch directory is a list of (file name, contents) pairs in the order in
which a `directory_iterator` visits them. The compiler and the kernel extraction tool
are external programs: `Execute` is a parameter that maps the files of the directory
before the run to the files after it, or throws. -/

/-- The scratch directory `TmpDir`: its path and its files. -/
structure TmpDir where
  path : String
  files : List (String × String)

/-- What the build pipeline takes from its surroundings: the configuration macros
`MIOPEN_HIP_COMPILER`, `HIP_COMPILER_FLAGS` and `EXTRACTKERNEL_BIN`, whether `__linux__` is
defined, the kernel include files (`GetKernelIncList`, `GetKernelInc`), and the effect of
`TmpDir::Execute(exe, args)` on the files of the scratch directory. -/
structure BuildEnv where
  linux : Bool
  MIOPEN_HIP_COMPILER : String
  HIP_COMPILER_FLAGS : String
  EXTRACTKERNEL_BIN : String
  GetKernelIncList : List String
  GetKernelInc : String → String
  Execute : List (String × String) → String → String → Except Exception (List (String × String))

/-- The function `EndsWith(str, suffix)` of `stringutils.hpp`. -/
def EndsWith (str suffix : String) : Bool :=
  suffix.toList.isSuffixOf str.toList

/-- The function `WriteFile(content, name)` on the scratch directory: the file is created,
or its contents replaced. -/
def WriteFile (content name : String) (files : List (String × String)) :
    List (String × String) :=
  if files.any (fun f => f.1 == name) then
    files.map (fun f => if f.1 == name then (name, content) else f)
  else
    files ++ [(name, content)]

/-- The test `boost::filesystem::exists` for a file of the scratch directory. -/
def fileExists (files : List (String × String)) (name : String) : Bool :=
  files.any (fun f => f.1 == name)

/-- The characters of a file name from its last dot on; empty without a dot. -/
def extensionChars (cs : List Char) : List Char :=
  match cs.reverse.span (fun c => c != '.') with
  | (_, []) => []
  | (revExt, _ :: _) => '.' :: revExt.reverse

/-- The characters of a file name before its last dot; all of them without a dot. -/
def stemChars (cs : List Char) : List Char :=
  match cs.reverse.span (fun c => c != '.') with
  | (_, []) => cs
  | (_, _ :: revStem) => revStem.reverse

/-- The member `path::extension()` of a file name. -/
def extension (name : String) : String :=
  if name = "." ∨ name = ".." then "" else String.mk (extensionChars name.toList)

/-- The member `path::stem()` of a file name. -/
def stem (name : String) : String :=
  if name = "." ∨ name = ".." then name else String.mk (stemChars name.toList)

/-- How a call of `HipBuild` ends: with the pair of paths returned, with an exception,
or with undefined behaviour, where the code dereferences the past-the-end
`directory_iterator`. -/
inductive HipBuildResult where
  | returned (first second : String)
  | threw (ex : Exception)
  | undefinedBehaviour
  deriving DecidableEq, Repr

/-- What a call of `HipBuild` leaves behind: how it ended, the files of the scratch
directory, and the `Execute` calls made, each as (exe, args), in order. -/
structure HipBuildOutcome where
  result : HipBuildResult
  files : List (String × String)
  executed : List (String × String)
  deriving DecidableEq, Repr

/-- The files of the scratch directory when the compiler is started (lines 45 to 55):
the include files and the source with the harness `main` appended. -/
def HipBuild_staged (env : BuildEnv) (tmp_dir : TmpDir) (filename src : String) :
    List (String × String) :=
  WriteFile (src ++ "\nint main() \x7b\x7d\n") filename
    (env.GetKernelIncList.foldl
      (fun files inc_file => WriteFile (env.GetKernelInc inc_file) inc_file files)
      tmp_dir.files)

/-- The path `bin_file` (line 69). -/
def HipBuild_bin_file (tmp_dir : TmpDir) (filename : String) : String :=
  tmp_dir.path ++ "/" ++ (filename ++ ".o")

/-- The compiler call (lines 56 to 76) as (exe, args). -/
def HipBuild_compile (env : BuildEnv) (tmp_dir : TmpDir) (filename params dev_name : String)
    (keep_llvmir : Bool) : String × String :=
  ("KMOPTLLC=-mattr=+enable-ds128" ++ (if keep_llvmir then " KMDUMPLLVM=1" else "") ++ " "
      ++ env.MIOPEN_HIP_COMPILER,
   (if EndsWith env.MIOPEN_HIP_COMPILER "hcc" then
        params ++ (" -amdgpu-target=" ++ dev_name)
      else
        params ++ (" --cuda-gpu-arch=" ++ dev_name) ++ " --cuda-device-only -c")
      ++ " -Wno-unused-command-line-argument -I. " ++ env.HIP_COMPILER_FLAGS ++ " "
      ++ filename ++ " -o " ++ HipBuild_bin_file tmp_dir filename)

/-- The function `HipBuild` (hip_build_utils.cpp lines 35 to 121). -/
def HipBuild (env : BuildEnv) (tmp_dir : TmpDir) (filename src params dev_name : String)
    (keep_llvmir : Bool) : HipBuildOutcome :=
  if env.linux then
    match env.Execute (HipBuild_staged env tmp_dir filename src)
        (HipBuild_compile env tmp_dir filename params dev_name keep_llvmir).1
        (HipBuild_compile env tmp_dir filename params dev_name keep_llvmir).2 with
    | .error ex =>
      { result := .threw ex
        files := HipBuild_staged env tmp_dir filename src
        executed := [HipBuild_compile env tmp_dir filename params dev_name keep_llvmir] }
    | .ok compiled =>
      if ! fileExists compiled (filename ++ ".o") then
        { result := .threw (MIOPEN_THROW (filename ++ " failed to compile"))
          files := compiled
          executed := [HipBuild_compile env tmp_dir filename params dev_name keep_llvmir] }
      else if EndsWith env.MIOPEN_HIP_COMPILER "hcc" then
        match env.Execute compiled env.EXTRACTKERNEL_BIN
            (" -i " ++ HipBuild_bin_file tmp_dir filename) with
        | .error ex =>
          { result := .threw ex
            files := compiled
            executed := [HipBuild_compile env tmp_dir filename params dev_name keep_llvmir,
                         (env.EXTRACTKERNEL_BIN, " -i " ++ HipBuild_bin_file tmp_dir filename)] }
        | .ok extracted =>
          { result :=
              match extracted.find? (fun entry => extension entry.1 == ".hsaco") with
              | none => .undefinedBehaviour
              | some hsaco =>
                if keep_llvmir then
                  match extracted.find? (fun entry =>
                      extension entry.1 == ".bc" && extension (stem entry.1) == ".opt") with
                  | none => .undefinedBehaviour
                  | some llvmir =>
                    .returned (tmp_dir.path ++ "/" ++ hsaco.1) (tmp_dir.path ++ "/" ++ llvmir.1)
                else
                  .returned (tmp_dir.path ++ "/" ++ hsaco.1) ""
            files := extracted
            executed := [HipBuild_compile env tmp_dir filename params dev_name keep_llvmir,
                         (env.EXTRACTKERNEL_BIN, " -i " ++ HipBuild_bin_file tmp_dir filename)] }
      else
        { result := .returned (HipBuild_bin_file tmp_dir filename) ""
          files := compiled
          executed := [HipBuild_compile env tmp_dir filename params dev_name keep_llvmir] }
  else
    { result := .threw (MIOPEN_THROW "HIP kernels are only supported in Linux")
      files := tmp_dir.files
      executed := [] }

/-! ## Notions used to state the properties -/

/-- The identifier of the solver on whose behalf a call was made. -/
def Event.id {Cfg : Type} : Event Cfg → String
  | .Load id => id
  | .Update id _ => id
  | .Remove id => id
  | .Search id => id
  | .GetPerformanceConfig id => id
  | .IsValidPerformanceConfig id _ => id
  | .GetSolution id _ => id
  | .GetSolutionFixed id => id

/-- The solution `produced` is one that the solver's `GetSolution` returns for the
problem: for a searchable solver, from a configuration on which `GetSolution` was
called in `trace`; for a solver that is not searchable, its one fixed solution. -/
def Solver.produces {P Cfg : Type} (s : Solver P Cfg) (context : Context P)
    (trace : List (Event Cfg)) (produced : ConvSolution) : Prop :=
  match s with
  | .searchable s1 =>
    ∃ config, Event.GetSolution s1.SolverDbId config ∈ trace
      ∧ s1.GetSolution context config = .ok produced
  | .nonSearchable s0 => s0.GetSolution context = .ok produced

/-- The number of `Search` calls in a trace. -/
def countSearch {Cfg : Type} (trace : List (Event Cfg)) : Nat :=
  trace.countP Event.isSearch

/-- The number of `Search` calls in a trace that were made on behalf of the solver with
identifier `id`. -/
def countSearchOf {Cfg : Type} (id : String) (trace : List (Event Cfg)) : Nat :=
  trace.countP (fun e => e.isSearch && decide (e.id = id))

/-- The configuration that the outcome of a `FindSolution` call is built from: the
argument of the last `GetSolution(context, config)` call, when the trace ends
with one. -/
def builtFrom {P Cfg : Type} (r : Outcome P Cfg) : Option Cfg :=
  match r.trace.getLast? with
  | some (Event.GetSolution _ c) => some c
  | _ => none

/-- The condition under which `SearchForSolution` runs a candidate through
`FindSolution`: applicable, and fast unless performance filtering is disabled. -/
def eligible {P Cfg : Type} (no_perf_filtering : Bool) (search_params : Context P)
    (solver : Solver P Cfg) : Bool :=
  solver.IsApplicable search_params && (no_perf_filtering || solver.IsFast search_params)

/-- What the candidates selected by `pick` yield when `FindSolution` is run on each of
them in declaration order, every call working on the cache left by the one before. -/
def attempts {P Cfg : Type} [DecidableEq P] (enforce : FindEnforce P)
    (pick : Solver P Cfg → Bool) (search_params : Context P) :
    List (Solver P Cfg) → PerfDb P Cfg → List (Outcome P Cfg)
  | [], _ => []
  | solver :: rest, db =>
    if pick solver then
      FindSolution enforce solver search_params db
        :: attempts enforce pick search_params rest
            (FindSolution enforce solver search_params db).db
    else
      attempts enforce pick search_params rest db

/-- The cache after a sequence of calls that started on `db`. -/
def dbAfter {P Cfg : Type} (db : PerfDb P Cfg) : List (Outcome P Cfg) → PerfDb P Cfg
  | [] => db
  | r :: rest => dbAfter r.db rest

/-- The calls made by a sequence of calls, in order. -/
def tracesOf {P Cfg : Type} : List (Outcome P Cfg) → List (Event Cfg)
  | [] => []
  | r :: rest => r.trace ++ tracesOf rest

/-- The solutions among the results of a sequence of calls that succeeded, in order. -/
def successes {P Cfg : Type} : List (Outcome P Cfg) → List ConvSolution
  | [] => []
  | r :: rest =>
    match r.result with
    | .ok solution => if solution.Succeeded then solution :: successes rest else successes rest
    | .error _ => successes rest

/-- The solver with its `IsFast` replaced by `f`. -/
def Solver.withIsFast {P Cfg : Type} (f : Context P → Bool) : Solver P Cfg → Solver P Cfg
  | .searchable s => .searchable { s with IsFast := f }
  | .nonSearchable s => .nonSearchable { s with IsFast := f }

/-! ## Sample solvers, problems and caches -/

/-- A sample searchable solver over configurations in `Nat`: the default
configuration is `1`, valid configurations are the positive ones, the search
finds `7`, and the solution carries the configuration as workspace size. -/
def sampleSolver : SearchableSolver Nat Nat :=
  { SolverDbId := "ConvSample"
    IsApplicable := fun _ => true
    IsFast := fun _ => true
    GetWorkspaceSize := fun _ => 0
    GetPerformanceConfig := fun _ => 1
    IsValidPerformanceConfig := fun _ c => decide (0 < c)
    Search := fun _ => .ok 7
    GetSolution := fun _ c =>
      .ok { status := .miopenStatusSuccess, solver_id := "", construction_params := [],
            workspce_sz := c } }

/-- A sample solver that is not searchable: one fixed solution. -/
def sampleFixedSolver : NonSearchableSolver Nat :=
  { SolverDbId := "ConvFixed"
    IsApplicable := fun _ => true
    IsFast := fun _ => true
    GetWorkspaceSize := fun _ => 0
    GetSolution := fun _ =>
      .ok { status := .miopenStatusSuccess, solver_id := "", construction_params := [],
            workspce_sz := 64 } }

/-- The sample solver with a search that throws. -/
def sampleFailingSolver : SearchableSolver Nat Nat :=
  { sampleSolver with
    Search := fun _ => .error { status := .miopenStatusUnknownError, message := "no config" } }

/-- The policy with nothing enforced. -/
def enforceNone : FindEnforce Nat :=
  { IsDbClean := fun _ => false, IsSearch := fun _ => false, IsDbUpdate := fun _ => false }

/-- The policy that demands a clean cache. -/
def enforceDbClean : FindEnforce Nat :=
  { IsDbClean := fun _ => true, IsSearch := fun _ => false, IsDbUpdate := fun _ => false }

/-- The policy that forces a search. -/
def enforceSearch : FindEnforce Nat :=
  { IsDbClean := fun _ => false, IsSearch := fun _ => true, IsDbUpdate := fun _ => false }

/-- The policy that forces a cache update without forcing a search. -/
def enforceDbUpdate : FindEnforce Nat :=
  { IsDbClean := fun _ => false, IsSearch := fun _ => false, IsDbUpdate := fun _ => true }

/-- The policy that forces a search and a cache update. -/
def enforceSearchDbUpdate : FindEnforce Nat :=
  { IsDbClean := fun _ => false, IsSearch := fun _ => true, IsDbUpdate := fun _ => true }

/-- Problem `0`, no search requested, cache access enabled. -/
def ctxPlain : Context Nat := { problem := 0, do_search := false, disable_perfdb_access := false }

/-- Problem `0`, search requested, cache access enabled. -/
def ctxSearch : Context Nat := { problem := 0, do_search := true, disable_perfdb_access := false }

/-- Problem `0`, search requested, cache access disabled. -/
def ctxNoDb : Context Nat := { problem := 0, do_search := true, disable_perfdb_access := true }

/-- The empty cache. -/
def emptyDb : PerfDb Nat Nat := { records := fun _ _ => none }

/-- A cache whose only record, for problem `0` and the sample solver, is `c`. -/
def singleDb (c : Nat) : PerfDb Nat Nat :=
  { records := fun p i => if p = 0 ∧ i = "ConvSample" then some c else none }

/-- The solution that the sample solver builds from configuration `c`, stamped. -/
def sampleSolution (c : Nat) : ConvSolution :=
  { status := .miopenStatusSuccess, solver_id := "ConvSample", construction_params := [],
    workspce_sz := c }

/-- The kernel build request of `ConvBinWinogradRxSf3x2::GetSolution` for one compute unit. -/
def sampleKernel : KernelInfo :=
  { comp_options := "", l_wk := [512, 1, 1], g_wk := [512, 1, 1],
    kernel_file := "Conv_Winograd_v16_5_0_stride1.s", kernel_name := "sp3AsmConvRxSf3x2" }

/-- Candidate A: not applicable; workspace size `0`. -/
def solverA : Solver Nat Nat :=
  .searchable { sampleSolver with
    SolverDbId := "ConvA", IsApplicable := fun _ => false, GetWorkspaceSize := fun _ => 0 }

/-- Candidate B: applicable, not fast; workspace size `128`; its solution succeeds with
one kernel. -/
def solverB : Solver Nat Nat :=
  .searchable { sampleSolver with
    SolverDbId := "ConvB", IsFast := fun _ => false, GetWorkspaceSize := fun _ => 128,
    GetSolution := fun _ c =>
      .ok { status := .miopenStatusSuccess, solver_id := "", construction_params := [sampleKernel],
            workspce_sz := c } }

/-- Candidate C: applicable and fast; workspace size `256`; its solution succeeds with
one kernel. -/
def solverC : Solver Nat Nat :=
  .searchable { sampleSolver with
    SolverDbId := "ConvC", GetWorkspaceSize := fun _ => 256,
    GetSolution := fun _ c =>
      .ok { status := .miopenStatusSuccess, solver_id := "", construction_params := [sampleKernel],
            workspce_sz := c } }

/-- A candidate that is applicable and fast and whose solutions do not succeed. -/
def solverD : Solver Nat Nat :=
  .searchable { sampleSolver with
    SolverDbId := "ConvD",
    GetSolution := fun _ c =>
      .ok { status := .miopenStatusUnknownError, solver_id := "", construction_params := [],
            workspce_sz := c } }

/-- A second candidate that is applicable and fast and whose solutions do not succeed. -/
def solverE : Solver Nat Nat :=
  .searchable { sampleSolver with
    SolverDbId := "ConvE",
    GetSolution := fun _ c =>
      .ok { status := .miopenStatusUnknownError, solver_id := "", construction_params := [],
            workspce_sz := c } }

/-- A candidate that is applicable and fast and whose `GetSolution` throws on every
configuration. -/
def solverThrowing : Solver Nat Nat :=
  .searchable { sampleSolver with
    SolverDbId := "ConvThrowing",
    GetSolution := fun _ _ =>
      .error { status := .miopenStatusUnknownError, message := "cannot build" } }

/-- The solution that candidate C builds from configuration `c`, stamped. -/
def solutionC (c : Nat) : ConvSolution :=
  { status := .miopenStatusSuccess, solver_id := "ConvC", construction_params := [sampleKernel],
    workspce_sz := c }

/-- The solution that candidate B builds from configuration `c`, stamped. -/
def solutionB (c : Nat) : ConvSolution :=
  { status := .miopenStatusSuccess, solver_id := "ConvB", construction_params := [sampleKernel],
    workspce_sz := c }

/-- The policy that demands a clean cache and forces a search as well. -/
def enforceDbCleanSearch : FindEnforce Nat :=
  { IsDbClean := fun _ => true, IsSearch := fun _ => true, IsDbUpdate := fun _ => true }

/-- The sample solver with a `GetSolution` that throws on every configuration above `1`,
the search result `7` among them. -/
def sampleBrokenSolver : SearchableSolver Nat Nat :=
  { sampleSolver with
    GetSolution := fun _ c =>
      if c ≤ 1 then
        .ok { status := .miopenStatusSuccess, solver_id := "", construction_params := [],
              workspce_sz := c }
      else .error { status := .miopenStatusUnknownError, message := "cannot build" } }

/-- A forward fp32 problem on a gfx9 device: a 3x3 filter, stride 1, `C` input channels
on an `H` x `W` image, one output channel. -/
def winogradProblem (C H W : Int) : ConvolutionContext :=
  { Is2d := true, IsFp32 := true, direction := .Forward, use_asm_kernels := true,
    rmv := .AMDHSA_1_0, GetDeviceName := "gfx900", GetMaxComputeUnits := 64,
    kernel_stride_w := 1, kernel_stride_h := 1, kernel_dilation_w := 1,
    kernel_dilation_h := 1, bias := 0, group_counts := 1, in_layout := "NCHW",
    weights_layout := "", kernel_size_h := 3, kernel_size_w := 3, n_inputs := C,
    n_outputs := 1, in_height := H, in_width := W, out_height := H - 2, out_width := W - 2,
    batch_sz := 1, pad_w := 0, pad_h := 0, GetBackwardPadW := 2, GetBackwardPadH := 2 }

/-- An hcc toolchain whose compiler writes `<source>.o` for the source `kernel.cpp` and
whose extraction tool writes the files `extracted`. -/
def hccEnv (extracted : List (String × String)) : BuildEnv :=
  { linux := true
    MIOPEN_HIP_COMPILER := "/opt/rocm/bin/hcc"
    HIP_COMPILER_FLAGS := "-O3"
    EXTRACTKERNEL_BIN := "/opt/rocm/bin/extractkernel"
    GetKernelIncList := ["config.h"]
    GetKernelInc := fun _ => "#define MIOPEN 1"
    Execute := fun files exe _ =>
      if exe == "/opt/rocm/bin/extractkernel" then .ok (files ++ extracted)
      else .ok (files ++ [("kernel.cpp.o", "object")]) }

/-- An hcc toolchain whose compiler ends without writing any file. -/
def stubEnv : BuildEnv :=
  { hccEnv [] with Execute := fun files _ _ => .ok files }

/-- An empty scratch directory. -/
def scratchDir : TmpDir := { path := "/tmp/miopen-0", files := [] }

/-! ## The find-solution engine -/

/-- C1: when the problem has `disable_perfdb_access` set, `FindSolution` on a
searchable solver returns the solution of the default configuration, stamped with
the solver identifier, leaves the cache as it was, and calls neither `Load`,
`Update`, `Remove` nor `Search`, whatever the policy and `do_search` are. -/
theorem FindSolution_db_access_disabled {P Cfg : Type} [DecidableEq P]
    (enforce : FindEnforce P) (s : SearchableSolver P Cfg) (context : Context P)
    (db : PerfDb P Cfg) (h : context.disable_perfdb_access = true) :
    (FindSolution enforce (.searchable s) context db).result
        = (s.GetSolution context (s.GetPerformanceConfig context)).map (stamp s.SolverDbId)
      ∧ (FindSolution enforce (.searchable s) context db).db = db
      ∧ (FindSolution enforce (.searchable s) context db).trace
          = [Event.GetPerformanceConfig s.SolverDbId,
             Event.GetSolution s.SolverDbId (s.GetPerformanceConfig context)]
      ∧ ∀ e ∈ (FindSolution enforce (.searchable s) context db).trace,
          e.isDbCall = false ∧ e.isSearch = false := by
  simp [FindSolution, FindSolutionImpl_rank1, returnDefault, h, Solver.SolverDbId,
    Event.isDbCall, Event.isSearch]

/-- Witness for C1: problem `0` with cache access disabled and a search
requested, on the sample solver and the empty cache. -/
theorem FindSolution_db_access_disabled_witness :
    ctxNoDb.disable_perfdb_access = true
      ∧ (FindSolution enforceSearchDbUpdate (.searchable sampleSolver) ctxNoDb emptyDb).result
          = (sampleSolver.GetSolution ctxNoDb (sampleSolver.GetPerformanceConfig ctxNoDb)).map
              (stamp sampleSolver.SolverDbId)
      ∧ (FindSolution enforceSearchDbUpdate (.searchable sampleSolver) ctxNoDb emptyDb).trace
          = [Event.GetPerformanceConfig "ConvSample", Event.GetSolution "ConvSample" 1] :=
  ⟨rfl,
   (FindSolution_db_access_disabled enforceSearchDbUpdate sampleSolver ctxNoDb emptyDb rfl).1,
   (FindSolution_db_access_disabled enforceSearchDbUpdate sampleSolver ctxNoDb emptyDb rfl).2.2.1⟩

/-- C2: with cache access enabled, cleaning not demanded and loading not skipped,
a record that `Load` returns and that passes `IsValidPerformanceConfig` is the
configuration the solution is built from: `FindSolution` returns
`GetSolution(context, config)` stamped, `Search` is not called and the cache is
left as it was (no `Update`, no `Remove`), also when `do_search` is set. -/
theorem FindSolution_valid_record_loaded {P Cfg : Type} [DecidableEq P]
    (enforce : FindEnforce P) (s : SearchableSolver P Cfg) (context : Context P)
    (db : PerfDb P Cfg) (config : Cfg)
    (hacc : context.disable_perfdb_access = false)
    (hclean : enforce.IsDbClean context = false)
    (hskip : ((context.do_search || enforce.IsSearch context) && enforce.IsDbUpdate context)
      = false)
    (hload : db.Load context s.SolverDbId = some config)
    (hvalid : s.IsValidPerformanceConfig context config = true) :
    (FindSolution enforce (.searchable s) context db).result
        = (s.GetSolution context config).map (stamp s.SolverDbId)
      ∧ (FindSolution enforce (.searchable s) context db).db = db
      ∧ (FindSolution enforce (.searchable s) context db).trace
          = [Event.Load s.SolverDbId, Event.IsValidPerformanceConfig s.SolverDbId config,
             Event.GetSolution s.SolverDbId config]
      ∧ ∀ e ∈ (FindSolution enforce (.searchable s) context db).trace,
          e.isSearch = false ∧ e.isUpdate = false ∧ e ≠ Event.Remove s.SolverDbId := by
  simp only [Bool.and_eq_false_iff, Bool.or_eq_false_iff] at hskip
  rcases hskip with ⟨h1, h2⟩ | h3 <;>
    simp_all [FindSolution, FindSolutionImpl_rank1, Solver.SolverDbId, Event.isSearch,
      Event.isUpdate]

/-- Witness for C2: the cache holds the valid record `5` and the problem requests
a search; the solution is built from `5` and nothing is searched. -/
theorem FindSolution_valid_record_loaded_witness :
    ctxSearch.do_search = true
      ∧ (singleDb 5).Load ctxSearch sampleSolver.SolverDbId = some 5
      ∧ (FindSolution enforceNone (.searchable sampleSolver) ctxSearch (singleDb 5)).result
          = (sampleSolver.GetSolution ctxSearch 5).map (stamp sampleSolver.SolverDbId)
      ∧ (FindSolution enforceNone (.searchable sampleSolver) ctxSearch (singleDb 5)).db
          = singleDb 5 :=
  ⟨rfl, rfl,
   (FindSolution_valid_record_loaded enforceNone sampleSolver ctxSearch (singleDb 5) 5
      rfl rfl rfl rfl (by decide)).1,
   (FindSolution_valid_record_loaded enforceNone sampleSolver ctxSearch (singleDb 5) 5
      rfl rfl rfl rfl (by decide)).2.1⟩

/-- Without a search requested or forced, the search step is the final `return`. -/
theorem searchStep_not_requested {P Cfg : Type} [DecidableEq P] (enforce : FindEnforce P)
    (s : SearchableSolver P Cfg) (context : Context P) (db : PerfDb P Cfg)
    (tr : List (Event Cfg)) (h : (context.do_search || enforce.IsSearch context) = false) :
    searchStep enforce s context db tr = returnDefault s context db tr := by
  simp only [Bool.or_eq_false_iff] at h
  simp [searchStep, h.1, h.2]

/-- A search that throws leaves the cache alone and leads to the final `return`. -/
theorem searchStep_search_failed {P Cfg : Type} [DecidableEq P] (enforce : FindEnforce P)
    (s : SearchableSolver P Cfg) (context : Context P) (db : PerfDb P Cfg)
    (tr : List (Event Cfg)) (ex : Exception)
    (h : (context.do_search || enforce.IsSearch context) = true)
    (hs : s.Search context = .error ex) :
    searchStep enforce s context db tr
      = returnDefault s context db (tr ++ [Event.Search s.SolverDbId]) := by
  simp only [Bool.or_eq_true] at h
  rcases h with h | h <;> simp [searchStep, h, hs]

/-- A search that succeeds, followed by a `GetSolution` that succeeds. -/
theorem searchStep_search_succeeded {P Cfg : Type} [DecidableEq P] (enforce : FindEnforce P)
    (s : SearchableSolver P Cfg) (context : Context P) (db : PerfDb P Cfg)
    (tr : List (Event Cfg)) (c : Cfg) (solution : ConvSolution)
    (h : (context.do_search || enforce.IsSearch context) = true)
    (hs : s.Search context = .ok c) (hg : s.GetSolution context c = .ok solution) :
    searchStep enforce s context db tr
      = { result := .ok solution
          db := db.Update context s.SolverDbId c
          trace := tr ++ [Event.Search s.SolverDbId, Event.Update s.SolverDbId c,
                          Event.GetSolution s.SolverDbId c] } := by
  simp only [Bool.or_eq_true] at h
  rcases h with h | h <;> simp [searchStep, h, hs, hg]

/-- A search that succeeds, followed by a `GetSolution` that throws: the record
is written, the exception is caught and the final `return` is reached. -/
theorem searchStep_solution_failed {P Cfg : Type} [DecidableEq P] (enforce : FindEnforce P)
    (s : SearchableSolver P Cfg) (context : Context P) (db : PerfDb P Cfg)
    (tr : List (Event Cfg)) (c : Cfg) (ex : Exception)
    (h : (context.do_search || enforce.IsSearch context) = true)
    (hs : s.Search context = .ok c) (hg : s.GetSolution context c = .error ex) :
    searchStep enforce s context db tr
      = returnDefault s context (db.Update context s.SolverDbId c)
          (tr ++ [Event.Search s.SolverDbId, Event.Update s.SolverDbId c,
                  Event.GetSolution s.SolverDbId c]) := by
  simp only [Bool.or_eq_true] at h
  rcases h with h | h <;> simp [searchStep, h, hs, hg]

/-- Every configuration that the search step passes to `GetSolution` is the
result of the search it ran or the default configuration. -/
theorem searchStep_getSolution_args {P Cfg : Type} [DecidableEq P] (enforce : FindEnforce P)
    (s : SearchableSolver P Cfg) (context : Context P) (db : PerfDb P Cfg)
    (tr : List (Event Cfg)) (cfg : Cfg)
    (h : Event.GetSolution s.SolverDbId cfg ∈ (searchStep enforce s context db tr).trace) :
    Event.GetSolution s.SolverDbId cfg ∈ tr
      ∨ ((context.do_search || enforce.IsSearch context) = true ∧ s.Search context = .ok cfg)
      ∨ cfg = s.GetPerformanceConfig context := by
  cases hq : (context.do_search || enforce.IsSearch context) with
  | false =>
    rw [searchStep_not_requested enforce s context db tr hq] at h
    simp [returnDefault] at h
    tauto
  | true =>
    cases hs : s.Search context with
    | error ex =>
      rw [searchStep_search_failed enforce s context db tr ex hq hs] at h
      simp [returnDefault] at h
      tauto
    | ok c =>
      cases hg : s.GetSolution context c with
      | ok solution =>
        rw [searchStep_search_succeeded enforce s context db tr c solution hq hs hg] at h
        simp at h
        rcases h with h | h
        · exact Or.inl h
        · exact Or.inr (Or.inl ⟨rfl, by rw [h]⟩)
      | error ex =>
        rw [searchStep_solution_failed enforce s context db tr c ex hq hs hg] at h
        simp [returnDefault] at h
        rcases h with h | h | h
        · exact Or.inl h
        · exact Or.inr (Or.inl ⟨rfl, by rw [h]⟩)
        · exact Or.inr (Or.inr h)

/-- The search step runs `Search` exactly when a search is requested or forced, and
never removes or adds a `Search` call of the calls made before it. -/
theorem searchStep_search_mem {P Cfg : Type} [DecidableEq P] (enforce : FindEnforce P)
    (s : SearchableSolver P Cfg) (context : Context P) (db : PerfDb P Cfg)
    (tr : List (Event Cfg)) :
    Event.Search s.SolverDbId ∈ (searchStep enforce s context db tr).trace
      ↔ (Event.Search s.SolverDbId ∈ tr
          ∨ (context.do_search || enforce.IsSearch context) = true) := by
  cases hq : (context.do_search || enforce.IsSearch context) with
  | false =>
    rw [searchStep_not_requested enforce s context db tr hq]
    simp [returnDefault]
  | true =>
    cases hs : s.Search context with
    | error ex =>
      rw [searchStep_search_failed enforce s context db tr ex hq hs]
      simp [returnDefault]
    | ok c =>
      cases hg : s.GetSolution context c with
      | ok solution =>
        rw [searchStep_search_succeeded enforce s context db tr c solution hq hs hg]
        simp
      | error ex =>
        rw [searchStep_solution_failed enforce s context db tr c ex hq hs hg]
        simp [returnDefault]

/-- Path of `FindSolutionImpl(rank<1>, ...)`: cache access disabled. -/
theorem FindSolutionImpl_rank1_disabled {P Cfg : Type} [DecidableEq P] (enforce : FindEnforce P)
    (s : SearchableSolver P Cfg) (context : Context P) (db : PerfDb P Cfg)
    (hacc : context.disable_perfdb_access = true) :
    FindSolutionImpl_rank1 enforce s context db = returnDefault s context db [] := by
  simp [FindSolutionImpl_rank1, hacc]

/-- Path of `FindSolutionImpl(rank<1>, ...)`: the policy demands a clean cache. -/
theorem FindSolutionImpl_rank1_clean {P Cfg : Type} [DecidableEq P] (enforce : FindEnforce P)
    (s : SearchableSolver P Cfg) (context : Context P) (db : PerfDb P Cfg)
    (hacc : context.disable_perfdb_access = false) (hclean : enforce.IsDbClean context = true) :
    FindSolutionImpl_rank1 enforce s context db
      = returnDefault s context (db.Remove context s.SolverDbId).2
          [Event.Remove s.SolverDbId] := by
  simp [FindSolutionImpl_rank1, hacc, hclean]

/-- Path of `FindSolutionImpl(rank<1>, ...)`: the load is skipped. -/
theorem FindSolutionImpl_rank1_load_skipped {P Cfg : Type} [DecidableEq P]
    (enforce : FindEnforce P) (s : SearchableSolver P Cfg) (context : Context P)
    (db : PerfDb P Cfg)
    (hacc : context.disable_perfdb_access = false) (hclean : enforce.IsDbClean context = false)
    (hskip : ((context.do_search || enforce.IsSearch context) && enforce.IsDbUpdate context)
      = true) :
    FindSolutionImpl_rank1 enforce s context db = searchStep enforce s context db [] := by
  unfold FindSolutionImpl_rank1
  rw [if_neg (by simp [hacc]), if_neg (by simp [hclean]), if_pos hskip]

/-- Path of `FindSolutionImpl(rank<1>, ...)`: the cache has no record. -/
theorem FindSolutionImpl_rank1_not_found {P Cfg : Type} [DecidableEq P]
    (enforce : FindEnforce P) (s : SearchableSolver P Cfg) (context : Context P)
    (db : PerfDb P Cfg)
    (hacc : context.disable_perfdb_access = false) (hclean : enforce.IsDbClean context = false)
    (hskip : ((context.do_search || enforce.IsSearch context) && enforce.IsDbUpdate context)
      = false)
    (hload : db.Load context s.SolverDbId = none) :
    FindSolutionImpl_rank1 enforce s context db
      = searchStep enforce s context db [Event.Load s.SolverDbId] := by
  unfold FindSolutionImpl_rank1
  rw [if_neg (by simp [hacc]), if_neg (by simp [hclean]), if_neg (by simp [hskip]), hload]

/-- Path of `FindSolutionImpl(rank<1>, ...)`: the record loaded is invalid. -/
theorem FindSolutionImpl_rank1_invalid {P Cfg : Type} [DecidableEq P]
    (enforce : FindEnforce P) (s : SearchableSolver P Cfg) (context : Context P)
    (db : PerfDb P Cfg) (config : Cfg)
    (hacc : context.disable_perfdb_access = false) (hclean : enforce.IsDbClean context = false)
    (hskip : ((context.do_search || enforce.IsSearch context) && enforce.IsDbUpdate context)
      = false)
    (hload : db.Load context s.SolverDbId = some config)
    (hvalid : s.IsValidPerformanceConfig context config = false) :
    FindSolutionImpl_rank1 enforce s context db
      = searchStep enforce s context db
          [Event.Load s.SolverDbId, Event.IsValidPerformanceConfig s.SolverDbId config] := by
  unfold FindSolutionImpl_rank1
  rw [if_neg (by simp [hacc]), if_neg (by simp [hclean]), if_neg (by simp [hskip]), hload]
  simp [hvalid]

/-- Path of `FindSolutionImpl(rank<1>, ...)`: the record loaded is valid. -/
theorem FindSolutionImpl_rank1_valid {P Cfg : Type} [DecidableEq P]
    (enforce : FindEnforce P) (s : SearchableSolver P Cfg) (context : Context P)
    (db : PerfDb P Cfg) (config : Cfg)
    (hacc : context.disable_perfdb_access = false) (hclean : enforce.IsDbClean context = false)
    (hskip : ((context.do_search || enforce.IsSearch context) && enforce.IsDbUpdate context)
      = false)
    (hload : db.Load context s.SolverDbId = some config)
    (hvalid : s.IsValidPerformanceConfig context config = true) :
    FindSolutionImpl_rank1 enforce s context db
      = { result := s.GetSolution context config
          db := db
          trace := [Event.Load s.SolverDbId,
                    Event.IsValidPerformanceConfig s.SolverDbId config,
                    Event.GetSolution s.SolverDbId config] } := by
  unfold FindSolutionImpl_rank1
  rw [if_neg (by simp [hacc]), if_neg (by simp [hclean]), if_neg (by simp [hskip]), hload]
  simp [hvalid]

/-- On a searchable solver `FindSolution` is `FindSolutionImpl(rank<1>, ...)` with the
result stamped. -/
theorem FindSolution_searchable {P Cfg : Type} [DecidableEq P] (enforce : FindEnforce P)
    (s : SearchableSolver P Cfg) (context : Context P) (db : PerfDb P Cfg) :
    (FindSolution enforce (.searchable s) context db).result
        = (FindSolutionImpl_rank1 enforce s context db).result.map (stamp s.SolverDbId)
      ∧ (FindSolution enforce (.searchable s) context db).db
        = (FindSolutionImpl_rank1 enforce s context db).db
      ∧ (FindSolution enforce (.searchable s) context db).trace
        = (FindSolutionImpl_rank1 enforce s context db).trace := by
  simp [FindSolution, Solver.SolverDbId]

/-- C3, as stated, fails when `GetSolution` throws on the search result: the cache
holds the record `0`, which fails `IsValidPerformanceConfig`, the problem requests a
search and `Search` succeeds with `7`, yet `GetSolution(context, 7)` throws, the
exception is caught, and the solution returned is built from the default
configuration `1`, not from the search result. -/
theorem FindSolution_invalid_record_falls_through_counterexample :
    ctxSearch.disable_perfdb_access = false
      ∧ enforceNone.IsDbClean ctxSearch = false
      ∧ (singleDb 0).Load ctxSearch sampleBrokenSolver.SolverDbId = some 0
      ∧ sampleBrokenSolver.IsValidPerformanceConfig ctxSearch 0 = false
      ∧ ctxSearch.do_search = true
      ∧ sampleBrokenSolver.Search ctxSearch = .ok 7
      ∧ sampleBrokenSolver.GetPerformanceConfig ctxSearch = 1
      ∧ sampleBrokenSolver.GetSolution ctxSearch 7
          = .error { status := .miopenStatusUnknownError, message := "cannot build" }
      ∧ builtFrom (FindSolution enforceNone (.searchable sampleBrokenSolver) ctxSearch
          (singleDb 0)) = some 1
      ∧ (FindSolution enforceNone (.searchable sampleBrokenSolver) ctxSearch
          (singleDb 0)).result = .ok (sampleSolution 1) := by
  exact ⟨rfl, rfl, rfl, by decide, rfl, rfl, rfl, by rfl, by rfl, by rfl⟩

/-- C3, amended: when a record is loaded from the cache (cache access enabled, cleaning
not demanded, load not skipped) and fails `IsValidPerformanceConfig`,
`FindSolution` falls through: every configuration it passes to `GetSolution` is the
result of the search it ran or the default configuration, never the loaded one
as such; the solution is built from the search result when a search is requested
or forced, succeeds, and `GetSolution` returns a solution for its result; and
from the default configuration otherwise, that is when no search is requested or
forced, when the search throws, or when `GetSolution` throws on the search
result. -/
theorem FindSolution_invalid_record_falls_through {P Cfg : Type} [DecidableEq P]
    (enforce : FindEnforce P) (s : SearchableSolver P Cfg) (context : Context P)
    (db : PerfDb P Cfg) (config : Cfg)
    (hacc : context.disable_perfdb_access = false)
    (hclean : enforce.IsDbClean context = false)
    (hskip : ((context.do_search || enforce.IsSearch context) && enforce.IsDbUpdate context)
      = false)
    (hload : db.Load context s.SolverDbId = some config)
    (hvalid : s.IsValidPerformanceConfig context config = false) :
    (∀ cfg, Event.GetSolution s.SolverDbId cfg
          ∈ (FindSolution enforce (.searchable s) context db).trace →
        ((context.do_search || enforce.IsSearch context) = true ∧ s.Search context = .ok cfg)
          ∨ cfg = s.GetPerformanceConfig context)
      ∧ (∀ c solution, (context.do_search || enforce.IsSearch context) = true →
          s.Search context = .ok c → s.GetSolution context c = .ok solution →
          (FindSolution enforce (.searchable s) context db).result
            = .ok (stamp s.SolverDbId solution))
      ∧ (((context.do_search || enforce.IsSearch context) = false
            ∨ (∃ ex, s.Search context = .error ex)
            ∨ ∃ c ex, s.Search context = .ok c ∧ s.GetSolution context c = .error ex) →
          (FindSolution enforce (.searchable s) context db).result
            = (s.GetSolution context (s.GetPerformanceConfig context)).map
                (stamp s.SolverDbId)) := by
  obtain ⟨hr, -, ht⟩ := FindSolution_searchable enforce s context db
  rw [hr, ht, FindSolutionImpl_rank1_invalid enforce s context db config hacc hclean hskip
    hload hvalid]
  refine ⟨?_, ?_, ?_⟩
  · intro cfg h
    rcases searchStep_getSolution_args enforce s context db _ cfg h with h | h | h
    · simp at h
    · exact Or.inl h
    · exact Or.inr h
  · intro c solution hq hs hg
    rw [searchStep_search_succeeded enforce s context db _ c solution hq hs hg]
    rfl
  · intro h
    cases hq : (context.do_search || enforce.IsSearch context) with
    | false =>
      rw [searchStep_not_requested enforce s context db _ hq]
      rfl
    | true =>
      rcases h with h | ⟨ex, hs⟩ | ⟨c, ex, hs, hg⟩
      · rw [hq] at h
        exact absurd h (by decide)
      · rw [searchStep_search_failed enforce s context db _ ex hq hs]
        rfl
      · rw [searchStep_solution_failed enforce s context db _ c ex hq hs hg]
        rfl

/-- Witness for C3, amended: the cache holds the invalid record `0` and the problem
requests a search; the solution is built from the search result `7`. -/
theorem FindSolution_invalid_record_falls_through_witness :
    (singleDb 0).Load ctxSearch sampleSolver.SolverDbId = some 0
      ∧ sampleSolver.IsValidPerformanceConfig ctxSearch 0 = false
      ∧ (FindSolution enforceNone (.searchable sampleSolver) ctxSearch (singleDb 0)).result
          = .ok (sampleSolution 7) :=
  ⟨rfl, by decide,
   (FindSolution_invalid_record_falls_through enforceNone sampleSolver ctxSearch (singleDb 0) 0
      rfl rfl rfl rfl (by decide)).2.1 7 _ rfl rfl rfl⟩

/-- Path of `FindSolutionImpl(rank<1>, ...)`: with cache access enabled and cleaning
not demanded, when the load is skipped or yields no valid record, control reaches
the search step after calls that are neither `Search` nor `Update`. -/
theorem FindSolutionImpl_rank1_reaches_searchStep {P Cfg : Type} [DecidableEq P]
    (enforce : FindEnforce P) (s : SearchableSolver P Cfg) (context : Context P)
    (db : PerfDb P Cfg)
    (hacc : context.disable_perfdb_access = false) (hclean : enforce.IsDbClean context = false)
    (hnovalid : ((context.do_search || enforce.IsSearch context) && enforce.IsDbUpdate context)
        = true
      ∨ ∀ config, db.Load context s.SolverDbId = some config →
          s.IsValidPerformanceConfig context config = false) :
    ∃ tr, FindSolutionImpl_rank1 enforce s context db = searchStep enforce s context db tr
      ∧ ∀ e ∈ tr, e.isSearch = false ∧ e.isUpdate = false ∧ e ≠ Event.Remove s.SolverDbId := by
  cases hskip : ((context.do_search || enforce.IsSearch context) && enforce.IsDbUpdate context)
    with
  | true =>
    exact ⟨[], FindSolutionImpl_rank1_load_skipped enforce s context db hacc hclean hskip,
      by simp⟩
  | false =>
    have hinv : ∀ config, db.Load context s.SolverDbId = some config →
        s.IsValidPerformanceConfig context config = false := by
      rcases hnovalid with h | h
      · rw [hskip] at h
        exact absurd h (by decide)
      · exact h
    cases hload : db.Load context s.SolverDbId with
    | none =>
      exact ⟨_, FindSolutionImpl_rank1_not_found enforce s context db hacc hclean hskip hload,
        by simp [Event.isSearch, Event.isUpdate]⟩
    | some config =>
      exact ⟨_, FindSolutionImpl_rank1_invalid enforce s context db config hacc hclean hskip
        hload (hinv config hload), by simp [Event.isSearch, Event.isUpdate]⟩

/-- C4, as stated, fails when `GetSolution` throws on the search result: the policy
forces a search, the cache is empty and `Search` succeeds with `7`; the record
`7` is written, but `GetSolution(context, 7)` throws, the exception is caught, and the
solution returned is that of the default configuration `1`, which is not
`GetSolution(context, 7)`. -/
theorem FindSolution_search_success_writes_cache_counterexample :
    ctxPlain.disable_perfdb_access = false
      ∧ enforceSearch.IsDbClean ctxPlain = false
      ∧ enforceSearch.IsSearch ctxPlain = true
      ∧ emptyDb.Load ctxPlain sampleBrokenSolver.SolverDbId = (none : Option Nat)
      ∧ sampleBrokenSolver.Search ctxPlain = .ok 7
      ∧ sampleBrokenSolver.GetSolution ctxPlain 7
          = .error { status := .miopenStatusUnknownError, message := "cannot build" }
      ∧ (FindSolution enforceSearch (.searchable sampleBrokenSolver) ctxPlain emptyDb).db.Load
          ctxPlain sampleBrokenSolver.SolverDbId = some 7
      ∧ (FindSolution enforceSearch (.searchable sampleBrokenSolver) ctxPlain emptyDb).result
          = .ok (sampleSolution 1)
      ∧ (FindSolution enforceSearch (.searchable sampleBrokenSolver) ctxPlain emptyDb).result
          ≠ (sampleBrokenSolver.GetSolution ctxPlain 7).map
              (stamp sampleBrokenSolver.SolverDbId) := by
  refine ⟨rfl, rfl, rfl, rfl, rfl, by rfl, by rfl, by rfl, ?_⟩
  intro h
  have h1 : (FindSolution enforceSearch (.searchable sampleBrokenSolver) ctxPlain
      emptyDb).result = .ok (sampleSolution 1) := by rfl
  have h2 : (sampleBrokenSolver.GetSolution ctxPlain 7).map
      (stamp sampleBrokenSolver.SolverDbId)
      = .error { status := .miopenStatusUnknownError, message := "cannot build" } := by rfl
  rw [h1, h2] at h
  cases h

/-- C4, amended: when `FindSolution` reaches the search step (cache access enabled,
cleaning not demanded, a search requested by the problem or forced by the policy,
the load skipped or without a valid record) and `Search` succeeds with `c`, the
cache after the call is the cache before it with `Update(context, id, c)` applied:
its record for (problem, solver id) is `c` and every other record is as before;
`Search` and `Update` were called; when `GetSolution(context, c)` returns a solution,
the returned solution is that solution, stamped; and when `GetSolution(context, c)`
throws, the returned result is that of `GetSolution` on the default
configuration. -/
theorem FindSolution_search_success_writes_cache {P Cfg : Type} [DecidableEq P]
    (enforce : FindEnforce P) (s : SearchableSolver P Cfg) (context : Context P)
    (db : PerfDb P Cfg) (c : Cfg)
    (hacc : context.disable_perfdb_access = false)
    (hclean : enforce.IsDbClean context = false)
    (hsearch : (context.do_search || enforce.IsSearch context) = true)
    (hnovalid : ((context.do_search || enforce.IsSearch context) && enforce.IsDbUpdate context)
        = true
      ∨ ∀ config, db.Load context s.SolverDbId = some config →
          s.IsValidPerformanceConfig context config = false)
    (hs : s.Search context = .ok c) :
    (FindSolution enforce (.searchable s) context db).db.Load context s.SolverDbId = some c
      ∧ (∀ p i, ¬ (p = context.problem ∧ i = s.SolverDbId) →
          (FindSolution enforce (.searchable s) context db).db.records p i = db.records p i)
      ∧ (FindSolution enforce (.searchable s) context db).db = db.Update context s.SolverDbId c
      ∧ Event.Search s.SolverDbId ∈ (FindSolution enforce (.searchable s) context db).trace
      ∧ Event.Update s.SolverDbId c ∈ (FindSolution enforce (.searchable s) context db).trace
      ∧ (∀ solution, s.GetSolution context c = .ok solution →
          (FindSolution enforce (.searchable s) context db).result
            = .ok (stamp s.SolverDbId solution))
      ∧ ∀ ex, s.GetSolution context c = .error ex →
          (FindSolution enforce (.searchable s) context db).result
            = (s.GetSolution context (s.GetPerformanceConfig context)).map
                (stamp s.SolverDbId) := by
  obtain ⟨hr, hd, ht⟩ := FindSolution_searchable enforce s context db
  obtain ⟨tr, hF, -⟩ :=
    FindSolutionImpl_rank1_reaches_searchStep enforce s context db hacc hclean hnovalid
  rw [hr, hd, ht, hF]
  have hdb : (searchStep enforce s context db tr).db = db.Update context s.SolverDbId c := by
    cases hg : s.GetSolution context c with
    | ok solution => rw [searchStep_search_succeeded enforce s context db tr c solution hsearch hs hg]
    | error ex =>
      rw [searchStep_solution_failed enforce s context db tr c ex hsearch hs hg]
      rfl
  have htr : Event.Search s.SolverDbId ∈ (searchStep enforce s context db tr).trace
      ∧ Event.Update s.SolverDbId c ∈ (searchStep enforce s context db tr).trace := by
    cases hg : s.GetSolution context c with
    | ok solution =>
      rw [searchStep_search_succeeded enforce s context db tr c solution hsearch hs hg]
      simp
    | error ex =>
      rw [searchStep_solution_failed enforce s context db tr c ex hsearch hs hg]
      simp [returnDefault]
  refine ⟨?_, ?_, hdb, htr.1, htr.2, ?_, ?_⟩
  · rw [hdb]
    simp [PerfDb.Load, PerfDb.Update]
  · intro p i hne
    rw [hdb]
    simp [PerfDb.Update, hne]
  · intro solution hg
    rw [searchStep_search_succeeded enforce s context db tr c solution hsearch hs hg]
    rfl
  · intro ex hg
    rw [searchStep_solution_failed enforce s context db tr c ex hsearch hs hg]
    rfl

/-- Witness for C4, amended, search forced by the policy together with a cache update: the valid
record `5` is overwritten by the search result `7`, which the solution is built from. -/
theorem FindSolution_search_success_writes_cache_witness :
    (singleDb 5).Load ctxPlain sampleSolver.SolverDbId = some 5
      ∧ (FindSolution enforceSearchDbUpdate (.searchable sampleSolver) ctxPlain
          (singleDb 5)).db.Load ctxPlain sampleSolver.SolverDbId = some 7
      ∧ (FindSolution enforceSearchDbUpdate (.searchable sampleSolver) ctxPlain
          (singleDb 5)).result = .ok (sampleSolution 7) :=
  ⟨rfl,
   (FindSolution_search_success_writes_cache enforceSearchDbUpdate sampleSolver ctxPlain
      (singleDb 5) 7 rfl rfl rfl (Or.inl rfl) rfl).1,
   (FindSolution_search_success_writes_cache enforceSearchDbUpdate sampleSolver ctxPlain
      (singleDb 5) 7 rfl rfl rfl (Or.inl rfl) rfl).2.2.2.2.2.1 _ rfl⟩

/-- When `FindSolutionImpl(rank<1>, ...)` calls `Search`, it does so in the search step:
cache access is enabled, cleaning is not demanded, a search is requested or
forced, and the calls made before are neither `Search`, `Update` nor `Remove`. -/
theorem FindSolutionImpl_rank1_search_called {P Cfg : Type} [DecidableEq P]
    (enforce : FindEnforce P) (s : SearchableSolver P Cfg) (context : Context P)
    (db : PerfDb P Cfg)
    (hrun : Event.Search s.SolverDbId ∈ (FindSolutionImpl_rank1 enforce s context db).trace) :
    context.disable_perfdb_access = false ∧ enforce.IsDbClean context = false
      ∧ (context.do_search || enforce.IsSearch context) = true
      ∧ ∃ tr, FindSolutionImpl_rank1 enforce s context db = searchStep enforce s context db tr
          ∧ ∀ e ∈ tr, e.isSearch = false ∧ e.isUpdate = false
              ∧ e ≠ Event.Remove s.SolverDbId := by
  cases hacc : context.disable_perfdb_access with
  | true =>
    rw [FindSolutionImpl_rank1_disabled enforce s context db hacc] at hrun
    simp [returnDefault] at hrun
  | false =>
    cases hclean : enforce.IsDbClean context with
    | true =>
      rw [FindSolutionImpl_rank1_clean enforce s context db hacc hclean] at hrun
      simp [returnDefault] at hrun
    | false =>
      have hnovalid : ((context.do_search || enforce.IsSearch context)
            && enforce.IsDbUpdate context) = true
          ∨ ∀ config, db.Load context s.SolverDbId = some config →
              s.IsValidPerformanceConfig context config = false := by
        cases hskip : ((context.do_search || enforce.IsSearch context)
            && enforce.IsDbUpdate context) with
        | true => exact Or.inl rfl
        | false =>
          refine Or.inr (fun config hload => ?_)
          cases hvalid : s.IsValidPerformanceConfig context config with
          | false => rfl
          | true =>
            rw [FindSolutionImpl_rank1_valid enforce s context db config hacc hclean hskip
              hload hvalid] at hrun
            simp at hrun
      obtain ⟨tr, hF, htr⟩ :=
        FindSolutionImpl_rank1_reaches_searchStep enforce s context db hacc hclean hnovalid
      refine ⟨rfl, rfl, ?_, tr, hF, htr⟩
      rw [hF, searchStep_search_mem] at hrun
      rcases hrun with h | h
      · have := (htr _ h).1
        simp [Event.isSearch] at this
      · exact h

/-- C5: when `FindSolution` calls `Search` and the search throws `miopen::Exception`,
the exception does not leave `FindSolution`: the result is what
`GetSolution(context, GetPerformanceConfig(context))` returns, stamped, the cache
is as before and `Update` is not called. -/
theorem FindSolution_search_failure_recovered {P Cfg : Type} [DecidableEq P]
    (enforce : FindEnforce P) (s : SearchableSolver P Cfg) (context : Context P)
    (db : PerfDb P Cfg) (ex : Exception)
    (hrun : Event.Search s.SolverDbId
      ∈ (FindSolution enforce (.searchable s) context db).trace)
    (hs : s.Search context = .error ex) :
    (FindSolution enforce (.searchable s) context db).result
        = (s.GetSolution context (s.GetPerformanceConfig context)).map (stamp s.SolverDbId)
      ∧ (FindSolution enforce (.searchable s) context db).db = db
      ∧ ∀ e ∈ (FindSolution enforce (.searchable s) context db).trace, e.isUpdate = false := by
  obtain ⟨hr, hd, ht⟩ := FindSolution_searchable enforce s context db
  rw [ht] at hrun
  obtain ⟨-, -, hq, tr, hF, htr⟩ :=
    FindSolutionImpl_rank1_search_called enforce s context db hrun
  rw [hr, hd, ht, hF, searchStep_search_failed enforce s context db tr ex hq hs]
  refine ⟨rfl, rfl, ?_⟩
  intro e he
  simp only [returnDefault, List.mem_append, List.mem_cons, List.mem_singleton,
    List.not_mem_nil, or_false] at he
  rcases he with (he | he) | he | he
  · exact (htr e he).2.1
  · rw [he]; rfl
  · rw [he]; rfl
  · rw [he]; rfl

/-- Witness for C5: a requested search that throws, on the empty cache; the solution
is that of the default configuration `1` and the cache stays empty. -/
theorem FindSolution_search_failure_recovered_witness :
    (∃ ex, sampleFailingSolver.Search ctxSearch = .error ex)
      ∧ (FindSolution enforceNone (.searchable sampleFailingSolver) ctxSearch emptyDb).result
          = .ok (sampleSolution 1)
      ∧ (FindSolution enforceNone (.searchable sampleFailingSolver) ctxSearch emptyDb).db
          = emptyDb :=
  ⟨⟨_, rfl⟩,
   (FindSolution_search_failure_recovered enforceNone sampleFailingSolver ctxSearch emptyDb
      { status := .miopenStatusUnknownError, message := "no config" } (by decide) rfl).1,
   (FindSolution_search_failure_recovered enforceNone sampleFailingSolver ctxSearch emptyDb
      { status := .miopenStatusUnknownError, message := "no config" } (by decide) rfl).2.1⟩

/-- C6, as stated, fails under a policy that demands a clean cache: with cache access
enabled, no search requested or forced, and only the invalid record `0` in the
cache, `FindSolution` removes that record, so the cache is not left unchanged. -/
theorem FindSolution_cache_miss_counterexample :
    ctxPlain.disable_perfdb_access = false
      ∧ (ctxPlain.do_search || enforceDbClean.IsSearch ctxPlain) = false
      ∧ (singleDb 0).Load ctxPlain sampleSolver.SolverDbId = some 0
      ∧ sampleSolver.IsValidPerformanceConfig ctxPlain 0 = false
      ∧ (FindSolution enforceDbClean (.searchable sampleSolver) ctxPlain (singleDb 0)).db.Load
          ctxPlain sampleSolver.SolverDbId = none
      ∧ (FindSolution enforceDbClean (.searchable sampleSolver) ctxPlain (singleDb 0)).db
          ≠ singleDb 0 := by
  refine ⟨rfl, rfl, rfl, by decide, rfl, ?_⟩
  intro h
  have h2 := congrArg (fun d => PerfDb.Load d ctxPlain sampleSolver.SolverDbId) h
  exact absurd h2 (by decide)

/-- C6, amended: with cache access enabled and cleaning not demanded, when no search
is requested by the problem or forced by the policy and the cache holds no valid
record for (problem, solver id) (none at all, or an invalid one), `FindSolution`
returns the solution of the default configuration, stamped, never calls `Search`,
and leaves the cache as it was (no `Update`, no `Remove`). -/
theorem FindSolution_cache_miss_returns_default {P Cfg : Type} [DecidableEq P]
    (enforce : FindEnforce P) (s : SearchableSolver P Cfg) (context : Context P)
    (db : PerfDb P Cfg)
    (hacc : context.disable_perfdb_access = false)
    (hclean : enforce.IsDbClean context = false)
    (hq : (context.do_search || enforce.IsSearch context) = false)
    (hnorec : ∀ config, db.Load context s.SolverDbId = some config →
      s.IsValidPerformanceConfig context config = false) :
    (FindSolution enforce (.searchable s) context db).result
        = (s.GetSolution context (s.GetPerformanceConfig context)).map (stamp s.SolverDbId)
      ∧ (FindSolution enforce (.searchable s) context db).db = db
      ∧ ∀ e ∈ (FindSolution enforce (.searchable s) context db).trace,
          e.isSearch = false ∧ e.isUpdate = false ∧ e ≠ Event.Remove s.SolverDbId := by
  obtain ⟨hr, hd, ht⟩ := FindSolution_searchable enforce s context db
  obtain ⟨tr, hF, htr⟩ :=
    FindSolutionImpl_rank1_reaches_searchStep enforce s context db hacc hclean (Or.inr hnorec)
  rw [hr, hd, ht, hF, searchStep_not_requested enforce s context db tr hq]
  refine ⟨rfl, rfl, ?_⟩
  intro e he
  simp only [returnDefault, List.mem_append, List.mem_cons, List.mem_singleton,
    List.not_mem_nil, or_false] at he
  rcases he with he | he | he
  · exact htr e he
  · rw [he]; exact ⟨rfl, rfl, by simp⟩
  · rw [he]; exact ⟨rfl, rfl, by simp⟩

/-- Witness for C6, amended: no search, nothing enforced, only the invalid record `0`. -/
theorem FindSolution_cache_miss_returns_default_witness :
    (singleDb 0).Load ctxPlain sampleSolver.SolverDbId = some 0
      ∧ (FindSolution enforceNone (.searchable sampleSolver) ctxPlain (singleDb 0)).result
          = .ok (sampleSolution 1)
      ∧ (FindSolution enforceNone (.searchable sampleSolver) ctxPlain (singleDb 0)).db
          = singleDb 0 :=
  ⟨rfl,
   (FindSolution_cache_miss_returns_default enforceNone sampleSolver ctxPlain (singleDb 0)
      rfl rfl rfl (by decide)).1,
   (FindSolution_cache_miss_returns_default enforceNone sampleSolver ctxPlain (singleDb 0)
      rfl rfl rfl (by decide)).2.1⟩

/-- C7: with cache access enabled and a policy that demands a clean cache, after
`FindSolution` the cache holds no record for (problem, solver id), the records
under every other key are as before, `Load` was never called, and the result is
the solution of the default configuration whatever the cache held. -/
theorem FindSolution_clean_removes_record {P Cfg : Type} [DecidableEq P]
    (enforce : FindEnforce P) (s : SearchableSolver P Cfg) (context : Context P)
    (db : PerfDb P Cfg)
    (hacc : context.disable_perfdb_access = false)
    (hclean : enforce.IsDbClean context = true) :
    (FindSolution enforce (.searchable s) context db).db.Load context s.SolverDbId = none
      ∧ (∀ p i, ¬ (p = context.problem ∧ i = s.SolverDbId) →
          (FindSolution enforce (.searchable s) context db).db.records p i = db.records p i)
      ∧ (∀ e ∈ (FindSolution enforce (.searchable s) context db).trace, e.isLoad = false)
      ∧ (FindSolution enforce (.searchable s) context db).trace
          = [Event.Remove s.SolverDbId, Event.GetPerformanceConfig s.SolverDbId,
             Event.GetSolution s.SolverDbId (s.GetPerformanceConfig context)]
      ∧ (FindSolution enforce (.searchable s) context db).result
          = (s.GetSolution context (s.GetPerformanceConfig context)).map (stamp s.SolverDbId)
      ∧ ∀ db2 : PerfDb P Cfg, (FindSolution enforce (.searchable s) context db2).result
          = (FindSolution enforce (.searchable s) context db).result := by
  obtain ⟨hr, hd, ht⟩ := FindSolution_searchable enforce s context db
  rw [hr, hd, ht, FindSolutionImpl_rank1_clean enforce s context db hacc hclean]
  refine ⟨?_, ?_, ?_, rfl, rfl, ?_⟩
  · simp [returnDefault, PerfDb.Load, PerfDb.Remove]
  · intro p i hne
    simp [returnDefault, PerfDb.Remove, hne]
  · simp [returnDefault, Event.isLoad]
  · intro db2
    rw [(FindSolution_searchable enforce s context db2).1,
      FindSolutionImpl_rank1_clean enforce s context db2 hacc hclean]
    rfl

/-- Witness for C7: the valid record `5` is removed under the cleaning policy and the
solution is that of the default configuration `1`. -/
theorem FindSolution_clean_removes_record_witness :
    (singleDb 5).Load ctxSearch sampleSolver.SolverDbId = some 5
      ∧ (FindSolution enforceDbClean (.searchable sampleSolver) ctxSearch (singleDb 5)).db.Load
          ctxSearch sampleSolver.SolverDbId = none
      ∧ (FindSolution enforceDbClean (.searchable sampleSolver) ctxSearch (singleDb 5)).result
          = .ok (sampleSolution 1) :=
  ⟨rfl,
   (FindSolution_clean_removes_record enforceDbClean sampleSolver ctxSearch (singleDb 5)
      rfl rfl).1,
   (FindSolution_clean_removes_record enforceDbClean sampleSolver ctxSearch (singleDb 5)
      rfl rfl).2.2.2.2.1⟩

/-- The search step only appends to the calls made before it, and what it appends
holds no `Load` and no `Remove`. -/
theorem searchStep_trace_extends {P Cfg : Type} [DecidableEq P] (enforce : FindEnforce P)
    (s : SearchableSolver P Cfg) (context : Context P) (db : PerfDb P Cfg)
    (tr : List (Event Cfg)) :
    ∃ rest, (searchStep enforce s context db tr).trace = tr ++ rest
      ∧ ∀ e ∈ rest, e.isLoad = false ∧ e ≠ Event.Remove s.SolverDbId := by
  cases hq : (context.do_search || enforce.IsSearch context) with
  | false =>
    rw [searchStep_not_requested enforce s context db tr hq]
    exact ⟨_, rfl, by simp [Event.isLoad]⟩
  | true =>
    cases hs : s.Search context with
    | error ex =>
      rw [searchStep_search_failed enforce s context db tr ex hq hs]
      exact ⟨_, by simp only [returnDefault, List.append_assoc]; rfl, by simp [Event.isLoad]⟩
    | ok c =>
      cases hg : s.GetSolution context c with
      | ok solution =>
        rw [searchStep_search_succeeded enforce s context db tr c solution hq hs hg]
        exact ⟨_, rfl, by simp [Event.isLoad]⟩
      | error ex =>
        rw [searchStep_solution_failed enforce s context db tr c ex hq hs hg]
        exact ⟨_, by simp only [returnDefault, List.append_assoc]; rfl, by simp [Event.isLoad]⟩

/-- The result of the search step and the calls it makes do not depend on the cache. -/
theorem searchStep_independent_of_db {P Cfg : Type} [DecidableEq P] (enforce : FindEnforce P)
    (s : SearchableSolver P Cfg) (context : Context P) (db db2 : PerfDb P Cfg)
    (tr : List (Event Cfg)) :
    (searchStep enforce s context db2 tr).result = (searchStep enforce s context db tr).result
      ∧ (searchStep enforce s context db2 tr).trace
          = (searchStep enforce s context db tr).trace := by
  cases hq : (context.do_search || enforce.IsSearch context) with
  | false =>
    rw [searchStep_not_requested enforce s context db tr hq,
      searchStep_not_requested enforce s context db2 tr hq]
    exact ⟨rfl, rfl⟩
  | true =>
    cases hs : s.Search context with
    | error ex =>
      rw [searchStep_search_failed enforce s context db tr ex hq hs,
        searchStep_search_failed enforce s context db2 tr ex hq hs]
      exact ⟨rfl, rfl⟩
    | ok c =>
      cases hg : s.GetSolution context c with
      | ok solution =>
        rw [searchStep_search_succeeded enforce s context db tr c solution hq hs hg,
          searchStep_search_succeeded enforce s context db2 tr c solution hq hs hg]
        exact ⟨rfl, rfl⟩
      | error ex =>
        rw [searchStep_solution_failed enforce s context db tr c ex hq hs hg,
          searchStep_solution_failed enforce s context db2 tr c ex hq hs hg]
        exact ⟨rfl, rfl⟩

/-- C8, as stated, fails when the problem requests a search: under the cleaning policy
the valid record `5` is removed and the solution of the default configuration `1` is
returned without any `Search`, whereas the call without the cleaning request on the
cache with the record removed runs `Search` and returns the solution of its
result `7`. -/
theorem FindSolution_clean_as_if_no_record_counterexample :
    enforceDbClean.IsDbClean ctxSearch = true
      ∧ ctxSearch.do_search = true
      ∧ (FindSolution enforceDbClean (.searchable sampleSolver) ctxSearch (singleDb 5)).result
          = .ok (sampleSolution 1)
      ∧ (FindSolution enforceDbClean.withoutDbClean (.searchable sampleSolver) ctxSearch
          ((singleDb 5).Remove ctxSearch sampleSolver.SolverDbId).2).result
          = .ok (sampleSolution 7)
      ∧ Event.Search sampleSolver.SolverDbId
          ∉ (FindSolution enforceDbClean (.searchable sampleSolver) ctxSearch (singleDb 5)).trace
      ∧ Event.Search sampleSolver.SolverDbId
          ∈ (FindSolution enforceDbClean.withoutDbClean (.searchable sampleSolver) ctxSearch
              ((singleDb 5).Remove ctxSearch sampleSolver.SolverDbId).2).trace := by
  refine ⟨rfl, rfl, rfl, rfl, by decide, by decide⟩

/-- C8, amended: under a policy that requests cache cleaning `FindSolution` calls neither
`Search` nor `Update` and returns the solution of the default configuration, also
when a search is requested or forced; with cache access enabled the cache after the
call is the cache with the record removed, and with cache access disabled the
cache is left as it is. It behaves as if no record existed when cache access is
disabled or no search is requested by the problem or forced by the policy: then
it returns the same result, performs the same (no) `Search` and `Update` steps,
and, with cache access enabled, leaves the same cache as the call without the
cleaning request on the cache with the record for (problem, solver id) removed. -/
theorem FindSolution_clean_as_if_no_record {P Cfg : Type} [DecidableEq P]
    (enforce : FindEnforce P) (s : SearchableSolver P Cfg) (context : Context P)
    (db : PerfDb P Cfg)
    (hclean : enforce.IsDbClean context = true) :
    (∀ e ∈ (FindSolution enforce (.searchable s) context db).trace,
        e.isSearch = false ∧ e.isUpdate = false)
      ∧ (FindSolution enforce (.searchable s) context db).result
          = (s.GetSolution context (s.GetPerformanceConfig context)).map (stamp s.SolverDbId)
      ∧ ((context.disable_perfdb_access = false →
            (FindSolution enforce (.searchable s) context db).db
              = (db.Remove context s.SolverDbId).2)
          ∧ (context.disable_perfdb_access = true →
            (FindSolution enforce (.searchable s) context db).db = db))
      ∧ ((context.disable_perfdb_access = true
            ∨ (context.do_search || enforce.IsSearch context) = false) →
          (FindSolution enforce (.searchable s) context db).result
              = (FindSolution enforce.withoutDbClean (.searchable s) context
                  (db.Remove context s.SolverDbId).2).result
            ∧ searchUpdateSteps (FindSolution enforce (.searchable s) context db).trace
              = searchUpdateSteps (FindSolution enforce.withoutDbClean (.searchable s) context
                  (db.Remove context s.SolverDbId).2).trace
            ∧ (context.disable_perfdb_access = false →
                (FindSolution enforce (.searchable s) context db).db
                  = (FindSolution enforce.withoutDbClean (.searchable s) context
                      (db.Remove context s.SolverDbId).2).db)) := by
  obtain ⟨hr, hd, ht⟩ := FindSolution_searchable enforce s context db
  obtain ⟨hr2, hd2, ht2⟩ := FindSolution_searchable enforce.withoutDbClean s context
    (db.Remove context s.SolverDbId).2
  rw [hr, hd, ht, hr2, hd2, ht2]
  cases hacc : context.disable_perfdb_access with
  | true =>
    rw [FindSolutionImpl_rank1_disabled enforce s context db hacc,
      FindSolutionImpl_rank1_disabled enforce.withoutDbClean s context _ hacc]
    refine ⟨by simp [returnDefault, Event.isSearch, Event.isUpdate], rfl,
      ⟨by simp, fun _ => rfl⟩, ?_⟩
    intro _
    exact ⟨rfl, rfl, by simp⟩
  | false =>
    rw [FindSolutionImpl_rank1_clean enforce s context db hacc hclean]
    refine ⟨by simp [returnDefault, Event.isSearch, Event.isUpdate], rfl,
      ⟨fun _ => rfl, by simp⟩, ?_⟩
    intro hq0
    have hq : (context.do_search || enforce.IsSearch context) = false := by
      rcases hq0 with h | h
      · exact absurd h (by decide)
      · exact h
    have hq2 : (context.do_search || enforce.withoutDbClean.IsSearch context) = false := hq
    have hskip : ((context.do_search || enforce.withoutDbClean.IsSearch context)
        && enforce.withoutDbClean.IsDbUpdate context) = false := by
      rw [hq2]; rfl
    have hload : ((db.Remove context s.SolverDbId).2).Load context s.SolverDbId = none := by
      simp [PerfDb.Load, PerfDb.Remove]
    rw [FindSolutionImpl_rank1_not_found enforce.withoutDbClean s context _ hacc rfl hskip hload,
      searchStep_not_requested enforce.withoutDbClean s context _ _ hq2]
    exact ⟨rfl, by simp [returnDefault, searchUpdateSteps, Event.isSearch, Event.isUpdate],
      fun _ => rfl⟩

/-- Witness for C8, amended: cleaning demanded, no search requested, the valid record `5` in
the cache, which the call removes. -/
theorem FindSolution_clean_as_if_no_record_witness :
    (FindSolution enforceDbClean (.searchable sampleSolver) ctxPlain (singleDb 5)).result
        = .ok (sampleSolution 1)
      ∧ (FindSolution enforceDbClean (.searchable sampleSolver) ctxPlain (singleDb 5)).db
        = ((singleDb 5).Remove ctxPlain sampleSolver.SolverDbId).2
      ∧ (FindSolution enforceDbClean (.searchable sampleSolver) ctxPlain (singleDb 5)).result
        = (FindSolution enforceDbClean.withoutDbClean (.searchable sampleSolver) ctxPlain
            ((singleDb 5).Remove ctxPlain sampleSolver.SolverDbId).2).result :=
  ⟨(FindSolution_clean_as_if_no_record enforceDbClean sampleSolver ctxPlain (singleDb 5)
      rfl).2.1,
   (FindSolution_clean_as_if_no_record enforceDbClean sampleSolver ctxPlain (singleDb 5)
      rfl).2.2.1.1 rfl,
   ((FindSolution_clean_as_if_no_record enforceDbClean sampleSolver ctxPlain (singleDb 5)
      rfl).2.2.2 (Or.inr rfl)).1⟩

/-- C9, as stated, fails when the search is requested by the problem and the policy
forces only the cache update: the policy does not force a search, yet the load
is skipped, the valid record `5` is ignored and the search result `7` is used. -/
theorem FindSolution_load_skipped_counterexample :
    ctxSearch.disable_perfdb_access = false
      ∧ enforceDbUpdate.IsDbClean ctxSearch = false
      ∧ (enforceDbUpdate.IsSearch ctxSearch && enforceDbUpdate.IsDbUpdate ctxSearch) = false
      ∧ (singleDb 5).Load ctxSearch sampleSolver.SolverDbId = some 5
      ∧ sampleSolver.IsValidPerformanceConfig ctxSearch 5 = true
      ∧ Event.Load sampleSolver.SolverDbId
          ∉ (FindSolution enforceDbUpdate (.searchable sampleSolver) ctxSearch (singleDb 5)).trace
      ∧ (FindSolution enforceDbUpdate (.searchable sampleSolver) ctxSearch (singleDb 5)).result
          = .ok (sampleSolution 7) := by
  refine ⟨rfl, rfl, rfl, rfl, by decide, by decide, rfl⟩

/-- C9, amended: with cache access enabled and cleaning not demanded, `FindSolution` calls
`Load` for (problem, solver id) unless a search is requested by the problem or
forced by the policy while the policy also forces a cache update; exactly in that
case the load is skipped, `Search` is run, and the result and the calls made are
the same whatever the cache holds (an existing valid record is ignored). -/
theorem FindSolution_load_unless_search_and_update {P Cfg : Type} [DecidableEq P]
    (enforce : FindEnforce P) (s : SearchableSolver P Cfg) (context : Context P)
    (db : PerfDb P Cfg)
    (hacc : context.disable_perfdb_access = false)
    (hclean : enforce.IsDbClean context = false) :
    (Event.Load s.SolverDbId ∈ (FindSolution enforce (.searchable s) context db).trace
        ↔ ((context.do_search || enforce.IsSearch context) && enforce.IsDbUpdate context)
            = false)
      ∧ (((context.do_search || enforce.IsSearch context) && enforce.IsDbUpdate context)
            = true →
          Event.Search s.SolverDbId ∈ (FindSolution enforce (.searchable s) context db).trace
            ∧ ∀ db2 : PerfDb P Cfg,
                (FindSolution enforce (.searchable s) context db2).result
                    = (FindSolution enforce (.searchable s) context db).result
                  ∧ (FindSolution enforce (.searchable s) context db2).trace
                    = (FindSolution enforce (.searchable s) context db).trace) := by
  obtain ⟨hr, -, ht⟩ := FindSolution_searchable enforce s context db
  rw [hr, ht]
  cases hskip : ((context.do_search || enforce.IsSearch context) && enforce.IsDbUpdate context)
    with
  | true =>
    rw [FindSolutionImpl_rank1_load_skipped enforce s context db hacc hclean hskip]
    refine ⟨?_, ?_⟩
    · obtain ⟨rest, hrest, hno⟩ := searchStep_trace_extends enforce s context db []
      rw [hrest]
      constructor
      · intro h
        simp only [List.nil_append] at h
        have := (hno _ h).1
        simp [Event.isLoad] at this
      · intro h
        exact absurd h (by decide)
    · intro _
      have hq : (context.do_search || enforce.IsSearch context) = true := by
        simp only [Bool.and_eq_true] at hskip
        exact hskip.1
      refine ⟨(searchStep_search_mem enforce s context db []).2 (Or.inr hq), ?_⟩
      intro db2
      obtain ⟨hr2, -, ht2⟩ := FindSolution_searchable enforce s context db2
      rw [hr2, ht2, FindSolutionImpl_rank1_load_skipped enforce s context db2 hacc hclean hskip,
        (searchStep_independent_of_db enforce s context db db2 []).1,
        (searchStep_independent_of_db enforce s context db db2 []).2]
      exact ⟨rfl, rfl⟩
  | false =>
    refine ⟨?_, fun h => absurd h (by decide)⟩
    refine ⟨fun _ => rfl, fun _ => ?_⟩
    cases hload : db.Load context s.SolverDbId with
    | none =>
      rw [FindSolutionImpl_rank1_not_found enforce s context db hacc hclean hskip hload]
      obtain ⟨rest, hrest, -⟩ := searchStep_trace_extends enforce s context db
        [Event.Load s.SolverDbId]
      rw [hrest]
      simp
    | some config =>
      cases hvalid : s.IsValidPerformanceConfig context config with
      | true =>
        rw [FindSolutionImpl_rank1_valid enforce s context db config hacc hclean hskip hload
          hvalid]
        simp
      | false =>
        rw [FindSolutionImpl_rank1_invalid enforce s context db config hacc hclean hskip hload
          hvalid]
        obtain ⟨rest, hrest, -⟩ := searchStep_trace_extends enforce s context db
          [Event.Load s.SolverDbId, Event.IsValidPerformanceConfig s.SolverDbId config]
        rw [hrest]
        simp

/-- Witness for C9, amended: a search forced together with a cache update skips the load
of the valid record `5`; without the forced update the record is loaded. -/
theorem FindSolution_load_unless_search_and_update_witness :
    Event.Load sampleSolver.SolverDbId
        ∉ (FindSolution enforceSearchDbUpdate (.searchable sampleSolver) ctxPlain
            (singleDb 5)).trace
      ∧ Event.Search sampleSolver.SolverDbId
        ∈ (FindSolution enforceSearchDbUpdate (.searchable sampleSolver) ctxPlain
            (singleDb 5)).trace
      ∧ Event.Load sampleSolver.SolverDbId
        ∈ (FindSolution enforceSearch (.searchable sampleSolver) ctxPlain (singleDb 5)).trace :=
  ⟨fun h => absurd ((FindSolution_load_unless_search_and_update enforceSearchDbUpdate
      sampleSolver ctxPlain (singleDb 5) rfl rfl).1.1 h) (by decide),
   ((FindSolution_load_unless_search_and_update enforceSearchDbUpdate sampleSolver ctxPlain
      (singleDb 5) rfl rfl).2 rfl).1,
   (FindSolution_load_unless_search_and_update enforceSearch sampleSolver ctxPlain
      (singleDb 5) rfl rfl).1.2 rfl⟩

/-- C10: on a solver without search capability `FindSolution` returns what the solver
returns from `GetSolution(context)`, stamped with the solver identifier; the cache is as
before and no call is made on it, whatever `do_search`, `disable_perfdb_access`
and the policy are. -/
theorem FindSolution_not_searchable {P Cfg : Type} [DecidableEq P]
    (enforce : FindEnforce P) (s : NonSearchableSolver P) (context : Context P)
    (db : PerfDb P Cfg) :
    (FindSolution enforce (.nonSearchable s) context db).result
        = (s.GetSolution context).map (stamp s.SolverDbId)
      ∧ (FindSolution enforce (.nonSearchable s) context db).db = db
      ∧ (FindSolution enforce (.nonSearchable s) context db).trace
          = [Event.GetSolutionFixed s.SolverDbId]
      ∧ ∀ e ∈ (FindSolution enforce (.nonSearchable s) context db).trace,
          e.isDbCall = false ∧ e.isSearch = false := by
  simp [FindSolution, FindSolutionImpl_rank0, Solver.SolverDbId, Event.isDbCall,
    Event.isSearch]

/-- The four ways through `FindSolutionImpl(rank<1>, ...)`: cache access disabled; cache
cleaned; a valid record loaded; the search step reached. -/
theorem FindSolutionImpl_rank1_paths {P Cfg : Type} [DecidableEq P]
    (enforce : FindEnforce P) (s : SearchableSolver P Cfg) (context : Context P)
    (db : PerfDb P Cfg) :
    (context.disable_perfdb_access = true
        ∧ FindSolutionImpl_rank1 enforce s context db = returnDefault s context db [])
      ∨ (context.disable_perfdb_access = false ∧ enforce.IsDbClean context = true
        ∧ FindSolutionImpl_rank1 enforce s context db
            = returnDefault s context (db.Remove context s.SolverDbId).2
                [Event.Remove s.SolverDbId])
      ∨ (context.disable_perfdb_access = false ∧ enforce.IsDbClean context = false
        ∧ ((context.do_search || enforce.IsSearch context) && enforce.IsDbUpdate context)
            = false
        ∧ ∃ config, db.Load context s.SolverDbId = some config
            ∧ s.IsValidPerformanceConfig context config = true
            ∧ FindSolutionImpl_rank1 enforce s context db
                = { result := s.GetSolution context config
                    db := db
                    trace := [Event.Load s.SolverDbId,
                              Event.IsValidPerformanceConfig s.SolverDbId config,
                              Event.GetSolution s.SolverDbId config] })
      ∨ (context.disable_perfdb_access = false ∧ enforce.IsDbClean context = false
        ∧ ∃ tr, FindSolutionImpl_rank1 enforce s context db = searchStep enforce s context db tr
            ∧ ∀ e ∈ tr, e.isSearch = false ∧ e.isUpdate = false
                ∧ e ≠ Event.Remove s.SolverDbId) := by
  cases hacc : context.disable_perfdb_access with
  | true => exact Or.inl ⟨rfl, FindSolutionImpl_rank1_disabled enforce s context db hacc⟩
  | false =>
    cases hclean : enforce.IsDbClean context with
    | true =>
      exact Or.inr (Or.inl ⟨rfl, rfl, FindSolutionImpl_rank1_clean enforce s context db hacc hclean⟩)
    | false =>
      cases hskip : ((context.do_search || enforce.IsSearch context)
          && enforce.IsDbUpdate context) with
      | true =>
        exact Or.inr (Or.inr (Or.inr ⟨rfl, rfl,
          FindSolutionImpl_rank1_reaches_searchStep enforce s context db hacc hclean
            (Or.inl hskip)⟩))
      | false =>
        by_cases hv : ∃ config, db.Load context s.SolverDbId = some config
            ∧ s.IsValidPerformanceConfig context config = true
        · obtain ⟨config, hload, hvalid⟩ := hv
          exact Or.inr (Or.inr (Or.inl ⟨rfl, rfl, rfl, config, hload, hvalid,
            FindSolutionImpl_rank1_valid enforce s context db config hacc hclean hskip hload
              hvalid⟩))
        · refine Or.inr (Or.inr (Or.inr ⟨rfl, rfl,
            FindSolutionImpl_rank1_reaches_searchStep enforce s context db hacc hclean
              (Or.inr ?_)⟩))
          intro config hload
          cases hvalid : s.IsValidPerformanceConfig context config with
          | false => rfl
          | true => exact absurd ⟨config, hload, hvalid⟩ hv

/-- The result of the search step is what `GetSolution` returns for some
configuration, and the call of `GetSolution` on that configuration is the last call made. -/
theorem searchStep_built {P Cfg : Type} [DecidableEq P] (enforce : FindEnforce P)
    (s : SearchableSolver P Cfg) (context : Context P) (db : PerfDb P Cfg)
    (tr : List (Event Cfg)) :
    ∃ config, (searchStep enforce s context db tr).result = s.GetSolution context config
      ∧ (searchStep enforce s context db tr).trace.getLast?
          = some (Event.GetSolution s.SolverDbId config) := by
  cases hq : (context.do_search || enforce.IsSearch context) with
  | false =>
    rw [searchStep_not_requested enforce s context db tr hq]
    exact ⟨_, rfl, by simp [returnDefault]⟩
  | true =>
    cases hs : s.Search context with
    | error ex =>
      rw [searchStep_search_failed enforce s context db tr ex hq hs]
      exact ⟨_, rfl, by simp [returnDefault]⟩
    | ok c =>
      cases hg : s.GetSolution context c with
      | ok solution =>
        rw [searchStep_search_succeeded enforce s context db tr c solution hq hs hg]
        exact ⟨c, hg.symm, by simp⟩
      | error ex =>
        rw [searchStep_solution_failed enforce s context db tr c ex hq hs hg]
        exact ⟨_, rfl, by simp [returnDefault]⟩

/-- The result of `FindSolutionImpl(rank<1>, ...)` is what `GetSolution` returns for some
configuration, and the call of `GetSolution` on that configuration is the last call made. -/
theorem FindSolutionImpl_rank1_built {P Cfg : Type} [DecidableEq P]
    (enforce : FindEnforce P) (s : SearchableSolver P Cfg) (context : Context P)
    (db : PerfDb P Cfg) :
    ∃ config, (FindSolutionImpl_rank1 enforce s context db).result
        = s.GetSolution context config
      ∧ (FindSolutionImpl_rank1 enforce s context db).trace.getLast?
          = some (Event.GetSolution s.SolverDbId config) := by
  rcases FindSolutionImpl_rank1_paths enforce s context db with
    ⟨-, hF⟩ | ⟨-, -, hF⟩ | ⟨-, -, -, config, -, -, hF⟩ | ⟨-, -, tr, hF, -⟩
  · rw [hF]; exact ⟨_, rfl, by simp [returnDefault]⟩
  · rw [hF]; exact ⟨_, rfl, by simp [returnDefault]⟩
  · rw [hF]; exact ⟨config, rfl, by simp⟩
  · rw [hF]; exact searchStep_built enforce s context db tr

/-- C11: on every path of `FindSolution`, for searchable and non-searchable solvers
alike, a returned solution has `solver_id` equal to `SolverDbId(solver)`, and its
other fields are those of a solution that the solver's `GetSolution` produced (for a
searchable solver, in a call that `FindSolution` made). -/
theorem FindSolution_stamps_solver_id {P Cfg : Type} [DecidableEq P]
    (enforce : FindEnforce P) (s : Solver P Cfg) (context : Context P) (db : PerfDb P Cfg)
    (solution : ConvSolution)
    (h : (FindSolution enforce s context db).result = .ok solution) :
    solution.solver_id = s.SolverDbId
      ∧ ∃ produced : ConvSolution,
          s.produces context (FindSolution enforce s context db).trace produced
          ∧ solution.status = produced.status
          ∧ solution.construction_params = produced.construction_params
          ∧ solution.workspce_sz = produced.workspce_sz := by
  cases s with
  | searchable s1 =>
    obtain ⟨hr, -, ht⟩ := FindSolution_searchable enforce s1 context db
    obtain ⟨config, hres, hlast⟩ := FindSolutionImpl_rank1_built enforce s1 context db
    rw [hr, hres] at h
    cases hg : s1.GetSolution context config with
    | error ex => rw [hg] at h; cases h
    | ok produced =>
      rw [hg] at h
      simp only [Except.map] at h
      injection h with h
      subst h
      refine ⟨rfl, produced, ⟨config, ?_, hg⟩, rfl, rfl, rfl⟩
      rw [ht]
      exact List.mem_of_mem_getLast? hlast
  | nonSearchable s0 =>
    have hr : (FindSolution enforce (.nonSearchable s0) context db).result
        = (s0.GetSolution context).map (stamp s0.SolverDbId) := rfl
    rw [hr] at h
    cases hg : s0.GetSolution context with
    | error ex => rw [hg] at h; cases h
    | ok produced =>
      rw [hg] at h
      simp only [Except.map] at h
      injection h with h
      subst h
      exact ⟨rfl, produced, hg, rfl, rfl, rfl⟩

/-- Witness for C11: a requested search on the empty cache; the solution returned is the
one built from the search result `7`, with the identifier of the sample solver. -/
theorem FindSolution_stamps_solver_id_witness :
    (FindSolution enforceNone (.searchable sampleSolver) ctxSearch emptyDb).result
        = .ok (sampleSolution 7)
      ∧ (sampleSolution 7).solver_id = "ConvSample"
      ∧ ∃ produced : ConvSolution,
          Solver.produces (.searchable sampleSolver) ctxSearch
            (FindSolution enforceNone (.searchable sampleSolver) ctxSearch emptyDb).trace produced
          ∧ (sampleSolution 7).status = produced.status
          ∧ (sampleSolution 7).construction_params = produced.construction_params
          ∧ (sampleSolution 7).workspce_sz = produced.workspce_sz :=
  ⟨rfl, FindSolution_stamps_solver_id enforceNone (.searchable sampleSolver) ctxSearch emptyDb
    (sampleSolution 7) rfl⟩

/-- A call of `FindSolutionImpl(rank<1>, ...)` that neither cleans nor searches leaves
the cache as it was. -/
theorem FindSolutionImpl_rank1_db_unchanged {P Cfg : Type} [DecidableEq P]
    (enforce : FindEnforce P) (s : SearchableSolver P Cfg) (context : Context P)
    (db : PerfDb P Cfg) (hclean : enforce.IsDbClean context = false)
    (hno : Event.Search s.SolverDbId ∉ (FindSolutionImpl_rank1 enforce s context db).trace) :
    (FindSolutionImpl_rank1 enforce s context db).db = db := by
  rcases FindSolutionImpl_rank1_paths enforce s context db with
    ⟨-, hF⟩ | ⟨-, hc, -⟩ | ⟨-, -, -, config, -, -, hF⟩ | ⟨-, -, tr, hF, -⟩
  · rw [hF]; rfl
  · rw [hclean] at hc; cases hc
  · rw [hF]
  · rw [hF] at hno ⊢
    cases hq : (context.do_search || enforce.IsSearch context) with
    | false => rw [searchStep_not_requested enforce s context db tr hq]; rfl
    | true => exact absurd ((searchStep_search_mem enforce s context db tr).2 (Or.inr hq)) hno

/-- The configuration a `FindSolution` call on a searchable solver is built from, read
off the last call it made. -/
theorem builtFrom_of_getLast {P Cfg : Type} (r : Outcome P Cfg) (id : String) (config : Cfg)
    (h : r.trace.getLast? = some (Event.GetSolution id config)) :
    builtFrom r = some config := by
  simp [builtFrom, h]

/-- C12, as stated, fails when the search of the first call throws: with no enforcement
override and a search requested, the first call leaves the cache empty, and the
second call invokes `Search` again. -/
theorem FindSolution_second_call_counterexample :
    enforceNone.IsDbClean ctxSearch = false
      ∧ enforceNone.IsSearch ctxSearch = false
      ∧ enforceNone.IsDbUpdate ctxSearch = false
      ∧ Event.Search sampleFailingSolver.SolverDbId
          ∈ (FindSolution enforceNone (.searchable sampleFailingSolver) ctxSearch
              (FindSolution enforceNone (.searchable sampleFailingSolver) ctxSearch
                emptyDb).db).trace := by
  refine ⟨rfl, rfl, rfl, by decide⟩

/-- C12, amended: under a policy that neither demands cleaning nor forces a cache update
(in particular with no enforcement override), when the first of two successive
`FindSolution` calls on the same (problem, solver, cache) either did not invoke
`Search`, or its search succeeded with a configuration that passes
`IsValidPerformanceConfig` and from which `GetSolution` returned a solution, the second
call is built from the same configuration as the first, returns the same result
and does not invoke `Search`. -/
theorem FindSolution_second_call_same_config {P Cfg : Type} [DecidableEq P]
    (enforce : FindEnforce P) (s : SearchableSolver P Cfg) (context : Context P)
    (db : PerfDb P Cfg)
    (hclean : enforce.IsDbClean context = false)
    (hupdate : enforce.IsDbUpdate context = false)
    (hfirst : Event.Search s.SolverDbId
        ∈ (FindSolution enforce (.searchable s) context db).trace →
      ∃ c solution, s.Search context = .ok c
        ∧ s.IsValidPerformanceConfig context c = true
        ∧ s.GetSolution context c = .ok solution) :
    (∃ config, builtFrom (FindSolution enforce (.searchable s) context db) = some config
        ∧ builtFrom (FindSolution enforce (.searchable s) context
            (FindSolution enforce (.searchable s) context db).db) = some config)
      ∧ (FindSolution enforce (.searchable s) context
            (FindSolution enforce (.searchable s) context db).db).result
          = (FindSolution enforce (.searchable s) context db).result
      ∧ Event.Search s.SolverDbId
          ∉ (FindSolution enforce (.searchable s) context
              (FindSolution enforce (.searchable s) context db).db).trace := by
  obtain ⟨hr, hd, ht⟩ := FindSolution_searchable enforce s context db
  by_cases hS : Event.Search s.SolverDbId ∈ (FindSolutionImpl_rank1 enforce s context db).trace
  · obtain ⟨c, solution, hs, hvalid, hg⟩ := hfirst (by rw [ht]; exact hS)
    obtain ⟨hacc, -, hq, tr, hF, -⟩ :=
      FindSolutionImpl_rank1_search_called enforce s context db hS
    have hF1 := hF.trans (searchStep_search_succeeded enforce s context db tr c solution hq hs hg)
    have hdb : (FindSolution enforce (.searchable s) context db).db
        = db.Update context s.SolverDbId c := by rw [hd, hF1]
    have hskip : ((context.do_search || enforce.IsSearch context)
        && enforce.IsDbUpdate context) = false := by simp [hupdate]
    have hload : (db.Update context s.SolverDbId c).Load context s.SolverDbId = some c := by
      simp [PerfDb.Load, PerfDb.Update]
    have hF2 := FindSolutionImpl_rank1_valid enforce s context
      (db.Update context s.SolverDbId c) c hacc hclean hskip hload hvalid
    obtain ⟨hr2, -, ht2⟩ := FindSolution_searchable enforce s context
      (db.Update context s.SolverDbId c)
    rw [hdb]
    refine ⟨⟨c, ?_, ?_⟩, ?_, ?_⟩
    · apply builtFrom_of_getLast _ s.SolverDbId
      rw [ht, hF1]
      simp
    · apply builtFrom_of_getLast _ s.SolverDbId
      rw [ht2, hF2]
      simp
    · rw [hr2, hF2, hr, hF1, hg]
    · rw [ht2, hF2]
      simp
  · have hdb : (FindSolution enforce (.searchable s) context db).db = db := by
      rw [hd]
      exact FindSolutionImpl_rank1_db_unchanged enforce s context db hclean hS
    rw [hdb]
    obtain ⟨config, -, hlast⟩ := FindSolutionImpl_rank1_built enforce s context db
    have hb : builtFrom (FindSolution enforce (.searchable s) context db) = some config := by
      apply builtFrom_of_getLast _ s.SolverDbId
      rw [ht]
      exact hlast
    refine ⟨⟨config, hb, hb⟩, rfl, ?_⟩
    rw [ht]
    exact hS

/-- Witness for C12, amended: a requested search on the empty cache finds `7` and records it;
the second call is built from `7` as well. -/
theorem FindSolution_second_call_same_config_witness :
    (∃ config, builtFrom (FindSolution enforceNone (.searchable sampleSolver) ctxSearch emptyDb)
          = some config
        ∧ builtFrom (FindSolution enforceNone (.searchable sampleSolver) ctxSearch
            (FindSolution enforceNone (.searchable sampleSolver) ctxSearch emptyDb).db)
          = some config)
      ∧ Event.Search sampleSolver.SolverDbId
          ∉ (FindSolution enforceNone (.searchable sampleSolver) ctxSearch
              (FindSolution enforceNone (.searchable sampleSolver) ctxSearch emptyDb).db).trace :=
  ⟨(FindSolution_second_call_same_config enforceNone sampleSolver ctxSearch emptyDb rfl rfl
      (fun _ => ⟨7, _, rfl, by decide, rfl⟩)).1,
   (FindSolution_second_call_same_config enforceNone sampleSolver ctxSearch emptyDb rfl rfl
      (fun _ => ⟨7, _, rfl, by decide, rfl⟩)).2.2⟩

/-- The search step adds at most one `Search` call to the calls made before it. -/
theorem searchStep_countSearch {P Cfg : Type} [DecidableEq P] (enforce : FindEnforce P)
    (s : SearchableSolver P Cfg) (context : Context P) (db : PerfDb P Cfg)
    (tr : List (Event Cfg)) :
    countSearch (searchStep enforce s context db tr).trace ≤ countSearch tr + 1 := by
  cases hq : (context.do_search || enforce.IsSearch context) with
  | false =>
    rw [searchStep_not_requested enforce s context db tr hq]
    simp [returnDefault, countSearch, List.countP_append, List.countP_cons, Event.isSearch]
  | true =>
    cases hs : s.Search context with
    | error ex =>
      rw [searchStep_search_failed enforce s context db tr ex hq hs]
      simp [returnDefault, countSearch, List.countP_append, List.countP_cons, Event.isSearch]
    | ok c =>
      cases hg : s.GetSolution context c with
      | ok solution =>
        rw [searchStep_search_succeeded enforce s context db tr c solution hq hs hg]
        simp [countSearch, List.countP_append, List.countP_cons, Event.isSearch]
      | error ex =>
        rw [searchStep_solution_failed enforce s context db tr c ex hq hs hg]
        simp [returnDefault, countSearch, List.countP_append, List.countP_cons, Event.isSearch]

/-- One `FindSolution` call invokes `Search` at most once. -/
theorem FindSolution_countSearch_le_one {P Cfg : Type} [DecidableEq P]
    (enforce : FindEnforce P) (s : Solver P Cfg) (context : Context P) (db : PerfDb P Cfg) :
    countSearch (FindSolution enforce s context db).trace ≤ 1 := by
  cases s with
  | nonSearchable s0 =>
    have ht : (FindSolution enforce (.nonSearchable s0) context db).trace
        = [Event.GetSolutionFixed s0.SolverDbId] := rfl
    rw [ht]
    simp [countSearch, Event.isSearch]
  | searchable s1 =>
    rw [(FindSolution_searchable enforce s1 context db).2.2]
    rcases FindSolutionImpl_rank1_paths enforce s1 context db with
      ⟨-, hF⟩ | ⟨-, -, hF⟩ | ⟨-, -, -, config, -, -, hF⟩ | ⟨-, -, tr, hF, htr⟩
    · rw [hF]; simp [returnDefault, countSearch, Event.isSearch]
    · rw [hF]; simp [returnDefault, countSearch, Event.isSearch]
    · rw [hF]; simp [countSearch, Event.isSearch]
    · rw [hF]
      have h0 : countSearch tr = 0 := by
        simp only [countSearch, List.countP_eq_zero]
        intro e he
        simp [(htr e he).1]
      have := searchStep_countSearch enforce s1 context db tr
      omega

/-- Once `solution` has succeeded, the loop of `SearchForSolution` skips every candidate
left: no call is made and `solution` is returned. -/
theorem SearchForSolution_each_succeeded {P Cfg : Type} [DecidableEq P]
    (enforce : FindEnforce P) (no_perf_filtering : Bool) (search_params : Context P)
    (solvers : List (Solver P Cfg)) (solution : ConvSolution) (db : PerfDb P Cfg)
    (tr : List (Event Cfg)) (h : solution.Succeeded = true) :
    SolverContainer.SearchForSolution_each enforce no_perf_filtering search_params solvers
        solution db tr
      = { result := .ok solution, db := db, trace := tr } := by
  induction solvers with
  | nil => rfl
  | cons solver rest ih =>
    simp only [SolverContainer.SearchForSolution_each, h, Bool.not_true, ih]
    simp

/-- The step of the loop of `SearchForSolution` on a candidate that does not pass the
filter. -/
theorem SearchForSolution_each_not_eligible {P Cfg : Type} [DecidableEq P]
    (enforce : FindEnforce P) (no_perf_filtering : Bool) (search_params : Context P)
    (solver : Solver P Cfg) (rest : List (Solver P Cfg)) (solution : ConvSolution)
    (db : PerfDb P Cfg) (tr : List (Event Cfg))
    (h : eligible no_perf_filtering search_params solver = false) :
    SolverContainer.SearchForSolution_each enforce no_perf_filtering search_params
        (solver :: rest) solution db tr
      = SolverContainer.SearchForSolution_each enforce no_perf_filtering search_params rest
          solution db tr := by
  unfold eligible at h
  simp only [SolverContainer.SearchForSolution_each, h]
  simp

/-- The step of the loop of `SearchForSolution` on a candidate that passes the filter
and whose `FindSolution` returns a solution that did not succeed: the loop goes on
with that solution. -/
theorem SearchForSolution_each_failed {P Cfg : Type} [DecidableEq P]
    (enforce : FindEnforce P) (no_perf_filtering : Bool) (search_params : Context P)
    (solver : Solver P Cfg) (rest : List (Solver P Cfg)) (solution found : ConvSolution)
    (db : PerfDb P Cfg) (tr : List (Event Cfg))
    (h : eligible no_perf_filtering search_params solver = true)
    (hsol : solution.Succeeded = false)
    (hres : (FindSolution enforce solver search_params db).result = .ok found)
    (hfound : found.Succeeded = false) :
    SolverContainer.SearchForSolution_each enforce no_perf_filtering search_params
        (solver :: rest) solution db tr
      = SolverContainer.SearchForSolution_each enforce no_perf_filtering search_params rest
          found (FindSolution enforce solver search_params db).db
          (tr ++ (FindSolution enforce solver search_params db).trace) := by
  unfold eligible at h
  simp only [SolverContainer.SearchForSolution_each, h, hsol, hres, hfound]
  simp

/-- The step of the loop of `SearchForSolution` on a candidate that passes the filter
and whose `FindSolution` returns a solution that succeeded with kernels to build:
that solution is the result and no further call is made. -/
theorem SearchForSolution_each_found {P Cfg : Type} [DecidableEq P]
    (enforce : FindEnforce P) (no_perf_filtering : Bool) (search_params : Context P)
    (solver : Solver P Cfg) (rest : List (Solver P Cfg)) (solution found : ConvSolution)
    (db : PerfDb P Cfg) (tr : List (Event Cfg))
    (h : eligible no_perf_filtering search_params solver = true)
    (hsol : solution.Succeeded = false)
    (hres : (FindSolution enforce solver search_params db).result = .ok found)
    (hfound : found.Succeeded = true) (hcp : found.construction_params ≠ []) :
    SolverContainer.SearchForSolution_each enforce no_perf_filtering search_params
        (solver :: rest) solution db tr
      = { result := .ok found
          db := (FindSolution enforce solver search_params db).db
          trace := tr ++ (FindSolution enforce solver search_params db).trace } := by
  unfold eligible at h
  have hne : found.construction_params.isEmpty = false := by
    cases hc : found.construction_params with
    | nil => exact absurd hc hcp
    | cons a l => rfl
  simp only [SolverContainer.SearchForSolution_each, h, hsol, hres, hfound, hne]
  simp [SearchForSolution_each_succeeded enforce no_perf_filtering search_params rest found _ _
    hfound]

/-- The step of the loop of `SearchForSolution` on a candidate that passes the filter
and whose `FindSolution` returns a solution that succeeded without any kernel to
build: the internal error is thrown. -/
theorem SearchForSolution_each_empty {P Cfg : Type} [DecidableEq P]
    (enforce : FindEnforce P) (no_perf_filtering : Bool) (search_params : Context P)
    (solver : Solver P Cfg) (rest : List (Solver P Cfg)) (solution found : ConvSolution)
    (db : PerfDb P Cfg) (tr : List (Event Cfg))
    (h : eligible no_perf_filtering search_params solver = true)
    (hsol : solution.Succeeded = false)
    (hres : (FindSolution enforce solver search_params db).result = .ok found)
    (hfound : found.Succeeded = true) (hcp : found.construction_params = []) :
    SolverContainer.SearchForSolution_each enforce no_perf_filtering search_params
        (solver :: rest) solution db tr
      = { result := .error (MIOPEN_THROW ("Internal error in solver: " ++ solver.SolverDbId))
          db := (FindSolution enforce solver search_params db).db
          trace := tr ++ (FindSolution enforce solver search_params db).trace } := by
  unfold eligible at h
  simp only [SolverContainer.SearchForSolution_each, h, hsol, hres, hfound, hcp]
  simp

/-- The loop of `SearchForSolution` over candidates none of which yields a solution
that succeeded: every candidate that passes the filter is run, in order, on the
cache left by the one before, and the loop goes on with a solution that did not
succeed (the one it started with when no candidate was run). -/
theorem SearchForSolution_each_all_failed {P Cfg : Type} [DecidableEq P]
    (enforce : FindEnforce P) (no_perf_filtering : Bool) (search_params : Context P)
    (pre rest : List (Solver P Cfg)) (solution : ConvSolution) (db : PerfDb P Cfg)
    (tr : List (Event Cfg)) (hsol : solution.Succeeded = false)
    (hpre : ∀ r ∈ attempts enforce (eligible no_perf_filtering search_params) search_params
        pre db, ∃ found, r.result = .ok found ∧ found.Succeeded = false) :
    ∃ last : ConvSolution, last.Succeeded = false
      ∧ (attempts enforce (eligible no_perf_filtering search_params) search_params pre db = []
          → last = solution)
      ∧ SolverContainer.SearchForSolution_each enforce no_perf_filtering search_params
            (pre ++ rest) solution db tr
          = SolverContainer.SearchForSolution_each enforce no_perf_filtering search_params rest
              last
              (dbAfter db (attempts enforce (eligible no_perf_filtering search_params)
                search_params pre db))
              (tr ++ tracesOf (attempts enforce (eligible no_perf_filtering search_params)
                search_params pre db)) := by
  induction pre generalizing solution db tr with
  | nil => exact ⟨solution, hsol, fun _ => rfl, by simp [attempts, dbAfter, tracesOf]⟩
  | cons solver pre ih =>
    cases he : eligible no_perf_filtering search_params solver with
    | false =>
      have ha : attempts enforce (eligible no_perf_filtering search_params) search_params
          (solver :: pre) db
          = attempts enforce (eligible no_perf_filtering search_params) search_params pre db := by
        simp [attempts, he]
      rw [ha] at hpre ⊢
      rw [List.cons_append, SearchForSolution_each_not_eligible enforce no_perf_filtering
        search_params solver _ solution db tr he]
      exact ih solution db tr hsol hpre
    | true =>
      have ha : attempts enforce (eligible no_perf_filtering search_params) search_params
          (solver :: pre) db
          = FindSolution enforce solver search_params db
              :: attempts enforce (eligible no_perf_filtering search_params) search_params pre
                  (FindSolution enforce solver search_params db).db := by
        simp [attempts, he]
      rw [ha] at hpre ⊢
      obtain ⟨found, hres, hfound⟩ := hpre _ (List.mem_cons_self _ _)
      rw [List.cons_append, SearchForSolution_each_failed enforce no_perf_filtering
        search_params solver _ solution found db tr he hsol hres hfound]
      obtain ⟨last, hlast, -, heq⟩ := ih found (FindSolution enforce solver search_params db).db
        (tr ++ (FindSolution enforce solver search_params db).trace) hfound
        (fun r hr => hpre r (List.mem_cons_of_mem _ hr))
      refine ⟨last, hlast, fun h => absurd h (List.cons_ne_nil _ _), ?_⟩
      rw [heq]
      simp [dbAfter, tracesOf, List.append_assoc]

/-- The initial solution of `SearchForSolution` did not succeed. -/
theorem init_unknownError_not_succeeded :
    (ConvSolution.init .miopenStatusUnknownError).Succeeded = false := by
  decide

/-- No candidate selected, no call made. -/
theorem attempts_eq_nil {P Cfg : Type} [DecidableEq P] (enforce : FindEnforce P)
    (pick : Solver P Cfg → Bool) (search_params : Context P) (solvers : List (Solver P Cfg))
    (db : PerfDb P Cfg) (h : ∀ s ∈ solvers, pick s = false) :
    attempts enforce pick search_params solvers db = [] := by
  induction solvers with
  | nil => rfl
  | cons solver rest ih =>
    simp only [attempts, h solver (List.mem_cons_self _ _)]
    exact ih (fun s hs => h s (List.mem_cons_of_mem _ hs))

/-- C14: `SearchForSolution` returns the `FindSolution` result of the first candidate, in
declaration order, that is applicable, is fast or unfiltered, and whose `FindSolution`
result succeeded with a non-empty kernel build list. With the candidates written
as `pre ++ w :: post`, where the candidates of `pre` that pass the filter all
returned solutions that did not succeed and `w` is that first candidate: the result
is the solution of `w`, and the cache and the calls made are those left by the
candidates of `pre` and by `w`; no call is made for any candidate of `post`. -/
theorem SearchForSolution_first_success {P Cfg : Type} [DecidableEq P]
    (enforce : FindEnforce P) (no_perf_filtering : Bool) (search_params : Context P)
    (pre : List (Solver P Cfg)) (w : Solver P Cfg) (post : List (Solver P Cfg))
    (db : PerfDb P Cfg) (found : ConvSolution)
    (hpre : ∀ r ∈ attempts enforce (eligible no_perf_filtering search_params) search_params
        pre db, ∃ f, r.result = .ok f ∧ f.Succeeded = false)
    (hw : eligible no_perf_filtering search_params w = true)
    (hres : (FindSolution enforce w search_params
        (dbAfter db (attempts enforce (eligible no_perf_filtering search_params)
          search_params pre db))).result = .ok found)
    (hfound : found.Succeeded = true) (hcp : found.construction_params ≠ []) :
    (SolverContainer.SearchForSolution enforce no_perf_filtering (pre ++ w :: post)
        search_params db).result = .ok found
      ∧ (SolverContainer.SearchForSolution enforce no_perf_filtering (pre ++ w :: post)
          search_params db).db
        = (FindSolution enforce w search_params
            (dbAfter db (attempts enforce (eligible no_perf_filtering search_params)
              search_params pre db))).db
      ∧ (SolverContainer.SearchForSolution enforce no_perf_filtering (pre ++ w :: post)
          search_params db).trace
        = tracesOf (attempts enforce (eligible no_perf_filtering search_params)
            search_params pre db)
          ++ (FindSolution enforce w search_params
              (dbAfter db (attempts enforce (eligible no_perf_filtering search_params)
                search_params pre db))).trace := by
  obtain ⟨last, hlast, -, heq⟩ := SearchForSolution_each_all_failed enforce no_perf_filtering
    search_params pre (w :: post) (ConvSolution.init .miopenStatusUnknownError) db []
    init_unknownError_not_succeeded hpre
  unfold SolverContainer.SearchForSolution
  rw [heq, SearchForSolution_each_found enforce no_perf_filtering search_params w post last
    found _ _ hw hlast hres hfound hcp]
  exact ⟨rfl, rfl, by simp⟩

/-- Witness for C14: candidate A is not applicable, candidate D does not succeed, candidate
C succeeds; candidate E after it is never run. -/
theorem SearchForSolution_first_success_witness :
    (SolverContainer.SearchForSolution enforceNone false [solverA, solverD, solverC, solverE]
        ctxSearch emptyDb).result = .ok (solutionC 7)
      ∧ (SolverContainer.SearchForSolution enforceNone false
          [solverA, solverD, solverC, solverE] ctxSearch emptyDb).trace
        = tracesOf (attempts enforceNone (eligible false ctxSearch) ctxSearch
            [solverA, solverD] emptyDb)
          ++ (FindSolution enforceNone solverC ctxSearch
              (dbAfter emptyDb (attempts enforceNone (eligible false ctxSearch) ctxSearch
                [solverA, solverD] emptyDb))).trace :=
  ⟨(SearchForSolution_first_success enforceNone false ctxSearch [solverA, solverD] solverC
      [solverE] emptyDb (solutionC 7)
      (by
        intro r hr
        have ha : attempts enforceNone (eligible false ctxSearch) ctxSearch
            [solverA, solverD] emptyDb = [FindSolution enforceNone solverD ctxSearch emptyDb] :=
          rfl
        rw [ha, List.mem_singleton] at hr
        subst hr
        exact ⟨_, rfl, by decide⟩)
      rfl (by rfl) (by decide) (by decide)).1,
   (SearchForSolution_first_success enforceNone false ctxSearch [solverA, solverD] solverC
      [solverE] emptyDb (solutionC 7)
      (by
        intro r hr
        have ha : attempts enforceNone (eligible false ctxSearch) ctxSearch
            [solverA, solverD] emptyDb = [FindSolution enforceNone solverD ctxSearch emptyDb] :=
          rfl
        rw [ha, List.mem_singleton] at hr
        subst hr
        exact ⟨_, rfl, by decide⟩)
      rfl (by rfl) (by decide) (by decide)).2.2⟩

/-- C16: when the first candidate whose `FindSolution` result succeeded returns a solution
with an empty kernel build list, `SearchForSolution` throws the internal error that
names that solver; with the candidates written as `pre ++ w :: post` as in C14, the
calls made are those of the candidates of `pre` and of `w`, and no call is made for
any candidate of `post`, whatever those candidates would have produced. -/
theorem SearchForSolution_empty_solution_raises {P Cfg : Type} [DecidableEq P]
    (enforce : FindEnforce P) (no_perf_filtering : Bool) (search_params : Context P)
    (pre : List (Solver P Cfg)) (w : Solver P Cfg) (post : List (Solver P Cfg))
    (db : PerfDb P Cfg) (found : ConvSolution)
    (hpre : ∀ r ∈ attempts enforce (eligible no_perf_filtering search_params) search_params
        pre db, ∃ f, r.result = .ok f ∧ f.Succeeded = false)
    (hw : eligible no_perf_filtering search_params w = true)
    (hres : (FindSolution enforce w search_params
        (dbAfter db (attempts enforce (eligible no_perf_filtering search_params)
          search_params pre db))).result = .ok found)
    (hfound : found.Succeeded = true) (hcp : found.construction_params = []) :
    (SolverContainer.SearchForSolution enforce no_perf_filtering (pre ++ w :: post)
        search_params db).result
        = .error (MIOPEN_THROW ("Internal error in solver: " ++ w.SolverDbId))
      ∧ (SolverContainer.SearchForSolution enforce no_perf_filtering (pre ++ w :: post)
          search_params db).trace
        = tracesOf (attempts enforce (eligible no_perf_filtering search_params)
            search_params pre db)
          ++ (FindSolution enforce w search_params
              (dbAfter db (attempts enforce (eligible no_perf_filtering search_params)
                search_params pre db))).trace := by
  obtain ⟨last, hlast, -, heq⟩ := SearchForSolution_each_all_failed enforce no_perf_filtering
    search_params pre (w :: post) (ConvSolution.init .miopenStatusUnknownError) db []
    init_unknownError_not_succeeded hpre
  unfold SolverContainer.SearchForSolution
  rw [heq, SearchForSolution_each_empty enforce no_perf_filtering search_params w post last
    found _ _ hw hlast hres hfound hcp]
  exact ⟨rfl, by simp⟩

/-- Witness for C16: the sample solver reports success without any kernel; candidate C after
it would have produced a proper solution and is never run. -/
theorem SearchForSolution_empty_solution_raises_witness :
    (SolverContainer.SearchForSolution enforceNone false [.searchable sampleSolver, solverC]
        ctxSearch emptyDb).result
        = .error (MIOPEN_THROW "Internal error in solver: ConvSample")
      ∧ (FindSolution enforceNone solverC ctxSearch
          (FindSolution enforceNone (.searchable sampleSolver) ctxSearch emptyDb).db).result
        = .ok (solutionC 7) :=
  ⟨(SearchForSolution_empty_solution_raises enforceNone false ctxSearch []
      (.searchable sampleSolver) [solverC] emptyDb (sampleSolution 7)
      (by intro r hr; cases hr) rfl rfl (by decide) rfl).1,
   rfl⟩

/-- C17, as stated, fails when `FindSolution` throws on a candidate: candidate A is not
applicable and the other candidate passes the filter, but its `GetSolution` throws on
the default configuration, outside the `try` block, so no candidate yields a
solution that succeeded, and `SearchForSolution` throws that exception instead of
returning a solution that did not succeed. -/
theorem SearchForSolution_no_success_counterexample :
    eligible false ctxPlain solverA = false
      ∧ eligible false ctxPlain solverThrowing = true
      ∧ (FindSolution enforceNone solverThrowing ctxPlain emptyDb).result
          = .error { status := .miopenStatusUnknownError, message := "cannot build" }
      ∧ (∀ r ∈ attempts enforceNone (eligible false ctxPlain) ctxPlain
            [solverA, solverThrowing] emptyDb,
          ∀ f, r.result = .ok f → f.Succeeded = false)
      ∧ (SolverContainer.SearchForSolution enforceNone false [solverA, solverThrowing]
          ctxPlain emptyDb).result
          = .error { status := .miopenStatusUnknownError, message := "cannot build" } := by
  refine ⟨rfl, rfl, by rfl, ?_, by rfl⟩
  intro r hr f hf
  have ha : attempts enforceNone (eligible false ctxPlain) ctxPlain
      [solverA, solverThrowing] emptyDb
      = [FindSolution enforceNone solverThrowing ctxPlain emptyDb] := rfl
  rw [ha, List.mem_singleton] at hr
  subst hr
  have hres : (FindSolution enforceNone solverThrowing ctxPlain emptyDb).result
      = .error { status := .miopenStatusUnknownError, message := "cannot build" } := by rfl
  rw [hres] at hf
  cases hf

/-- C17, amended: when every candidate that passes the applicability and fast-path filter
returns, without throwing, a solution that did not succeed, `SearchForSolution`
returns, without throwing, a solution for which `Succeeded()` is false; when no
candidate passes the filter at all, it is the initial solution of status
`miopenStatusUnknownError`, the cache is as before and no call was made. -/
theorem SearchForSolution_no_success {P Cfg : Type} [DecidableEq P]
    (enforce : FindEnforce P) (no_perf_filtering : Bool) (search_params : Context P)
    (solvers : List (Solver P Cfg)) (db : PerfDb P Cfg)
    (h : ∀ r ∈ attempts enforce (eligible no_perf_filtering search_params) search_params
        solvers db, ∃ f, r.result = .ok f ∧ f.Succeeded = false) :
    (∃ solution, (SolverContainer.SearchForSolution enforce no_perf_filtering solvers
          search_params db).result = .ok solution
        ∧ solution.Succeeded = false)
      ∧ ((∀ s ∈ solvers, eligible no_perf_filtering search_params s = false) →
          (SolverContainer.SearchForSolution enforce no_perf_filtering solvers
              search_params db).result = .ok (ConvSolution.init .miopenStatusUnknownError)
            ∧ (SolverContainer.SearchForSolution enforce no_perf_filtering solvers
                search_params db).db = db
            ∧ (SolverContainer.SearchForSolution enforce no_perf_filtering solvers
                search_params db).trace = []) := by
  obtain ⟨last, hlast, hinit, heq⟩ := SearchForSolution_each_all_failed enforce
    no_perf_filtering search_params solvers [] (ConvSolution.init .miopenStatusUnknownError)
    db [] init_unknownError_not_succeeded h
  rw [List.append_nil] at heq
  unfold SolverContainer.SearchForSolution
  rw [heq]
  refine ⟨⟨last, rfl, hlast⟩, ?_⟩
  intro hnone
  have ha := attempts_eq_nil enforce (eligible no_perf_filtering search_params) search_params
    solvers db hnone
  rw [hinit ha, ha]
  exact ⟨rfl, rfl, rfl⟩

/-- Witness for C17, amended: candidate A is not applicable, candidates D and E do not succeed; the
result is the solution of E, which did not succeed. -/
theorem SearchForSolution_no_success_witness :
    ∃ solution, (SolverContainer.SearchForSolution enforceNone false
          [solverA, solverD, solverE] ctxSearch emptyDb).result = .ok solution
      ∧ solution.Succeeded = false :=
  (SearchForSolution_no_success enforceNone false ctxSearch [solverA, solverD, solverE] emptyDb
    (by
      intro r hr
      have ha : attempts enforceNone (eligible false ctxSearch) ctxSearch
          [solverA, solverD, solverE] emptyDb
          = [FindSolution enforceNone solverD ctxSearch emptyDb,
             FindSolution enforceNone solverE ctxSearch
               (FindSolution enforceNone solverD ctxSearch emptyDb).db] := rfl
      rw [ha] at hr
      simp only [List.mem_cons, List.mem_singleton, List.not_mem_nil, or_false] at hr
      rcases hr with hr | hr <;> subst hr <;> exact ⟨_, rfl, by decide⟩)).1

/-! ## The solver container: which calls are made -/

/-- The search step makes calls on behalf of its solver only. -/
theorem searchStep_trace_id {P Cfg : Type} [DecidableEq P] (enforce : FindEnforce P)
    (s : SearchableSolver P Cfg) (context : Context P) (db : PerfDb P Cfg)
    (tr : List (Event Cfg)) (htr : ∀ e ∈ tr, e.id = s.SolverDbId) :
    ∀ e ∈ (searchStep enforce s context db tr).trace, e.id = s.SolverDbId := by
  intro e he
  cases hq : (context.do_search || enforce.IsSearch context) with
  | false =>
    rw [searchStep_not_requested enforce s context db tr hq] at he
    simp only [returnDefault, List.mem_append, List.mem_cons, List.mem_singleton,
      List.not_mem_nil, or_false] at he
    rcases he with he | he | he
    · exact htr e he
    · rw [he]; rfl
    · rw [he]; rfl
  | true =>
    cases hs : s.Search context with
    | error ex =>
      rw [searchStep_search_failed enforce s context db tr ex hq hs] at he
      simp only [returnDefault, List.mem_append, List.mem_cons, List.mem_singleton,
        List.not_mem_nil, or_false] at he
      rcases he with (he | he) | he | he
      · exact htr e he
      · rw [he]; rfl
      · rw [he]; rfl
      · rw [he]; rfl
    | ok c =>
      cases hg : s.GetSolution context c with
      | ok solution =>
        rw [searchStep_search_succeeded enforce s context db tr c solution hq hs hg] at he
        simp only [List.mem_append, List.mem_cons, List.mem_singleton,
          List.not_mem_nil, or_false] at he
        rcases he with he | he | he | he
        · exact htr e he
        · rw [he]; rfl
        · rw [he]; rfl
        · rw [he]; rfl
      | error ex =>
        rw [searchStep_solution_failed enforce s context db tr c ex hq hs hg] at he
        simp only [returnDefault, List.mem_append, List.mem_cons, List.mem_singleton,
          List.not_mem_nil, or_false] at he
        rcases he with (he | he | he | he) | he | he
        · exact htr e he
        · rw [he]; rfl
        · rw [he]; rfl
        · rw [he]; rfl
        · rw [he]; rfl
        · rw [he]; rfl

/-- A `FindSolution` call makes calls on behalf of its solver only. -/
theorem FindSolution_trace_id {P Cfg : Type} [DecidableEq P]
    (enforce : FindEnforce P) (s : Solver P Cfg) (context : Context P) (db : PerfDb P Cfg) :
    ∀ e ∈ (FindSolution enforce s context db).trace, e.id = s.SolverDbId := by
  cases s with
  | nonSearchable s0 =>
    intro e he
    have ht : (FindSolution enforce (.nonSearchable s0) context db).trace
        = [Event.GetSolutionFixed s0.SolverDbId] := rfl
    rw [ht, List.mem_singleton] at he
    rw [he]; rfl
  | searchable s1 =>
    rw [(FindSolution_searchable enforce s1 context db).2.2]
    show ∀ e ∈ (FindSolutionImpl_rank1 enforce s1 context db).trace, e.id = s1.SolverDbId
    cases hacc : context.disable_perfdb_access with
    | true =>
      rw [FindSolutionImpl_rank1_disabled enforce s1 context db hacc]
      simp [returnDefault, Event.id]
    | false =>
      cases hclean : enforce.IsDbClean context with
      | true =>
        rw [FindSolutionImpl_rank1_clean enforce s1 context db hacc hclean]
        simp [returnDefault, Event.id]
      | false =>
        cases hskip : ((context.do_search || enforce.IsSearch context)
            && enforce.IsDbUpdate context) with
        | true =>
          rw [FindSolutionImpl_rank1_load_skipped enforce s1 context db hacc hclean hskip]
          exact searchStep_trace_id enforce s1 context db [] (by simp)
        | false =>
          cases hload : db.Load context s1.SolverDbId with
          | none =>
            rw [FindSolutionImpl_rank1_not_found enforce s1 context db hacc hclean hskip hload]
            exact searchStep_trace_id enforce s1 context db _ (by simp [Event.id])
          | some config =>
            cases hvalid : s1.IsValidPerformanceConfig context config with
            | true =>
              rw [FindSolutionImpl_rank1_valid enforce s1 context db config hacc hclean hskip
                hload hvalid]
              simp [Event.id]
            | false =>
              rw [FindSolutionImpl_rank1_invalid enforce s1 context db config hacc hclean hskip
                hload hvalid]
              exact searchStep_trace_id enforce s1 context db _ (by simp [Event.id])

/-- A call among `tracesOf rs` is a call of one of the outcomes of `rs`. -/
theorem mem_tracesOf {P Cfg : Type} (rs : List (Outcome P Cfg)) (e : Event Cfg) :
    e ∈ tracesOf rs ↔ ∃ r ∈ rs, e ∈ r.trace := by
  induction rs with
  | nil => simp [tracesOf]
  | cons r rest ih => simp [tracesOf, ih]

/-- Each outcome of `attempts` is that of a `FindSolution` call on a selected candidate. -/
theorem mem_attempts {P Cfg : Type} [DecidableEq P] (enforce : FindEnforce P)
    (pick : Solver P Cfg → Bool) (search_params : Context P) (solvers : List (Solver P Cfg))
    (db : PerfDb P Cfg) (r : Outcome P Cfg)
    (h : r ∈ attempts enforce pick search_params solvers db) :
    ∃ s ∈ solvers, pick s = true ∧ ∃ db1, r = FindSolution enforce s search_params db1 := by
  induction solvers generalizing db with
  | nil => simp [attempts] at h
  | cons solver rest ih =>
    cases hp : pick solver with
    | false =>
      simp only [attempts, hp] at h
      obtain ⟨s, hs, hps, hr⟩ := ih db (by simpa using h)
      exact ⟨s, List.mem_cons_of_mem _ hs, hps, hr⟩
    | true =>
      simp only [attempts, hp, if_true, List.mem_cons] at h
      rcases h with h | h
      · exact ⟨solver, List.mem_cons_self _ _, hp, db, h⟩
      · obtain ⟨s, hs, hps, hr⟩ := ih _ h
        exact ⟨s, List.mem_cons_of_mem _ hs, hps, hr⟩

/-- One outcome per selected candidate. -/
theorem attempts_length {P Cfg : Type} [DecidableEq P] (enforce : FindEnforce P)
    (pick : Solver P Cfg → Bool) (search_params : Context P) (solvers : List (Solver P Cfg))
    (db : PerfDb P Cfg) :
    (attempts enforce pick search_params solvers db).length = (solvers.filter pick).length := by
  induction solvers generalizing db with
  | nil => rfl
  | cons solver rest ih =>
    cases hp : pick solver with
    | false => simp [attempts, hp, ih]
    | true => simp [attempts, hp, ih]

/-- A sequence of calls each of which searches at most once searches at most as often
as there are calls. -/
theorem countSearch_tracesOf_le {P Cfg : Type} (rs : List (Outcome P Cfg))
    (h : ∀ r ∈ rs, countSearch r.trace ≤ 1) :
    countSearch (tracesOf rs) ≤ rs.length := by
  induction rs with
  | nil => simp [tracesOf, countSearch]
  | cons r rest ih =>
    have h1 := h r (List.mem_cons_self _ _)
    have h2 := ih (fun x hx => h x (List.mem_cons_of_mem _ hx))
    simp only [tracesOf, countSearch, List.countP_append, List.length_cons] at h1 h2 ⊢
    omega

/-- The step of the loop of `SearchForSolution` on a candidate that passes the filter
and whose `FindSolution` throws: the exception ends the loop. -/
theorem SearchForSolution_each_threw {P Cfg : Type} [DecidableEq P]
    (enforce : FindEnforce P) (no_perf_filtering : Bool) (search_params : Context P)
    (solver : Solver P Cfg) (rest : List (Solver P Cfg)) (solution : ConvSolution)
    (db : PerfDb P Cfg) (tr : List (Event Cfg)) (ex : Exception)
    (h : eligible no_perf_filtering search_params solver = true)
    (hsol : solution.Succeeded = false)
    (hres : (FindSolution enforce solver search_params db).result = .error ex) :
    SolverContainer.SearchForSolution_each enforce no_perf_filtering search_params
        (solver :: rest) solution db tr
      = { result := .error ex
          db := (FindSolution enforce solver search_params db).db
          trace := tr ++ (FindSolution enforce solver search_params db).trace } := by
  unfold eligible at h
  simp only [SolverContainer.SearchForSolution_each, h, hsol, hres]
  simp

/-- The calls made by the loop of `SearchForSolution` are those of `FindSolution` on the
candidates that pass the filter, in order, up to the candidate at which the loop
stops calling. -/
theorem SearchForSolution_each_trace {P Cfg : Type} [DecidableEq P]
    (enforce : FindEnforce P) (no_perf_filtering : Bool) (search_params : Context P)
    (solvers : List (Solver P Cfg)) (solution : ConvSolution) (db : PerfDb P Cfg)
    (tr : List (Event Cfg)) :
    ∃ k, (SolverContainer.SearchForSolution_each enforce no_perf_filtering search_params
          solvers solution db tr).trace
        = tr ++ tracesOf ((attempts enforce (eligible no_perf_filtering search_params)
            search_params solvers db).take k) := by
  induction solvers generalizing solution db tr with
  | nil => exact ⟨0, by simp [SolverContainer.SearchForSolution_each, tracesOf]⟩
  | cons solver rest ih =>
    cases he : eligible no_perf_filtering search_params solver with
    | false =>
      rw [SearchForSolution_each_not_eligible enforce no_perf_filtering search_params solver
        rest solution db tr he]
      obtain ⟨k, hk⟩ := ih solution db tr
      exact ⟨k, by rw [hk]; simp [attempts, he]⟩
    | true =>
      have ha : attempts enforce (eligible no_perf_filtering search_params) search_params
          (solver :: rest) db
          = FindSolution enforce solver search_params db
              :: attempts enforce (eligible no_perf_filtering search_params) search_params rest
                  (FindSolution enforce solver search_params db).db := by
        simp [attempts, he]
      rw [ha]
      cases hsol : solution.Succeeded with
      | true =>
        rw [SearchForSolution_each_succeeded enforce no_perf_filtering search_params _ solution
          db tr hsol]
        exact ⟨0, by simp [tracesOf]⟩
      | false =>
        cases hres : (FindSolution enforce solver search_params db).result with
        | error ex =>
          rw [SearchForSolution_each_threw enforce no_perf_filtering search_params solver rest
            solution db tr ex he hsol hres]
          exact ⟨1, by simp [tracesOf]⟩
        | ok found =>
          cases hfound : found.Succeeded with
          | false =>
            rw [SearchForSolution_each_failed enforce no_perf_filtering search_params solver
              rest solution found db tr he hsol hres hfound]
            obtain ⟨k, hk⟩ := ih found (FindSolution enforce solver search_params db).db
              (tr ++ (FindSolution enforce solver search_params db).trace)
            exact ⟨k + 1, by rw [hk]; simp [tracesOf, List.append_assoc]⟩
          | true =>
            cases hcp : found.construction_params with
            | nil =>
              rw [SearchForSolution_each_empty enforce no_perf_filtering search_params solver
                rest solution found db tr he hsol hres hfound hcp]
              exact ⟨1, by simp [tracesOf]⟩
            | cons a l =>
              rw [SearchForSolution_each_found enforce no_perf_filtering search_params solver
                rest solution found db tr he hsol hres hfound (by rw [hcp]; simp)]
              exact ⟨1, by simp [tracesOf]⟩

/-- One `FindSolution` call invokes `Search` on behalf of the solver with identifier `id`
at most once when the solver has that identifier, and not at all otherwise. -/
theorem FindSolution_countSearchOf_le {P Cfg : Type} [DecidableEq P]
    (enforce : FindEnforce P) (s : Solver P Cfg) (context : Context P) (db : PerfDb P Cfg)
    (id : String) :
    countSearchOf id (FindSolution enforce s context db).trace
      ≤ if s.SolverDbId = id then 1 else 0 := by
  by_cases h : s.SolverDbId = id
  · rw [if_pos h]
    refine le_trans ?_ (FindSolution_countSearch_le_one enforce s context db)
    unfold countSearchOf countSearch
    apply List.countP_mono_left
    intro e _ he
    simp only [Bool.and_eq_true] at he
    exact he.1
  · rw [if_neg h]
    apply Nat.le_of_eq
    unfold countSearchOf
    rw [List.countP_eq_zero]
    intro e he
    have hid := FindSolution_trace_id enforce s context db e he
    simp only [Bool.and_eq_true, decide_eq_true_eq, not_and]
    intro _ hcontra
    exact h (hid ▸ hcontra)

/-- The calls of `FindSolution` on the selected candidates invoke `Search` on behalf of
the solver with identifier `id` at most as many times as there are selected
candidates with that identifier. -/
theorem countSearchOf_attempts_le {P Cfg : Type} [DecidableEq P] (enforce : FindEnforce P)
    (pick : Solver P Cfg → Bool) (search_params : Context P) (solvers : List (Solver P Cfg))
    (db : PerfDb P Cfg) (id : String) :
    countSearchOf id (tracesOf (attempts enforce pick search_params solvers db))
      ≤ (solvers.filter (fun s => pick s && decide (s.SolverDbId = id))).length := by
  induction solvers generalizing db with
  | nil => simp [attempts, tracesOf, countSearchOf]
  | cons solver rest ih =>
    cases hp : pick solver with
    | false =>
      have h1 := ih db
      simp only [attempts, hp, List.filter_cons, Bool.false_and] at h1 ⊢
      simpa using h1
    | true =>
      have h1 := ih (FindSolution enforce solver search_params db).db
      have h2 := FindSolution_countSearchOf_le enforce solver search_params db id
      by_cases hid : solver.SolverDbId = id
      · rw [if_pos hid] at h2
        simp only [attempts, hp, tracesOf, countSearchOf, List.countP_append, List.filter_cons,
          Bool.true_and, hid, decide_True, if_true, List.length_cons] at h1 h2 ⊢
        omega
      · rw [if_neg hid] at h2
        simp only [attempts, hp, tracesOf, countSearchOf, List.countP_append, List.filter_cons,
          Bool.true_and, hid, decide_False, if_false] at h1 h2 ⊢
        simp only [Bool.false_eq_true, if_false]
        omega

/-- The calls of an initial segment of a sequence of calls hold at most as many `Search`
calls for an identifier as the calls of the whole sequence. -/
theorem countSearchOf_tracesOf_take_le {P Cfg : Type} (id : String)
    (rs : List (Outcome P Cfg)) (k : Nat) :
    countSearchOf id (tracesOf (rs.take k)) ≤ countSearchOf id (tracesOf rs) := by
  induction rs generalizing k with
  | nil => simp [tracesOf]
  | cons r rest ih =>
    cases k with
    | zero => simp [tracesOf, countSearchOf]
    | succ k =>
      have h := ih k
      simp only [List.take_succ_cons, tracesOf, countSearchOf, List.countP_append] at h ⊢
      omega

/-- C15, as stated, fails: with a search requested and two candidates that pass the
filter and whose solutions do not succeed, one `SearchForSolution` call invokes
`Search` twice, once for each candidate. -/
theorem SearchForSolution_search_count_counterexample :
    (SolverContainer.SearchForSolution enforceNone false [solverD, solverE] ctxSearch
        emptyDb).trace
      = [Event.Load "ConvD", Event.Search "ConvD", Event.Update "ConvD" 7,
         Event.GetSolution "ConvD" 7,
         Event.Load "ConvE", Event.Search "ConvE", Event.Update "ConvE" 7,
         Event.GetSolution "ConvE" 7]
      ∧ countSearch (SolverContainer.SearchForSolution enforceNone false [solverD, solverE]
          ctxSearch emptyDb).trace = 2 := by
  exact ⟨by decide, by decide⟩

/-- C15, amended: during one `SearchForSolution` call `Search` is invoked at most once for
each candidate that passes the applicability and fast-path filter. The calls made
are those of one `FindSolution` run on each candidate of an initial segment of the
candidates that pass the filter, in declaration order, and each run invokes
`Search` at most once; so for every solver identifier the `Search` calls made on its
behalf are at most as many as the candidates with that identifier that pass the
filter (at most one for a candidate whose identifier no other candidate has, none
for an identifier of no candidate that passes the filter), and the `Search` calls
in total are at most as many as the candidates that pass the filter. When the
first candidate that passes the filter returns a solution that succeeded, `Search`
is invoked at most once in total. -/
theorem SearchForSolution_search_count {P Cfg : Type} [DecidableEq P]
    (enforce : FindEnforce P) (no_perf_filtering : Bool) (search_params : Context P)
    (solvers : List (Solver P Cfg)) (db : PerfDb P Cfg) :
    countSearch (SolverContainer.SearchForSolution enforce no_perf_filtering solvers
        search_params db).trace
        ≤ (solvers.filter (eligible no_perf_filtering search_params)).length
      ∧ (∃ k, (SolverContainer.SearchForSolution enforce no_perf_filtering solvers
            search_params db).trace
          = tracesOf ((attempts enforce (eligible no_perf_filtering search_params)
              search_params solvers db).take k)
          ∧ ∀ r ∈ (attempts enforce (eligible no_perf_filtering search_params)
              search_params solvers db).take k, countSearch r.trace ≤ 1)
      ∧ (∀ id, countSearchOf id (SolverContainer.SearchForSolution enforce no_perf_filtering
            solvers search_params db).trace
          ≤ (solvers.filter (fun s => eligible no_perf_filtering search_params s
              && decide (s.SolverDbId = id))).length)
      ∧ ∀ (pre : List (Solver P Cfg)) (w : Solver P Cfg) (post : List (Solver P Cfg))
          (found : ConvSolution),
          solvers = pre ++ w :: post →
          (∀ s ∈ pre, eligible no_perf_filtering search_params s = false) →
          eligible no_perf_filtering search_params w = true →
          (FindSolution enforce w search_params db).result = .ok found →
          found.Succeeded = true →
          countSearch (SolverContainer.SearchForSolution enforce no_perf_filtering solvers
            search_params db).trace ≤ 1 := by
  refine ⟨?_, ?_, ?_, ?_⟩
  · obtain ⟨k, hk⟩ := SearchForSolution_each_trace enforce no_perf_filtering search_params
      solvers (ConvSolution.init .miopenStatusUnknownError) db []
    unfold SolverContainer.SearchForSolution
    rw [hk, List.nil_append]
    have h1 := countSearch_tracesOf_le
      ((attempts enforce (eligible no_perf_filtering search_params) search_params
        solvers db).take k)
      (by
        intro r hr
        obtain ⟨s, -, -, db1, hr1⟩ := mem_attempts enforce _ search_params solvers db r
          (List.mem_of_mem_take hr)
        rw [hr1]
        exact FindSolution_countSearch_le_one enforce s search_params db1)
    have h2 : ((attempts enforce (eligible no_perf_filtering search_params) search_params
        solvers db).take k).length
        ≤ (attempts enforce (eligible no_perf_filtering search_params) search_params
            solvers db).length := by
      rw [List.length_take]
      exact Nat.min_le_right _ _
    rw [attempts_length] at h2
    omega
  · obtain ⟨k, hk⟩ := SearchForSolution_each_trace enforce no_perf_filtering search_params
      solvers (ConvSolution.init .miopenStatusUnknownError) db []
    refine ⟨k, ?_, ?_⟩
    · unfold SolverContainer.SearchForSolution
      rw [hk, List.nil_append]
    · intro r hr
      obtain ⟨s, -, -, db1, hr1⟩ := mem_attempts enforce _ search_params solvers db r
        (List.mem_of_mem_take hr)
      rw [hr1]
      exact FindSolution_countSearch_le_one enforce s search_params db1
  · intro id
    obtain ⟨k, hk⟩ := SearchForSolution_each_trace enforce no_perf_filtering search_params
      solvers (ConvSolution.init .miopenStatusUnknownError) db []
    unfold SolverContainer.SearchForSolution
    rw [hk, List.nil_append]
    exact le_trans (countSearchOf_tracesOf_take_le id _ k)
      (countSearchOf_attempts_le enforce (eligible no_perf_filtering search_params)
        search_params solvers db id)
  · intro pre w post found hsolvers hpre hw hres hfound
    have ha := attempts_eq_nil enforce (eligible no_perf_filtering search_params)
      search_params pre db hpre
    obtain ⟨last, hlast, -, heq⟩ := SearchForSolution_each_all_failed enforce
      no_perf_filtering search_params pre (w :: post)
      (ConvSolution.init .miopenStatusUnknownError) db [] init_unknownError_not_succeeded
      (by rw [ha]; intro r hr; cases hr)
    rw [ha] at heq
    have hle := FindSolution_countSearch_le_one enforce w search_params db
    unfold SolverContainer.SearchForSolution
    rw [hsolvers, heq]
    simp only [dbAfter, tracesOf, List.append_nil] at hres ⊢
    cases hcp : found.construction_params with
    | nil =>
      rw [SearchForSolution_each_empty enforce no_perf_filtering search_params w post last
        found db [] hw hlast hres hfound hcp]
      simpa using hle
    | cons a l =>
      rw [SearchForSolution_each_found enforce no_perf_filtering search_params w post last
        found db [] hw hlast hres hfound (by rw [hcp]; simp)]
      simpa using hle

/-- Witness for C15, amended: candidate A does not pass the filter and candidate C, the
first that does, succeeds; `Search` is invoked at most once although candidate D
comes after. -/
theorem SearchForSolution_search_count_witness :
    countSearch (SolverContainer.SearchForSolution enforceNone false
        [solverA, solverC, solverD] ctxSearch emptyDb).trace ≤ 1 :=
  (SearchForSolution_search_count enforceNone false ctxSearch [solverA, solverC, solverD]
    emptyDb).2.2.2 [solverA] solverC [solverD] (solutionC 7) rfl
    (by intro s hs; rw [List.mem_singleton] at hs; subst hs; rfl) rfl (by rfl) (by decide)

/-- C18: every call that `SearchForSolution` makes is made on behalf of a candidate that
is applicable and is fast or unfiltered. In particular, with candidates A (not
applicable), B (applicable, not fast) and C (applicable, fast, succeeding with
kernels to build) and filtering enabled, the outcome is that of `FindSolution` on C
alone: the solution of C, and no call for A or B; with filtering disabled,
`FindSolution` is run on B first. -/
theorem SearchForSolution_only_eligible {P Cfg : Type} [DecidableEq P]
    (enforce : FindEnforce P) (no_perf_filtering : Bool) (search_params : Context P)
    (solvers : List (Solver P Cfg)) (db : PerfDb P Cfg) :
    (∀ e ∈ (SolverContainer.SearchForSolution enforce no_perf_filtering solvers
          search_params db).trace,
        ∃ s ∈ solvers, eligible no_perf_filtering search_params s = true
          ∧ e.id = s.SolverDbId)
      ∧ ∀ (A B C : Solver P Cfg) (found : ConvSolution),
          A.IsApplicable search_params = false →
          B.IsApplicable search_params = true → B.IsFast search_params = false →
          C.IsApplicable search_params = true → C.IsFast search_params = true →
          (FindSolution enforce C search_params db).result = .ok found →
          found.Succeeded = true → found.construction_params ≠ [] →
          SolverContainer.SearchForSolution enforce false [A, B, C] search_params db
              = { result := .ok found
                  db := (FindSolution enforce C search_params db).db
                  trace := (FindSolution enforce C search_params db).trace }
            ∧ ∃ rest, (SolverContainer.SearchForSolution enforce true [A, B, C]
                  search_params db).trace
                = (FindSolution enforce B search_params db).trace ++ rest := by
  refine ⟨?_, ?_⟩
  · intro e he
    obtain ⟨k, hk⟩ := SearchForSolution_each_trace enforce no_perf_filtering search_params
      solvers (ConvSolution.init .miopenStatusUnknownError) db []
    unfold SolverContainer.SearchForSolution at he
    rw [hk, List.nil_append, mem_tracesOf] at he
    obtain ⟨r, hr, her⟩ := he
    obtain ⟨s, hs, hps, db1, hr1⟩ := mem_attempts enforce _ search_params solvers db r
      (List.mem_of_mem_take hr)
    rw [hr1] at her
    exact ⟨s, hs, hps, FindSolution_trace_id enforce s search_params db1 e her⟩
  · intro A B C found hA hB hBfast hC hCfast hres hfound hcp
    have hinit := init_unknownError_not_succeeded
    refine ⟨?_, ?_⟩
    · have eA : eligible false search_params A = false := by simp [eligible, hA]
      have eB : eligible false search_params B = false := by simp [eligible, hBfast]
      have eC : eligible false search_params C = true := by simp [eligible, hC, hCfast]
      unfold SolverContainer.SearchForSolution
      rw [SearchForSolution_each_not_eligible enforce false search_params A _ _ db [] eA,
        SearchForSolution_each_not_eligible enforce false search_params B _ _ db [] eB,
        SearchForSolution_each_found enforce false search_params C [] _ found db [] eC hinit
          hres hfound hcp]
      simp
    · have eA : eligible true search_params A = false := by simp [eligible, hA]
      have eB : eligible true search_params B = true := by simp [eligible, hB]
      unfold SolverContainer.SearchForSolution
      rw [SearchForSolution_each_not_eligible enforce true search_params A _ _ db [] eA]
      cases hresB : (FindSolution enforce B search_params db).result with
      | error ex =>
        rw [SearchForSolution_each_threw enforce true search_params B [C] _ db [] ex eB hinit
          hresB]
        exact ⟨[], by simp⟩
      | ok foundB =>
        cases hfoundB : foundB.Succeeded with
        | false =>
          rw [SearchForSolution_each_failed enforce true search_params B [C] _ foundB db [] eB
            hinit hresB hfoundB]
          obtain ⟨k, hk⟩ := SearchForSolution_each_trace enforce true search_params [C] foundB
            (FindSolution enforce B search_params db).db
            ([] ++ (FindSolution enforce B search_params db).trace)
          exact ⟨_, by rw [hk, List.nil_append]⟩
        | true =>
          cases hcpB : foundB.construction_params with
          | nil =>
            rw [SearchForSolution_each_empty enforce true search_params B [C] _ foundB db [] eB
              hinit hresB hfoundB hcpB]
            exact ⟨[], by simp⟩
          | cons a l =>
            rw [SearchForSolution_each_found enforce true search_params B [C] _ foundB db [] eB
              hinit hresB hfoundB (by rw [hcpB]; simp)]
            exact ⟨[], by simp⟩

/-- Witness for C18: the sample candidates A, B and C on the empty cache with a search
requested. -/
theorem SearchForSolution_only_eligible_witness :
    SolverContainer.SearchForSolution enforceNone false [solverA, solverB, solverC] ctxSearch
        emptyDb
        = { result := .ok (solutionC 7)
            db := (FindSolution enforceNone solverC ctxSearch emptyDb).db
            trace := (FindSolution enforceNone solverC ctxSearch emptyDb).trace }
      ∧ ∃ rest, (SolverContainer.SearchForSolution enforceNone true [solverA, solverB, solverC]
            ctxSearch emptyDb).trace
          = (FindSolution enforceNone solverB ctxSearch emptyDb).trace ++ rest :=
  (SearchForSolution_only_eligible enforceNone false ctxSearch [solverA, solverB, solverC]
    emptyDb).2 solverA solverB solverC (solutionC 7) rfl rfl rfl rfl rfl (by rfl) (by decide)
    (by decide)

/-! ## The solver container: all solutions and workspace sizes -/

/-- `FindSolution` does not read `IsFast`. -/
theorem FindSolution_withIsFast {P Cfg : Type} [DecidableEq P] (enforce : FindEnforce P)
    (f : Context P → Bool) (s : Solver P Cfg) (context : Context P) (db : PerfDb P Cfg) :
    FindSolution enforce (Solver.withIsFast f s) context db
      = FindSolution enforce s context db := by
  cases s with
  | searchable s1 => rfl
  | nonSearchable s0 => rfl

/-- Replacing `IsFast` does not change `IsApplicable`. -/
theorem IsApplicable_withIsFast {P Cfg : Type} (f : Context P → Bool) (s : Solver P Cfg)
    (context : Context P) :
    (Solver.withIsFast f s).IsApplicable context = s.IsApplicable context := by
  cases s with
  | searchable s1 => rfl
  | nonSearchable s0 => rfl

/-- The loop of `SearchForAllSolutions` does not read `IsFast`. -/
theorem SearchForAllSolutions_each_withIsFast {P Cfg : Type} [DecidableEq P]
    (enforce : FindEnforce P) (search_params : Context P) (f : Context P → Bool)
    (solvers : List (Solver P Cfg)) (ss : List ConvSolution) (db : PerfDb P Cfg)
    (tr : List (Event Cfg)) :
    SolverContainer.SearchForAllSolutions_each enforce search_params
        (solvers.map (Solver.withIsFast f)) ss db tr
      = SolverContainer.SearchForAllSolutions_each enforce search_params solvers ss db tr := by
  induction solvers generalizing ss db tr with
  | nil => rfl
  | cons solver rest ih =>
    simp only [List.map_cons, SolverContainer.SearchForAllSolutions_each,
      IsApplicable_withIsFast, FindSolution_withIsFast, ih]

/-- The loop of `SearchForAllSolutions` when no `FindSolution` call throws: every
applicable candidate is run, in order, on the cache left by the one before, and
the solutions that succeeded are appended in that order. -/
theorem SearchForAllSolutions_each_eq {P Cfg : Type} [DecidableEq P]
    (enforce : FindEnforce P) (search_params : Context P)
    (solvers : List (Solver P Cfg)) (ss : List ConvSolution) (db : PerfDb P Cfg)
    (tr : List (Event Cfg))
    (hok : ∀ r ∈ attempts enforce (fun s => s.IsApplicable search_params) search_params
        solvers db, ∃ found, r.result = .ok found) :
    SolverContainer.SearchForAllSolutions_each enforce search_params solvers ss db tr
      = { result := .ok (ss ++ successes (attempts enforce
            (fun s => s.IsApplicable search_params) search_params solvers db))
          db := dbAfter db (attempts enforce (fun s => s.IsApplicable search_params)
            search_params solvers db)
          trace := tr ++ tracesOf (attempts enforce (fun s => s.IsApplicable search_params)
            search_params solvers db) } := by
  induction solvers generalizing ss db tr with
  | nil => simp [SolverContainer.SearchForAllSolutions_each, attempts, successes, dbAfter,
      tracesOf]
  | cons solver rest ih =>
    cases ha : solver.IsApplicable search_params with
    | false =>
      have hat : attempts enforce (fun s => s.IsApplicable search_params) search_params
          (solver :: rest) db
          = attempts enforce (fun s => s.IsApplicable search_params) search_params rest db := by
        simp [attempts, ha]
      rw [hat] at hok ⊢
      simp only [SolverContainer.SearchForAllSolutions_each, ha]
      exact ih ss db tr hok
    | true =>
      have hat : attempts enforce (fun s => s.IsApplicable search_params) search_params
          (solver :: rest) db
          = FindSolution enforce solver search_params db
              :: attempts enforce (fun s => s.IsApplicable search_params) search_params rest
                  (FindSolution enforce solver search_params db).db := by
        simp [attempts, ha]
      rw [hat] at hok ⊢
      obtain ⟨found, hres⟩ := hok _ (List.mem_cons_self _ _)
      have ih1 := fun ss1 => ih ss1 (FindSolution enforce solver search_params db).db
        (tr ++ (FindSolution enforce solver search_params db).trace)
        (fun r hr => hok r (List.mem_cons_of_mem _ hr))
      cases hfound : found.Succeeded with
      | false =>
        simp only [SolverContainer.SearchForAllSolutions_each, ha, hres, hfound, if_true]
        rw [ih1 ss]
        simp [successes, hres, hfound, dbAfter, tracesOf, List.append_assoc]
      | true =>
        simp only [SolverContainer.SearchForAllSolutions_each, ha, hres, hfound, if_true]
        rw [ih1 (ss ++ [found])]
        simp [successes, hres, hfound, dbAfter, tracesOf, List.append_assoc]

/-- C19, as stated, fails when `FindSolution` throws on an applicable candidate: the
first candidate is applicable and its `GetSolution` throws, candidate C is applicable
and its `FindSolution` result succeeds; `SearchForAllSolutions` throws the exception
of the first candidate, no call is made on behalf of candidate C, and the list
with the solution of C is not returned. -/
theorem SearchForAllSolutions_all_successes_counterexample :
    solverThrowing.IsApplicable ctxPlain = true
      ∧ solverC.IsApplicable ctxPlain = true
      ∧ (FindSolution enforceNone solverThrowing ctxPlain emptyDb).result
          = .error { status := .miopenStatusUnknownError, message := "cannot build" }
      ∧ (FindSolution enforceNone solverC ctxPlain
          (FindSolution enforceNone solverThrowing ctxPlain emptyDb).db).result
          = .ok (solutionC 1)
      ∧ (solutionC 1).Succeeded = true
      ∧ successes (attempts enforceNone (fun s => s.IsApplicable ctxPlain) ctxPlain
          [solverThrowing, solverC] emptyDb) = [solutionC 1]
      ∧ (SolverContainer.SearchForAllSolutions enforceNone [solverThrowing, solverC] ctxPlain
          emptyDb).result
          = .error { status := .miopenStatusUnknownError, message := "cannot build" }
      ∧ ∀ e ∈ (SolverContainer.SearchForAllSolutions enforceNone [solverThrowing, solverC]
          ctxPlain emptyDb).trace, e.id ≠ "ConvC" := by
  exact ⟨rfl, rfl, by rfl, by rfl, by decide, by decide, by rfl, by decide⟩

/-- C19, amended: `SearchForAllSolutions` does not depend on `IsFast`; and, when no
`FindSolution` call on an applicable candidate throws, it returns exactly the list, in candidate declaration order, of the
`FindSolution` results that succeeded of all the applicable candidates, each
candidate being run on the cache left by the one before: no early exit after a
success, and an applicable candidate whose result did not succeed is left out
without an exception and without keeping later candidates from being run. -/
theorem SearchForAllSolutions_all_successes {P Cfg : Type} [DecidableEq P]
    (enforce : FindEnforce P) (search_params : Context P)
    (solvers : List (Solver P Cfg)) (db : PerfDb P Cfg) :
    (∀ f : Context P → Bool,
        SolverContainer.SearchForAllSolutions enforce (solvers.map (Solver.withIsFast f))
            search_params db
          = SolverContainer.SearchForAllSolutions enforce solvers search_params db)
      ∧ ((∀ r ∈ attempts enforce (fun s => s.IsApplicable search_params) search_params
            solvers db, ∃ found, r.result = .ok found) →
          (SolverContainer.SearchForAllSolutions enforce solvers search_params db).result
              = .ok (successes (attempts enforce (fun s => s.IsApplicable search_params)
                  search_params solvers db))
            ∧ (SolverContainer.SearchForAllSolutions enforce solvers search_params db).db
              = dbAfter db (attempts enforce (fun s => s.IsApplicable search_params)
                  search_params solvers db)
            ∧ (SolverContainer.SearchForAllSolutions enforce solvers search_params db).trace
              = tracesOf (attempts enforce (fun s => s.IsApplicable search_params)
                  search_params solvers db)) := by
  refine ⟨?_, ?_⟩
  · intro f
    exact SearchForAllSolutions_each_withIsFast enforce search_params f solvers [] db []
  · intro hok
    unfold SolverContainer.SearchForAllSolutions
    rw [SearchForAllSolutions_each_eq enforce search_params solvers [] db [] hok]
    exact ⟨by simp, rfl, by simp⟩

/-- Witness for C19, amended: candidate A is not applicable, B succeeds although it is not fast, D
does not succeed, C succeeds; the solutions of B and C are returned, in that order. -/
theorem SearchForAllSolutions_all_successes_witness :
    (SolverContainer.SearchForAllSolutions enforceNone [solverA, solverB, solverD, solverC]
        ctxSearch emptyDb).result
      = .ok (successes (attempts enforceNone (fun s => s.IsApplicable ctxSearch) ctxSearch
          [solverA, solverB, solverD, solverC] emptyDb))
      ∧ successes (attempts enforceNone (fun s => s.IsApplicable ctxSearch) ctxSearch
          [solverA, solverB, solverD, solverC] emptyDb) = [solutionB 7, solutionC 7] :=
  ⟨((SearchForAllSolutions_all_successes enforceNone ctxSearch
      [solverA, solverB, solverD, solverC] emptyDb).2
      (by
        intro r hr
        have ha : attempts enforceNone (fun s => s.IsApplicable ctxSearch) ctxSearch
            [solverA, solverB, solverD, solverC] emptyDb
            = [FindSolution enforceNone solverB ctxSearch emptyDb,
               FindSolution enforceNone solverD ctxSearch
                 (FindSolution enforceNone solverB ctxSearch emptyDb).db,
               FindSolution enforceNone solverC ctxSearch
                 (FindSolution enforceNone solverD ctxSearch
                   (FindSolution enforceNone solverB ctxSearch emptyDb).db).db] := rfl
        rw [ha] at hr
        simp only [List.mem_cons, List.mem_singleton, List.not_mem_nil, or_false] at hr
        rcases hr with hr | hr | hr <;> subst hr <;> exact ⟨_, by rfl⟩)).1,
   by decide⟩

/-- The loop of `GetWorkspaceSize` appends one pair per applicable candidate. -/
theorem GetWorkspaceSize_each_eq {P Cfg : Type} (search_params : Context P)
    (solvers : List (Solver P Cfg)) (res : List (String × Nat)) :
    SolverContainer.GetWorkspaceSize_each search_params solvers res
      = res ++ (solvers.filter (fun s => s.IsApplicable search_params)).map
          (fun s => (s.SolverDbId, s.GetWorkspaceSize search_params)) := by
  induction solvers generalizing res with
  | nil => simp [SolverContainer.GetWorkspaceSize_each]
  | cons solver rest ih =>
    cases ha : solver.IsApplicable search_params with
    | false => simp [SolverContainer.GetWorkspaceSize_each, ha, ih]
    | true => simp [SolverContainer.GetWorkspaceSize_each, ha, ih]

/-- The identifier of a solver is among the members that all solvers share. -/
theorem SolverDbId_eq_base {P Cfg : Type} (s : Solver P Cfg) :
    s.SolverDbId = s.base.SolverDbId := by
  cases s with
  | searchable s1 => rfl
  | nonSearchable s0 => rfl

/-- C20: `GetWorkspaceSize` returns exactly the list of the pairs
(`SolverDbId(s)`, `s.GetWorkspaceSize(problem)`) of the applicable candidates, in
declaration order, one pair per applicable candidate and none for the others:
three solvers of sizes `0`, `128` and `256` of which the last two are applicable
give exactly those two pairs. It takes no cache, and its result depends on the
identifier, `IsApplicable` and `GetWorkspaceSize` of the candidates only, not on
their `Search` or `GetSolution`. -/
theorem GetWorkspaceSize_applicable {P Cfg : Type} (search_params : Context P)
    (solvers : List (Solver P Cfg)) :
    SolverContainer.GetWorkspaceSize solvers search_params
        = (solvers.filter (fun s => s.IsApplicable search_params)).map
            (fun s => (s.SolverDbId, s.GetWorkspaceSize search_params))
      ∧ SolverContainer.GetWorkspaceSize [solverA, solverB, solverC] ctxPlain
        = [("ConvB", 128), ("ConvC", 256)]
      ∧ ∀ solvers2 : List (Solver P Cfg),
          solvers2.map Solver.base = solvers.map Solver.base →
          SolverContainer.GetWorkspaceSize solvers2 search_params
            = SolverContainer.GetWorkspaceSize solvers search_params := by
  refine ⟨?_, by decide, ?_⟩
  · unfold SolverContainer.GetWorkspaceSize
    rw [GetWorkspaceSize_each_eq]
    simp
  · intro solvers2 h
    unfold SolverContainer.GetWorkspaceSize
    induction solvers generalizing solvers2 with
    | nil =>
      cases solvers2 with
      | nil => rfl
      | cons a l => simp at h
    | cons solver rest ih =>
      cases solvers2 with
      | nil => simp at h
      | cons a l =>
        simp only [List.map_cons, List.cons.injEq] at h
        obtain ⟨h1, h2⟩ := h
        have ih1 := ih l h2
        rw [GetWorkspaceSize_each_eq] at ih1 ⊢
        rw [GetWorkspaceSize_each_eq] at ih1 ⊢
        simp only [List.nil_append] at ih1 ⊢
        simp only [List.filter_cons, Solver.IsApplicable, Solver.GetWorkspaceSize,
          SolverDbId_eq_base, h1] at ih1 ⊢
        split <;> simp [ih1, h1]

/-- Witness for C20: replacing candidate C, among A, B and C, by a solver that shares
its identifier, applicability and workspace size but is not searchable leaves the
result as it is. -/
theorem GetWorkspaceSize_applicable_witness :
    SolverContainer.GetWorkspaceSize
        [solverA, solverB,
          (.nonSearchable { sampleFixedSolver with
            SolverDbId := "ConvC", GetWorkspaceSize := fun _ => 256 } : Solver Nat Nat)]
        ctxPlain
      = SolverContainer.GetWorkspaceSize [solverA, solverB, solverC] ctxPlain :=
  (GetWorkspaceSize_applicable ctxPlain [solverA, solverB, solverC]).2.2 _ rfl

/-! ## Later properties of the find-solution engine and of the container -/

/-- C21, the code at the failing input: `SearchForAllSolutions` obtains from the applicable
sample solver a solution that succeeded with an empty `construction_params` and
returns it in its result instead of throwing. -/
theorem SearchForAllSolutions_accepts_empty_solution :
    (sampleSolver.IsApplicable ctxPlain = true)
      ∧ (FindSolution enforceNone (.searchable sampleSolver) ctxPlain emptyDb).result
          = .ok (sampleSolution 1)
      ∧ (sampleSolution 1).Succeeded = true
      ∧ (sampleSolution 1).construction_params = []
      ∧ (SolverContainer.SearchForAllSolutions enforceNone [.searchable sampleSolver] ctxPlain
          emptyDb).result = .ok [sampleSolution 1] := by
  refine ⟨rfl, by rfl, by decide, rfl, by rfl⟩

/-- C28: under a policy that demands a clean cache, with cache access enabled,
`FindSolution` on a searchable solver calls `Remove` and then only
`GetPerformanceConfig` and `GetSolution`: never `Load`, `Search` or `Update`; it returns
the solution of the default configuration, whether or not the problem requests a
search or the policy forces one. -/
theorem FindSolution_clean_never_searches {P Cfg : Type} [DecidableEq P]
    (enforce : FindEnforce P) (s : SearchableSolver P Cfg) (context : Context P)
    (db : PerfDb P Cfg)
    (hacc : context.disable_perfdb_access = false)
    (hclean : enforce.IsDbClean context = true) :
    (FindSolution enforce (.searchable s) context db).trace
        = [Event.Remove s.SolverDbId, Event.GetPerformanceConfig s.SolverDbId,
           Event.GetSolution s.SolverDbId (s.GetPerformanceConfig context)]
      ∧ (∀ e ∈ (FindSolution enforce (.searchable s) context db).trace,
          e.isLoad = false ∧ e.isSearch = false ∧ e.isUpdate = false)
      ∧ (FindSolution enforce (.searchable s) context db).result
          = (s.GetSolution context (s.GetPerformanceConfig context)).map (stamp s.SolverDbId)
      ∧ (FindSolution enforce (.searchable s) context db).db
          = (db.Remove context s.SolverDbId).2 := by
  obtain ⟨hr, hd, ht⟩ := FindSolution_searchable enforce s context db
  rw [hr, hd, ht, FindSolutionImpl_rank1_clean enforce s context db hacc hclean]
  refine ⟨rfl, ?_, rfl, rfl⟩
  simp [returnDefault, Event.isLoad, Event.isSearch, Event.isUpdate]

/-- Witness for C28: cleaning demanded together with a forced search and a forced cache
update, and a search requested by the problem. -/
theorem FindSolution_clean_never_searches_witness :
    ctxSearch.do_search = true
      ∧ enforceDbCleanSearch.IsSearch ctxSearch = true
      ∧ (FindSolution enforceDbCleanSearch (.searchable sampleSolver) ctxSearch
          (singleDb 5)).trace
        = [Event.Remove "ConvSample", Event.GetPerformanceConfig "ConvSample",
           Event.GetSolution "ConvSample" 1]
      ∧ (FindSolution enforceDbCleanSearch (.searchable sampleSolver) ctxSearch
          (singleDb 5)).result = .ok (sampleSolution 1) :=
  ⟨rfl, rfl,
   (FindSolution_clean_never_searches enforceDbCleanSearch sampleSolver ctxSearch (singleDb 5)
      rfl rfl).1,
   (FindSolution_clean_never_searches enforceDbCleanSearch sampleSolver ctxSearch (singleDb 5)
      rfl rfl).2.2.1⟩

/-- C29: the search step is not atomic with respect to the cache. When `FindSolution`
reaches the search step, `Search` succeeds with `c`, and `GetSolution(context, c)`
throws `miopen::Exception`, the exception is swallowed: the result is what
`GetSolution` returns for the default configuration, which the outcome is built
from, while `Update` has been called and the cache holds the record `c`. -/
theorem FindSolution_search_step_not_atomic {P Cfg : Type} [DecidableEq P]
    (enforce : FindEnforce P) (s : SearchableSolver P Cfg) (context : Context P)
    (db : PerfDb P Cfg) (c : Cfg) (ex : Exception)
    (hacc : context.disable_perfdb_access = false)
    (hclean : enforce.IsDbClean context = false)
    (hsearch : (context.do_search || enforce.IsSearch context) = true)
    (hnovalid : ((context.do_search || enforce.IsSearch context) && enforce.IsDbUpdate context)
        = true
      ∨ ∀ config, db.Load context s.SolverDbId = some config →
          s.IsValidPerformanceConfig context config = false)
    (hs : s.Search context = .ok c)
    (hg : s.GetSolution context c = .error ex) :
    (FindSolution enforce (.searchable s) context db).result
        = (s.GetSolution context (s.GetPerformanceConfig context)).map (stamp s.SolverDbId)
      ∧ builtFrom (FindSolution enforce (.searchable s) context db)
          = some (s.GetPerformanceConfig context)
      ∧ Event.Update s.SolverDbId c ∈ (FindSolution enforce (.searchable s) context db).trace
      ∧ (FindSolution enforce (.searchable s) context db).db.Load context s.SolverDbId
          = some c := by
  obtain ⟨hr, hd, ht⟩ := FindSolution_searchable enforce s context db
  obtain ⟨tr, hF, -⟩ :=
    FindSolutionImpl_rank1_reaches_searchStep enforce s context db hacc hclean hnovalid
  have hF1 := hF.trans (searchStep_solution_failed enforce s context db tr c ex hsearch hs hg)
  refine ⟨?_, ?_, ?_, ?_⟩
  · rw [hr, hF1]; rfl
  · apply builtFrom_of_getLast _ s.SolverDbId
    rw [ht, hF1]
    simp [returnDefault]
  · rw [ht, hF1]
    simp [returnDefault]
  · rw [hd, hF1]
    simp [returnDefault, PerfDb.Load, PerfDb.Update]

/-- Witness for C29: the search finds `7`, which is recorded, `GetSolution` throws on `7`, and
the solution returned is that of the default configuration `1`. -/
theorem FindSolution_search_step_not_atomic_witness :
    (FindSolution enforceNone (.searchable sampleBrokenSolver) ctxSearch emptyDb).result
        = .ok (sampleSolution 1)
      ∧ builtFrom (FindSolution enforceNone (.searchable sampleBrokenSolver) ctxSearch emptyDb)
          = some 1
      ∧ (FindSolution enforceNone (.searchable sampleBrokenSolver) ctxSearch emptyDb).db.Load
          ctxSearch "ConvSample" = some 7 :=
  ⟨(FindSolution_search_step_not_atomic enforceNone sampleBrokenSolver ctxSearch emptyDb 7
      { status := .miopenStatusUnknownError, message := "cannot build" } rfl rfl rfl
      (Or.inr (fun config h => by cases h)) rfl rfl).1,
   (FindSolution_search_step_not_atomic enforceNone sampleBrokenSolver ctxSearch emptyDb 7
      { status := .miopenStatusUnknownError, message := "cannot build" } rfl rfl rfl
      (Or.inr (fun config h => by cases h)) rfl rfl).2.1,
   (FindSolution_search_step_not_atomic enforceNone sampleBrokenSolver ctxSearch emptyDb 7
      { status := .miopenStatusUnknownError, message := "cannot build" } rfl rfl rfl
      (Or.inr (fun config h => by cases h)) rfl rfl).2.2.2⟩

/-! ## The solver `ConvBinWinogradRxSf3x2` -/

/-- A value within the range of `int` is not changed by the wrap-around. -/
theorem wrapInt32_of_range (x : Int) (h1 : -2147483648 ≤ x) (h2 : x < 2147483648) :
    wrapInt32 x = x := by
  unfold wrapInt32
  omega

/-- For `v >= 0` and `m > 0` with `v + m` representable, `Ceiling(v, m)` passes its
assertion and returns a multiple of `m` in the range from `v` to `v + m - 1`. -/
theorem Ceiling_spec (v m : Int) (hv : 0 ≤ v) (hm : 0 < m) (hrep : v + m < 2147483648) :
    ∃ r, Ceiling v m = some r ∧ r % m = 0 ∧ v ≤ r ∧ r < v + m ∧ (v % m = 0 → r = v) := by
  have htm : v.tmod m = v % m := Int.tmod_eq_emod hv hm.le
  have htd : v.tdiv m = v / m := Int.tdiv_eq_ediv hv hm.le
  unfold Ceiling
  rw [if_pos ⟨hm, hv⟩, htm, htd]
  by_cases h0 : v % m = 0
  · rw [if_neg (by simp [h0])]
    exact ⟨v, rfl, h0, le_refl v, by omega, fun _ => rfl⟩
  · rw [if_pos h0]
    have hdm := Int.ediv_add_emod v m
    have hnn := Int.emod_nonneg v hm.ne'
    have hlt := Int.emod_lt_of_pos v hm
    have hq0 : 0 ≤ v / m := Int.ediv_nonneg hv hm.le
    have hqle : v / m ≤ v := Int.ediv_le_self _ hv
    have hprod : (v / m + 1) * m = v - v % m + m := by linear_combination hdm
    have hw1 : wrapInt32 (v / m + 1) = v / m + 1 := wrapInt32_of_range _ (by omega) (by omega)
    rw [hw1]
    have hw2 : wrapInt32 ((v / m + 1) * m) = (v / m + 1) * m := by
      apply wrapInt32_of_range
      · rw [hprod]; omega
      · rw [hprod]; omega
    rw [hw2]
    refine ⟨_, rfl, Int.mul_emod_left _ _, ?_, ?_, fun h => absurd h h0⟩
    · rw [hprod]; omega
    · rw [hprod]; omega

/-- C27: for all integers `v >= 0` and `m > 0` with `v + m` representable as an `int`,
`Ceiling(v, m)` passes its assertion and returns `v` rounded up to the nearest multiple
of `m`: a multiple of `m` that is `>= v` and `< v + m`, equal to `v` exactly when `m`
divides `v`. -/
theorem Ceiling_rounds_up (v m : Int) (hv : 0 ≤ v) (hm : 0 < m)
    (hrep : v + m < 2147483648) :
    ∃ r, Ceiling v m = some r ∧ m ∣ r ∧ v ≤ r ∧ r < v + m ∧ (r = v ↔ m ∣ v) := by
  obtain ⟨r, hr, hmod, hle, hlt, heq⟩ := Ceiling_spec v m hv hm hrep
  refine ⟨r, hr, Int.dvd_of_emod_eq_zero hmod, hle, hlt, ?_⟩
  constructor
  · intro h
    rw [← h]
    exact Int.dvd_of_emod_eq_zero hmod
  · intro h
    exact heq (Int.emod_eq_zero_of_dvd h)

/-- Witness for C27: `Ceiling(7, 4)` is `8` and `Ceiling(8, 4)` is `8`. -/
theorem Ceiling_rounds_up_witness :
    Ceiling 7 4 = some 8 ∧ Ceiling 8 4 = some 8
      ∧ ∃ r, Ceiling 7 4 = some r ∧ (4 : Int) ∣ r ∧ 7 ≤ r ∧ r < 7 + 4 ∧ (r = 7 ↔ (4 : Int) ∣ 7) :=
  ⟨by decide, by decide, Ceiling_rounds_up 7 4 (by decide) (by decide) (by decide)⟩

/-- The local variable `padded_R`, when `R + 2 * TILE` is representable: the assertions of
`Ceiling` pass and the value is a multiple of `TILE` that is `>= R`. -/
theorem paddedR_spec (R R_stride TILE : Int) (hR : 0 ≤ R) (hT : 0 < TILE)
    (hrep : R + 2 * TILE < 2147483648) :
    ∃ pR, paddedR R R_stride TILE = some pR ∧ TILE ∣ pR ∧ R ≤ pR := by
  have hX2 : wrapInt32 (TILE * 2) = 2 * TILE := by
    rw [wrapInt32_of_range _ (by omega) (by omega)]; ring
  have h1 : ∃ pR, Ceiling R TILE = some pR ∧ TILE ∣ pR ∧ R ≤ pR := by
    obtain ⟨r, hr, hmod, hle, -, -⟩ := Ceiling_spec R TILE hR hT (by omega)
    exact ⟨r, hr, Int.dvd_of_emod_eq_zero hmod, hle⟩
  have h2 : ∃ pR, Ceiling R (2 * TILE) = some pR ∧ TILE ∣ pR ∧ R ≤ pR := by
    obtain ⟨r, hr, hmod, hle, -, -⟩ := Ceiling_spec R (2 * TILE) hR (by omega) (by omega)
    exact ⟨r, hr, Dvd.dvd.trans (Dvd.intro_left 2 rfl) (Int.dvd_of_emod_eq_zero hmod), hle⟩
  unfold paddedR
  rw [hX2]
  split
  · exact h1
  · split
    · exact h1
    · exact h2

/-- The local variable `padded_S`, when `S + 2 * TILE` is representable: the assertions of
`Ceiling` pass and the value is a multiple of `TILE` that is `>= S`, and a multiple of
`2 * TILE` when `S_stride` is not 1. -/
theorem paddedS_spec (S S_stride TILE : Int) (hS : 0 ≤ S) (hT : 0 < TILE)
    (hrep : S + 2 * TILE < 2147483648) :
    ∃ pS, paddedS S S_stride TILE = some pS ∧ TILE ∣ pS ∧ S ≤ pS
      ∧ (S_stride ≠ 1 → 2 * TILE ∣ pS) := by
  have hX2 : wrapInt32 (TILE * 2) = 2 * TILE := by
    rw [wrapInt32_of_range _ (by omega) (by omega)]; ring
  have h2 : ∃ pS, Ceiling S (2 * TILE) = some pS ∧ TILE ∣ pS ∧ S ≤ pS ∧ 2 * TILE ∣ pS := by
    obtain ⟨r, hr, hmod, hle, -, -⟩ := Ceiling_spec S (2 * TILE) hS (by omega) (by omega)
    exact ⟨r, hr, Dvd.dvd.trans (Dvd.intro_left 2 rfl) (Int.dvd_of_emod_eq_zero hmod), hle,
      Int.dvd_of_emod_eq_zero hmod⟩
  unfold paddedS
  rw [hX2]
  split
  · rename_i hs1
    split
    · rename_i hle
      exact ⟨TILE, rfl, dvd_refl TILE, hle, fun h => absurd hs1 h⟩
    · obtain ⟨pS, h, hd, hle, hd2⟩ := h2
      exact ⟨pS, h, hd, hle, fun _ => hd2⟩
  · obtain ⟨pS, h, hd, hle, hd2⟩ := h2
    exact ⟨pS, h, hd, hle, fun _ => hd2⟩

/-- C30, as stated, fails at the ends of the `int` range. For `R = 2147483647` and
`TILE = 3` the computation of `padded_R` wraps around: `padded_R` is `-2147483647`,
which is not `>= R` and not a multiple of `TILE` for `%`, so the assertion that
guards the `k * l * C >= 18` check fails; and for `TILE = 1073741824` the value
`TILE * 2` wraps to a negative number, so the assertion of `Ceiling` fails. -/
theorem padded_sizes_counterexample :
    paddedR 2147483647 1 3 = some (-2147483647)
      ∧ ¬ ((2147483647 : Int) ≤ -2147483647)
      ∧ (-2147483647 : Int).tmod 3 ≠ 0
      ∧ paddedS 0 1 3 = some 3
      ∧ minimumWork false false 2147483647 0 64 3 (-2147483647) 3 = none
      ∧ paddedS 5 2 1073741824 = none := by
  decide

/-- C30, amended: for all `R >= 0`, `S >= 0`, all stride values, both directions and every
tile size `TILE > 0` such that `R + 2 * TILE` and `S + 2 * TILE` are representable as
`int`: the assertions of `Ceiling` pass, `padded_R` is a multiple of `TILE` with
`padded_R >= R`, and `padded_S` is `>= S` and a multiple of `2 * TILE` when the problem
is backward-data with `S_stride != 1` and a multiple of `TILE` in every case; hence
the assertion that guards the `k * l * C >= 18` check does not fail and the divisions
`padded_R / TILE` and `padded_S / TILE` are exact. -/
theorem padded_sizes_are_multiples (R S R_stride S_stride TILE C : Int)
    (direction : Direction) (hR : 0 ≤ R) (hS : 0 ≤ S) (hT : 0 < TILE)
    (hRrep : R + 2 * TILE < 2147483648) (hSrep : S + 2 * TILE < 2147483648) :
    ∃ pR pS, paddedR R R_stride TILE = some pR ∧ paddedS S S_stride TILE = some pS
      ∧ TILE ∣ pR ∧ R ≤ pR ∧ S ≤ pS ∧ TILE ∣ pS
      ∧ ((direction.IsBackwardData && decide (S_stride ≠ 1)) = true → 2 * TILE ∣ pS)
      ∧ minimumWork false (direction.IsBackwardData && decide (S_stride ≠ 1)) R S C TILE
          pR pS ≠ none
      ∧ TILE * pR.tdiv TILE = pR ∧ TILE * pS.tdiv TILE = pS := by
  obtain ⟨pR, hpR, hdR, hleR⟩ := paddedR_spec R R_stride TILE hR hT hRrep
  obtain ⟨pS, hpS, hdS, hleS, hdS2⟩ := paddedS_spec S S_stride TILE hS hT hSrep
  have hX2 : wrapInt32 (TILE * 2) = 2 * TILE := by
    rw [wrapInt32_of_range _ (by omega) (by omega)]; ring
  have hpR0 : 0 ≤ pR := le_trans hR hleR
  have hpS0 : 0 ≤ pS := le_trans hS hleS
  have hdil : (direction.IsBackwardData && decide (S_stride ≠ 1)) = true → 2 * TILE ∣ pS := by
    intro h
    simp only [Bool.and_eq_true, decide_eq_true_eq] at h
    exact hdS2 h.2
  have hmR : pR.tmod TILE = 0 := by
    rw [Int.tmod_eq_emod hpR0 hT.le]
    exact Int.emod_eq_zero_of_dvd hdR
  have hmS : pS.tmod TILE = 0 := by
    rw [Int.tmod_eq_emod hpS0 hT.le]
    exact Int.emod_eq_zero_of_dvd hdS
  refine ⟨pR, pS, hpR, hpS, hdR, hleR, hleS, hdS, hdil, ?_, ?_, ?_⟩
  · have hassert : pR.tmod TILE = 0
        ∧ pS.tmod (if (direction.IsBackwardData && decide (S_stride ≠ 1)) = true
            then wrapInt32 (TILE * 2) else TILE) = 0 := by
      refine ⟨hmR, ?_⟩
      split
      · rename_i h
        rw [hX2, Int.tmod_eq_emod hpS0 (by omega)]
        exact Int.emod_eq_zero_of_dvd (hdil h)
      · exact hmS
    unfold minimumWork
    rw [if_pos hassert]
    simp only [Bool.false_eq_true, if_false]
    split_ifs <;> simp
  · rw [Int.tdiv_eq_ediv hpR0 hT.le]
    exact Int.mul_ediv_cancel' hdR
  · rw [Int.tdiv_eq_ediv hpS0 hT.le]
    exact Int.mul_ediv_cancel' hdS

/-- Witness for C30, amended: a 5x5 filter with stride 2 in a backward-data problem and
`TILE = 2`: `padded_R` is `6` (as `5 % 4 = 1`) and `padded_S` is `8`. -/
theorem padded_sizes_are_multiples_witness :
    paddedR 5 2 2 = some 6 ∧ paddedS 5 2 2 = some 8
      ∧ ∃ pR pS, paddedR 5 2 2 = some pR ∧ paddedS 5 2 2 = some pS
          ∧ (2 : Int) ∣ pR ∧ 5 ≤ pR ∧ 5 ≤ pS ∧ (2 : Int) ∣ pS
          ∧ ((Direction.BackwardData.IsBackwardData && decide ((2 : Int) ≠ 1)) = true →
              2 * (2 : Int) ∣ pS)
          ∧ minimumWork false (Direction.BackwardData.IsBackwardData && decide ((2 : Int) ≠ 1))
              5 5 64 2 pR pS ≠ none
          ∧ 2 * pR.tdiv 2 = pR ∧ 2 * pS.tdiv 2 = pS :=
  ⟨by decide, by decide,
   padded_sizes_are_multiples 5 5 2 2 2 64 Direction.BackwardData (by decide) (by decide)
     (by decide) (by decide) (by decide)⟩

/-- When `IsApplicable` returns true, the shape-independent conditions hold, the solver is
not disabled, and `IsShaderContraintsMet` returned true for stride 1, fp32 and tile
size 2. -/
theorem IsApplicable_true (disabled : Bool) (params : ConvolutionContext)
    (h : ConvBinWinogradRxSf3x2.IsApplicable disabled params = some true) :
    shapeIndependentConditions params ∧ disabled = false
      ∧ IsShaderContraintsMet params.kernel_size_h params.kernel_size_w 1 1 params.n_inputs
          params.n_outputs params.in_height params.in_width params.out_height
          params.out_width params.batch_sz params false 2 = some true := by
  unfold ConvBinWinogradRxSf3x2.IsApplicable at h
  split_ifs at h with h1 h2 h3 h4 h5 h6 h7 h8
  all_goals first
    | (exfalso; simp at h)
    | skip
  simp only [not_not, Bool.not_eq_true] at h1 h2 h3 h4 h5 h6 h7 h8
  obtain ⟨hw, hwh, hdw, hdh, hb, hg, hl⟩ := h8
  have hh : params.kernel_stride_h = 1 := by rw [← hwh]; exact hw
  rw [hh, hw] at h
  refine ⟨⟨?_, ?_, h4, ?_, h6, ?_, hw, hh, hdw, hdh, hb, hg, hl⟩, h3, h⟩
  · simpa using h1
  · simpa using h2
  · simpa using h5
  · simpa using h7

/-- C24: `ConvBinWinogradRxSf3x2::IsApplicable` returns true only if the problem is 2-D, fp32,
not backward-weights, assembly kernels are enabled, the metadata version is
`AMDHSA_1_0`, the device name starts with "gfx9", stride and dilation are 1 in both
axes, bias is 0, group count is 1 and the input layout is "NCHW"; when any one of
these fails the result is false, whatever the shape fields are, and no assertion
is evaluated. -/
theorem IsApplicable_only_if (disabled : Bool) (params : ConvolutionContext) :
    (ConvBinWinogradRxSf3x2.IsApplicable disabled params = some true →
        shapeIndependentConditions params)
      ∧ (¬ shapeIndependentConditions params →
        ConvBinWinogradRxSf3x2.IsApplicable disabled params = some false) := by
  refine ⟨fun h => (IsApplicable_true disabled params h).1, ?_⟩
  intro hn
  unfold ConvBinWinogradRxSf3x2.IsApplicable
  split_ifs with h1 h2 h3 h4 h5 h6 h7 h8
  all_goals first
    | rfl
    | skip
  exfalso
  apply hn
  simp only [not_not, Bool.not_eq_true] at h1 h2 h3 h4 h5 h6 h7 h8
  obtain ⟨hw, hwh, hdw, hdh, hb, hg, hl⟩ := h8
  have hh : params.kernel_stride_h = 1 := by rw [← hwh]; exact hw
  refine ⟨?_, ?_, h4, ?_, h6, ?_, hw, hh, hdw, hdh, hb, hg, hl⟩
  · simpa using h1
  · simpa using h2
  · simpa using h5
  · simpa using h7

/-- Witness for C24: a forward fp32 3x3 problem with 64 channels on a 56x56 image is
applicable and meets the conditions; the same problem on a device that is not
gfx9 is not applicable. -/
theorem IsApplicable_only_if_witness :
    ConvBinWinogradRxSf3x2.IsApplicable false (winogradProblem 64 56 56) = some true
      ∧ shapeIndependentConditions (winogradProblem 64 56 56)
      ∧ ConvBinWinogradRxSf3x2.IsApplicable false
          { winogradProblem 64 56 56 with GetDeviceName := "gfx803" } = some false :=
  ⟨by decide,
   (IsApplicable_only_if false (winogradProblem 64 56 56)).1 (by decide),
   (IsApplicable_only_if false { winogradProblem 64 56 56 with GetDeviceName := "gfx803" }).2
     (by
       intro h
       have h6 := h.2.2.2.2.2.1
       exact absurd h6 (by decide))⟩

/-- When the limit checks return true, every one of them passed. -/
theorem implementationLimits_true (R S C K H W OH OW N : Int) (params : ConvolutionContext)
    (h : implementationLimits R S C K H W OH OW N params = some true) :
    N < 65536 ∧ C < 65536 ∧ K < 65536 ∧ H < 65536 ∧ W < 65536 ∧ OH < 65536 ∧ OW < 65536
      ∧ params.pad_w < 65536 ∧ params.pad_h < 65536 ∧ S < 65536 ∧ R < 65536
      ∧ params.GetMaxComputeUnits < 65536
      ∧ wrapInt32 (wrapInt32 (C * H) * W) ≤ 268435456
      ∧ wrapInt32 (wrapInt32 (K * OH) * OW) ≤ 268435456
      ∧ wrapInt32 (wrapInt32 (K * R) * S) ≤ 268435456
      ∧ wrapInt32 (wrapInt32 (C * R) * S) ≤ 268435456 := by
  unfold implementationLimits at h
  split_ifs at h
  all_goals first
    | exact absurd h (by decide)
    | skip
  simpa using h

/-- When the checks on the work per tile return true for fp32, the assertion held and
the product `k * l * C`, as computed, is not below 18. -/
theorem minimumWork_fp32_true (dil : Bool) (R S C TILE pR pS : Int)
    (h : minimumWork false dil R S C TILE pR pS = some true) :
    pR.tmod TILE = 0
      ∧ pS.tmod (if dil = true then wrapInt32 (TILE * 2) else TILE) = 0
      ∧ ¬ (wrapInt32 (wrapInt32 (pR.tdiv TILE
            * pS.tdiv (if dil = true then wrapInt32 (TILE * 2) else TILE)) * C) < 18) := by
  unfold minimumWork at h
  simp only [Bool.false_eq_true, if_false] at h
  by_cases h1 : dil = true ∧ ¬ (R > 1)
  · rw [if_pos h1] at h; exact absurd h (by decide)
  · rw [if_neg h1] at h
    by_cases h2 : dil = true ∧ ¬ (C.tmod 2 = 0)
    · rw [if_pos h2] at h; exact absurd h (by decide)
    · rw [if_neg h2] at h
      by_cases h3 : pR.tmod TILE = 0
          ∧ pS.tmod (if dil = true then wrapInt32 (TILE * 2) else TILE) = 0
      · rw [if_pos h3] at h
        by_cases h4 : wrapInt32 (wrapInt32 (pR.tdiv TILE
            * pS.tdiv (if dil = true then wrapInt32 (TILE * 2) else TILE)) * C) < 18
        · rw [if_pos h4] at h; exact absurd h (by decide)
        · exact ⟨h3.1, h3.2, h4⟩
      · rw [if_neg h3] at h; exact absurd h (by decide)

/-- When `IsShaderContraintsMet` returns true, the padded sizes were computed without a
failed assertion and every check passed. -/
theorem IsShaderContraintsMet_true (R S R_stride S_stride C K H W OH OW N : Int)
    (params : ConvolutionContext) (fp16 : Bool) (filter_tile_size : Nat)
    (h : IsShaderContraintsMet R S R_stride S_stride C K H W OH OW N params fp16
      filter_tile_size = some true) :
    ∃ pS pR, paddedS S S_stride (wrapInt32 filter_tile_size) = some pS
      ∧ paddedR R R_stride (wrapInt32 filter_tile_size) = some pR
      ∧ ¬ (S_stride = 1 ∧ S ≤ wrapInt32 filter_tile_size
          ∧ C.tmod (if fp16 = true then 4 else 2) ≠ 0)
      ∧ minimumWork fp16 (params.direction.IsBackwardData && decide (S_stride ≠ 1)) R S C
          (wrapInt32 filter_tile_size) pR pS = some true
      ∧ implementationLimits R S C K H W OH OW N params = some true := by
  unfold IsShaderContraintsMet at h
  cases hs : paddedS S S_stride (wrapInt32 filter_tile_size) with
  | none => rw [hs] at h; simp at h
  | some pS =>
    cases hr : paddedR R R_stride (wrapInt32 filter_tile_size) with
    | none => rw [hs, hr] at h; simp at h
    | some pR =>
      rw [hs, hr] at h
      simp only at h
      by_cases h1 : fp16 = true ∧ C.tmod 2 ≠ 0
      · rw [if_pos h1] at h; exact absurd h (by decide)
      · rw [if_neg h1] at h
        by_cases h2 : S_stride = 1 ∧ S ≤ wrapInt32 filter_tile_size
            ∧ C.tmod (if fp16 = true then 4 else 2) ≠ 0
        · rw [if_pos h2] at h; exact absurd h (by decide)
        · rw [if_neg h2] at h
          cases hm : minimumWork fp16
              (params.direction.IsBackwardData && decide (S_stride ≠ 1))
              R S C (wrapInt32 filter_tile_size) pR pS with
          | none => rw [hm] at h; simp at h
          | some b =>
            cases b with
            | false => rw [hm] at h; simp at h
            | true =>
              rw [hm] at h
              exact ⟨pS, pR, rfl, rfl, h2, hm, h⟩

/-- C26, the code at the failing input: for a forward fp32 3x3 problem with 2048 input
channels on a 2048x2048 image `IsApplicable` returns true, although the product
`C * H * W` of the fields is `2^33`, above `2^28`: computed in `int` it wraps to 0. -/
theorem IsApplicable_product_overflow :
    ConvBinWinogradRxSf3x2.IsApplicable false (winogradProblem 2048 2048 2048) = some true
      ∧ (winogradProblem 2048 2048 2048).n_inputs * (winogradProblem 2048 2048 2048).in_height
          * (winogradProblem 2048 2048 2048).in_width = 8589934592
      ∧ ¬ ((8589934592 : Int) ≤ 268435456)
      ∧ wrapInt32 (wrapInt32 ((2048 : Int) * 2048) * 2048) = 0 := by
  decide

/-- C25: for a problem with non-negative filter sizes `R` (height), `S` (width) and channel
count `C`, when `IsApplicable` returns true the padded filter footprint satisfies
`(padded_R / 2) * (padded_S / 2) * C >= 18` as integers, where `padded_R` is the least
multiple of 2 that is `>= R` and `padded_S` is 2 when `S <= 2` and otherwise the least
multiple of 4 that is `>= S`; and when `S <= 2`, `C` is even. -/
theorem IsApplicable_minimum_work (disabled : Bool) (params : ConvolutionContext)
    (padded_R padded_S : Int)
    (hR : 0 ≤ params.kernel_size_h) (hS : 0 ≤ params.kernel_size_w)
    (hC : 0 ≤ params.n_inputs)
    (hpR : IsLeastMultipleGE 2 params.kernel_size_h padded_R)
    (hpS : if params.kernel_size_w ≤ 2 then padded_S = 2
      else IsLeastMultipleGE 4 params.kernel_size_w padded_S)
    (h : ConvBinWinogradRxSf3x2.IsApplicable disabled params = some true) :
    (padded_R / 2) * (padded_S / 2) * params.n_inputs ≥ 18
      ∧ (params.kernel_size_w ≤ 2 → params.n_inputs % 2 = 0) := by
  obtain ⟨-, -, hI⟩ := IsApplicable_true disabled params h
  obtain ⟨pS, pR, hpS1, hpR1, heven, hmw, hlim⟩ := IsShaderContraintsMet_true _ _ _ _ _ _ _ _
    _ _ _ _ _ _ hI
  obtain ⟨-, hC16, -, -, -, -, -, -, -, hS16, hR16, -⟩ := implementationLimits_true _ _ _ _ _
    _ _ _ _ _ hlim
  have h2 : wrapInt32 ((2 : ℕ) : ℤ) = 2 := by decide
  have h4 : wrapInt32 ((2 : ℤ) * 2) = 4 := by decide
  have hdil : (params.direction.IsBackwardData && decide ((1 : ℤ) ≠ 1)) = false := by simp
  rw [h2] at hpS1 hpR1 heven hmw
  rw [hdil] at hmw
  obtain ⟨-, -, hm3⟩ := minimumWork_fp32_true _ _ _ _ _ _ _ hmw
  simp only [Bool.false_eq_true, if_false] at hm3
  -- the value of `padded_R`
  have hpRv : pR = padded_R := by
    obtain ⟨r, hr, hmod, hle, hlt, -⟩ := Ceiling_spec params.kernel_size_h 2 hR (by decide)
      (by omega)
    simp only [paddedR, if_true] at hpR1
    rw [hr] at hpR1
    injection hpR1 with hpR1
    obtain ⟨hd, hge, hleast⟩ := hpR
    have h1 := hleast r (Int.dvd_of_emod_eq_zero hmod) hle
    omega
  -- the value of `padded_S`
  have hpSv : pS = padded_S := by
    simp only [paddedS, if_true, h4] at hpS1
    by_cases hs2 : params.kernel_size_w ≤ 2
    · rw [if_pos hs2] at hpS1 hpS
      injection hpS1 with hpS1
      omega
    · rw [if_neg hs2] at hpS1 hpS
      obtain ⟨r, hr, hmod, hle, hlt, -⟩ := Ceiling_spec params.kernel_size_w 4 hS (by decide)
        (by omega)
      rw [hr] at hpS1
      injection hpS1 with hpS1
      obtain ⟨hd, hge, hleast⟩ := hpS
      have h1 := hleast r (Int.dvd_of_emod_eq_zero hmod) hle
      omega
  subst hpRv hpSv
  have hpR0 : 0 ≤ pR := le_trans hR hpR.2.1
  have hpRle : pR ≤ 65536 := by
    have h1 := hpR.2.2 (params.kernel_size_h + params.kernel_size_h % 2) (by omega) (by omega)
    omega
  have hpS0 : 0 ≤ pS := by
    by_cases hs2 : params.kernel_size_w ≤ 2
    · rw [if_pos hs2] at hpS; omega
    · rw [if_neg hs2] at hpS; exact le_trans hS hpS.2.1
  have hpSle : pS ≤ 65536 := by
    by_cases hs2 : params.kernel_size_w ≤ 2
    · rw [if_pos hs2] at hpS; omega
    · rw [if_neg hs2] at hpS
      obtain ⟨hd, hge, hleast⟩ := hpS
      have h1 := hleast (params.kernel_size_w + (4 - params.kernel_size_w % 4) % 4) (by omega)
        (by omega)
      omega
  rw [Int.tdiv_eq_ediv hpR0 (by decide), Int.tdiv_eq_ediv hpS0 (by decide)] at hm3
  have hk0 : 0 ≤ pR / 2 := by omega
  have hk : pR / 2 ≤ 32768 := by omega
  have hl0 : 0 ≤ pS / 2 := by omega
  have hl : pS / 2 ≤ 32768 := by omega
  have hkl0 : 0 ≤ pR / 2 * (pS / 2) := Int.mul_nonneg hk0 hl0
  have hkl : pR / 2 * (pS / 2) ≤ 32768 * 32768 := Int.mul_le_mul hk hl hl0 (by decide)
  rw [wrapInt32_of_range (pR / 2 * (pS / 2)) (by omega) (by omega)] at hm3
  refine ⟨?_, ?_⟩
  · by_contra hlt
    have hprod0 : 0 ≤ pR / 2 * (pS / 2) * params.n_inputs := Int.mul_nonneg hkl0 hC
    rw [wrapInt32_of_range (pR / 2 * (pS / 2) * params.n_inputs) (by omega) (by omega)] at hm3
    omega
  · intro hs2
    have hmod : params.n_inputs.tmod 2 = 0 := by
      by_contra hc
      exact heven ⟨rfl, hs2, by simpa using hc⟩
    rw [Int.tmod_eq_emod hC (by decide)] at hmod
    exact hmod

/-- Witness for C25: a 3x3 filter with 64 channels: `padded_R` and `padded_S` are 4 and
`(4 / 2) * (4 / 2) * 64 >= 18`. -/
theorem IsApplicable_minimum_work_witness :
    ConvBinWinogradRxSf3x2.IsApplicable false (winogradProblem 64 56 56) = some true
      ∧ ((4 : Int) / 2) * ((4 : Int) / 2) * (winogradProblem 64 56 56).n_inputs ≥ 18 :=
  ⟨by decide,
   (IsApplicable_minimum_work false (winogradProblem 64 56 56) 4 4 (by decide) (by decide)
      (by decide)
      ⟨by decide, by decide, fun x hx hle => by
        have h3 : (3 : Int) ≤ x := hle
        omega⟩
      (by
        show if (3 : Int) ≤ 2 then (4 : Int) = 2 else IsLeastMultipleGE 4 3 4
        rw [if_neg (by decide)]
        exact ⟨by decide, by decide, fun x hx hle => by omega⟩)
      (by decide)).1⟩

/-! ## The kernel build pipeline -/

/-- C22: when the compiler subprocess has run and the object file `<filename>.o` is not in
the scratch directory afterwards, `HipBuild` throws the build error whose message is
the source file name followed by " failed to compile"; the compiler call is the only
`Execute` call made, so the extraction step is not run, and no pair of paths is
returned. This holds for every source file name, source text, parameters, device
name and toolchain. -/
theorem HipBuild_missing_object_throws (env : BuildEnv) (tmp_dir : TmpDir)
    (filename src params dev_name : String) (keep_llvmir : Bool)
    (compiled : List (String × String))
    (hlinux : env.linux = true)
    (hrun : env.Execute (HipBuild_staged env tmp_dir filename src)
        (HipBuild_compile env tmp_dir filename params dev_name keep_llvmir).1
        (HipBuild_compile env tmp_dir filename params dev_name keep_llvmir).2 = .ok compiled)
    (hmissing : fileExists compiled (filename ++ ".o") = false) :
    (HipBuild env tmp_dir filename src params dev_name keep_llvmir).result
        = .threw (MIOPEN_THROW (filename ++ " failed to compile"))
      ∧ (MIOPEN_THROW (filename ++ " failed to compile")).message
          = filename ++ " failed to compile"
      ∧ (HipBuild env tmp_dir filename src params dev_name keep_llvmir).executed
          = [HipBuild_compile env tmp_dir filename params dev_name keep_llvmir]
      ∧ (HipBuild env tmp_dir filename src params dev_name keep_llvmir).files = compiled
      ∧ ∀ first second, (HipBuild env tmp_dir filename src params dev_name keep_llvmir).result
          ≠ .returned first second := by
  have hF : HipBuild env tmp_dir filename src params dev_name keep_llvmir
      = { result := .threw (MIOPEN_THROW (filename ++ " failed to compile"))
          files := compiled
          executed := [HipBuild_compile env tmp_dir filename params dev_name keep_llvmir] } := by
    unfold HipBuild
    rw [if_pos hlinux, hrun]
    simp only [hmissing, Bool.not_false, if_true]
  rw [hF]
  refine ⟨rfl, rfl, rfl, rfl, ?_⟩
  intro first second h
  cases h

/-- Witness for C22: a compiler stub that ends without writing the object file. -/
theorem HipBuild_missing_object_throws_witness :
    (HipBuild stubEnv scratchDir "kernel.cpp" "kernel" "-DX" "gfx900" false).result
        = .threw (MIOPEN_THROW "kernel.cpp failed to compile")
      ∧ (HipBuild stubEnv scratchDir "kernel.cpp" "kernel" "-DX" "gfx900" false).executed
        = [HipBuild_compile stubEnv scratchDir "kernel.cpp" "-DX" "gfx900" false] :=
  ⟨(HipBuild_missing_object_throws stubEnv scratchDir "kernel.cpp" "kernel" "-DX" "gfx900" false
      _ rfl rfl (by decide)).1,
   (HipBuild_missing_object_throws stubEnv scratchDir "kernel.cpp" "kernel" "-DX" "gfx900" false
      _ rfl rfl (by decide)).2.2.1⟩

/-- C23, the code at the failing inputs, for an hcc toolchain whose compiler writes the
object file. When the extraction tool leaves no file of extension ".hsaco", the
past-the-end `directory_iterator` is dereferenced (`hsaco->path()`): the call neither
throws nor returns a pair of paths, its behaviour is undefined. The same holds
when intermediate retention is requested and a ".hsaco" file is there but no
"*.opt.bc" file (`llvmir->path()`). With both files present a pair of paths is
returned. -/
theorem HipBuild_missing_hsaco_undefined :
    (HipBuild (hccEnv []) scratchDir "kernel.cpp" "kernel" "-DX" "gfx900" false).result
        = .undefinedBehaviour
      ∧ fileExists (HipBuild (hccEnv []) scratchDir "kernel.cpp" "kernel" "-DX" "gfx900"
          false).files "kernel.cpp.o" = true
      ∧ (HipBuild (hccEnv [("kernel.hsaco", "binary")]) scratchDir "kernel.cpp" "kernel" "-DX"
          "gfx900" true).result = .undefinedBehaviour
      ∧ (HipBuild (hccEnv [("kernel.hsaco", "binary")]) scratchDir "kernel.cpp" "kernel" "-DX"
          "gfx900" false).result = .returned "/tmp/miopen-0/kernel.hsaco" ""
      ∧ (HipBuild (hccEnv [("kernel.hsaco", "binary"), ("kernel.opt.bc", "ir")]) scratchDir
          "kernel.cpp" "kernel" "-DX" "gfx900" true).result
        = .returned "/tmp/miopen-0/kernel.hsaco" "/tmp/miopen-0/kernel.opt.bc" := by
  decide

end miopen
